import Mathlib

/-!
# compilium code generator: register allocator and instruction emitter

A shallow embedding of `src/generate.c`.

Modelling conventions.

* The C globals (`reg_assign_infos`, `RealRegAssignTable`, `RealRegRefOrder`,
  `order_count`, the `static int num` of `GetLabelNumber`, the `label_number`
  fields of the label nodes) and the text written to `fp` are the fields of one
  `State` value that is threaded through every function.
* A C array is a total function from the index.  An index outside the declared
  bounds has no meaning in C; the statements about the allocator contract keep
  vreg ids in `1..127` and registers in `1..9`, so they stay inside the bounds.
* `int` is `Int`.  The counters only ever grow by one per event, so the signed
  overflow that C leaves undefined would need more than 2^31 allocator events
  or labels; it is outside the model.
* `Error(...)` never returns: a function that can reach it returns in `Except`.
* `printf` and `PrintRegisterAssignment` write diagnostics to stdout only and
  touch no state; they are left out.
* Every `fprintf(fp, ...)` appends one `Line`; `Line.render` is its text.
-/

namespace Compilium

/-! ## Constants and tables -/

def NUM_OF_SCRATCH_REGS : Int := 9

def REAL_REG_RAX : Int := 1
def REAL_REG_RDI : Int := 2
def REAL_REG_RSI : Int := 3
def REAL_REG_RDX : Int := 4
def REAL_REG_RCX : Int := 5
def REAL_REG_R8 : Int := 6
def REAL_REG_R9 : Int := 7
def REAL_REG_R10 : Int := 8
def REAL_REG_R11 : Int := 9

def NUM_OF_ASSIGN_INFOS : Int := 128

/-- The table `ScratchRegNames[NUM_OF_SCRATCH_REGS + 1]`; an index outside
`0..9` is outside the array and yields the empty text here. -/
def ScratchRegNames (i : Int) : String :=
  if i = 0 then "NULL"
  else if i = 1 then "rax"
  else if i = 2 then "rdi"
  else if i = 3 then "rsi"
  else if i = 4 then "rdx"
  else if i = 5 then "rcx"
  else if i = 6 then "r8"
  else if i = 7 then "r9"
  else if i = 8 then "r10"
  else if i = 9 then "r11"
  else ""

/-- The indices visited by `for (int i = 1; i < NUM_OF_SCRATCH_REGS + 1; i++)`. -/
def scratchIndices : List Int := [1, 2, 3, 4, 5, 6, 7, 8, 9]

/-! ## Emitted text -/

/-- One `fprintf(fp, ...)` of `generate.c`: the format and its arguments. -/
inductive Line where
  /-- `"mov [rip + L%d], %s\n"` of `SpillVirtualRegister`. -/
  | spill_store (label : Int) (reg : String)
  /-- `"mov %s, %s # vreg %d\n"` of `AssignVirtualRegToRealReg`. -/
  | move_vreg (dst src : String) (vreg : Int)
  /-- `"mov %s, [rip + L%d]\n"` of `AssignVirtualRegToRealReg`. -/
  | reload (reg : String) (label : Int)
  /-- `"L%d: .quad 0\n"` of `GenerateSpillData`. -/
  | quad (label : Int)
  /-- A format without arguments, such as `"ret\n"`; `text` has no newline. -/
  | fixed (text : String)
  /-- `".global %s%s\n"`. -/
  | global (pre name : String)
  /-- `"%s%s:\n"`, the label of a function. -/
  | func_label (pre name : String)
  /-- `"sub     rsp, %d\n"`. -/
  | sub_rsp (size : Int)
  /-- `"mov %s, %d\n"` of `LoadImm`. -/
  | mov_imm (dst : String) (n : Int)
  /-- `"jmp L%d\n"`. -/
  | jmp (label : Int)
  /-- `"L%d:\n"`. -/
  | label_def (label : Int)
  /-- `".asciz  \"%s\"\n"`. -/
  | asciz (str : String)
  /-- `"lea     %s, [rip + L%d]\n"`. -/
  | lea_label (dst : String) (label : Int)
  /-- `"lea     %s, [rip + %s%s]\n"`. -/
  | lea_symbol (dst pre name : String)
  /-- `"<mnemonic> %s, %s\n"`: `add`, `sub`, `and`, `xor`, `or`, `cmp`, `mov`, and the
  format `" %s, %s\n"` of `LogicalAnd`, whose mnemonic is empty. -/
  | instr2 (mnemonic a b : String)
  /-- `"imul %s\n"`. -/
  | imul (src : String)
  /-- `"mov %s, rax\n"`. -/
  | mov_from_rax (dst : String)
  /-- `"cmp %s, 0\n"`. -/
  | cmp_zero (a : String)
  /-- `"call %s%s\n"`. -/
  | call (pre name : String)
  /-- `"mov [rbp - %d], %s\n"`. -/
  | store_local (byte_ofs : Int) (src : String)
  /-- `"mov %s, [rbp - %d]\n"`. -/
  | load_local (dst : String) (byte_ofs : Int)
  /-- `"je L%d\n"`. -/
  | je (label : Int)
  /-- `"jne L%d\n"`. -/
  | jne (label : Int)
  deriving DecidableEq, Repr

/-- Text of `%d` for an `int`. -/
def fmtInt (n : Int) : String := toString n

/-- The text one `fprintf` writes. -/
def Line.render : Line → String
  | .spill_store label reg => "mov [rip + L" ++ fmtInt label ++ "], " ++ reg ++ "\n"
  | .move_vreg dst src vreg => "mov " ++ dst ++ ", " ++ src ++ " # vreg " ++ fmtInt vreg ++ "\n"
  | .reload reg label => "mov " ++ reg ++ ", [rip + L" ++ fmtInt label ++ "]\n"
  | .quad label => "L" ++ fmtInt label ++ ": .quad 0\n"
  | .fixed text => text ++ "\n"
  | .global pre name => ".global " ++ pre ++ name ++ "\n"
  | .func_label pre name => pre ++ name ++ ":\n"
  | .sub_rsp size => "sub     rsp, " ++ fmtInt size ++ "\n"
  | .mov_imm dst n => "mov " ++ dst ++ ", " ++ fmtInt n ++ "\n"
  | .jmp label => "jmp L" ++ fmtInt label ++ "\n"
  | .label_def label => "L" ++ fmtInt label ++ ":\n"
  | .asciz str => ".asciz  \"" ++ str ++ "\"\n"
  | .lea_label dst label => "lea     " ++ dst ++ ", [rip + L" ++ fmtInt label ++ "]\n"
  | .lea_symbol dst pre name => "lea     " ++ dst ++ ", [rip + " ++ pre ++ name ++ "]\n"
  | .instr2 mnemonic a b => mnemonic ++ " " ++ a ++ ", " ++ b ++ "\n"
  | .imul src => "imul " ++ src ++ "\n"
  | .mov_from_rax dst => "mov " ++ dst ++ ", rax\n"
  | .cmp_zero a => "cmp " ++ a ++ ", 0\n"
  | .call pre name => "call " ++ pre ++ name ++ "\n"
  | .store_local byte_ofs src => "mov [rbp - " ++ fmtInt byte_ofs ++ "], " ++ src ++ "\n"
  | .load_local dst byte_ofs => "mov " ++ dst ++ ", [rbp - " ++ fmtInt byte_ofs ++ "]\n"
  | .je label => "je L" ++ fmtInt label ++ "\n"
  | .jne label => "jne L" ++ fmtInt label ++ "\n"

/-! ## Allocator state -/

/-- The struct `RegAssignInfo`. -/
structure RegAssignInfo where
  save_label_num : Int
  real_reg : Int
  deriving DecidableEq, Repr

/-- The ways `Error(...)` is reached in `generate.c`. -/
inductive Fatal where
  /-- `Error("SelectVirtualRegisterToSpill: NOT_REACHED")`. -/
  | select_not_reached
  /-- `Error("FindFreeRealReg: NOT_REACHED")`. -/
  | find_free_not_reached
  /-- `Error("reg_id out of range (%d)", reg_id)`. -/
  | reg_id_out_of_range (reg_id : Int)
  /-- `Error("func_name is null")`. -/
  | func_name_is_null
  /-- `Error("op is null!")`. -/
  | op_is_null
  /-- `Error("%s is not valid as integer.", s)`. -/
  | not_valid_as_integer (s : String)
  /-- `Error("kILOpLoadImm: not implemented for token type %d", ...)`. -/
  | load_imm_not_implemented
  /-- `Error("kILOpLoadIdent: not implemented for token type %d", ...)`. -/
  | load_ident_not_implemented
  /-- `Error("call_params is not an ASTList")`. -/
  | call_params_not_a_list
  /-- `Error("call_params[0] is not an ASTIdent")`. -/
  | call_params_0_not_an_ident
  /-- `Error("var is not an ASTLocalVar")`. -/
  | var_not_a_local_var
  /-- `Error("Label is null")`. -/
  | label_is_null
  /-- `Error("Not implemented code generation for ILOp%s", ...)`. -/
  | not_implemented (op_name : String)
  /-- A null pointer is dereferenced: a `ToAST...` cast that the code does not check
  was applied to a node of another kind. -/
  | null_dereference
  deriving DecidableEq, Repr

/-- The globals of `generate.c` and the stream `fp`. -/
structure State where
  /-- The array `reg_assign_infos[NUM_OF_ASSIGN_INFOS]`. -/
  reg_assign_infos : Int → RegAssignInfo
  /-- The array `RealRegAssignTable[NUM_OF_SCRATCH_REGS + 1]`; 0 is "none". -/
  RealRegAssignTable : Int → Int
  /-- The array `RealRegRefOrder[NUM_OF_SCRATCH_REGS + 1]`. -/
  RealRegRefOrder : Int → Int
  order_count : Int
  /-- The `static int num` of `GetLabelNumber`. -/
  num : Int
  /-- The field `label_number` of each label node, by the identity of the node. -/
  label_number : Nat → Int
  /-- The lines written to `fp`, oldest first. -/
  out : List Line

/-- The state at program start: zero-initialised arrays, `order_count = 1`,
`num = 1`, fresh label nodes, nothing written. -/
def State.init : State where
  reg_assign_infos := fun _ => { save_label_num := 0, real_reg := 0 }
  RealRegAssignTable := fun _ => 0
  RealRegRefOrder := fun _ => 0
  order_count := 1
  num := 1
  label_number := fun _ => 0
  out := []

/-- One `fprintf(fp, ...)`. -/
def State.emit (s : State) (l : Line) : State :=
  { s with out := s.out ++ [l] }

/-- The function `GetLabelNumber`: `return num++`. -/
def GetLabelNumber (s : State) : Int × State :=
  (s.num, { s with num := s.num + 1 })

/-- The statement `RealRegRefOrder[real_reg] = order_count++`. -/
def State.touch (s : State) (real_reg : Int) : State :=
  { s with
    RealRegRefOrder := Function.update s.RealRegRefOrder real_reg s.order_count
    order_count := s.order_count + 1 }

/-! ## Allocator -/

/-- The function `SelectVirtualRegisterToSpill`: the occupant of the first register,
in index order, that is occupied and whose stamp is at most
`order_count - NUM_OF_SCRATCH_REGS`. -/
def SelectVirtualRegisterToSpill (s : State) : Except Fatal Int :=
  match scratchIndices.find? (fun i =>
      decide (s.RealRegAssignTable i ≠ 0) &&
        decide (s.RealRegRefOrder i ≤ s.order_count - NUM_OF_SCRATCH_REGS)) with
  | some i => .ok (s.RealRegAssignTable i)
  | none => .error .select_not_reached

/-- The function `SpillVirtualRegister`. -/
def SpillVirtualRegister (s : State) (virtual_reg : Int) : State :=
  let s1 : State :=
    if (s.reg_assign_infos virtual_reg).save_label_num = 0 then
      let r := GetLabelNumber s
      { r.2 with
        reg_assign_infos := Function.update r.2.reg_assign_infos virtual_reg
          { r.2.reg_assign_infos virtual_reg with save_label_num := r.1 } }
    else s
  let info := s1.reg_assign_infos virtual_reg
  let s2 := s1.emit (.spill_store info.save_label_num (ScratchRegNames info.real_reg))
  let s3 : State :=
    { s2 with RealRegAssignTable := Function.update s2.RealRegAssignTable info.real_reg 0 }
  { s3 with
    reg_assign_infos := Function.update s3.reg_assign_infos virtual_reg
      { s3.reg_assign_infos virtual_reg with real_reg := 0 } }

/-- The function `SpillRealRegister`. -/
def SpillRealRegister (s : State) (rreg : Int) : State :=
  if s.RealRegAssignTable rreg ≠ 0 then
    SpillVirtualRegister s (s.RealRegAssignTable rreg)
  else s

/-- The function `SpillAllRealRegisters`: `SpillRealRegister` for `i = 1, ..., 9`. -/
def SpillAllRealRegisters (s : State) : State :=
  scratchIndices.foldl SpillRealRegister s

/-- The scan `for (i = 1; i < NUM_OF_SCRATCH_REGS + 1; i++) if (!RealRegAssignTable[i]) return i;`
of `FindFreeRealReg`. -/
def firstFreeRealReg (s : State) : Option Int :=
  scratchIndices.find? (fun i => decide (s.RealRegAssignTable i = 0))

/-- The function `FindFreeRealReg`. -/
def FindFreeRealReg (s : State) : Except Fatal (Int × State) :=
  match firstFreeRealReg s with
  | some i => .ok (i, s)
  | none =>
    match SelectVirtualRegisterToSpill s with
    | .error e => .error e
    | .ok v =>
      let s1 := SpillVirtualRegister s v
      match firstFreeRealReg s1 with
      | some i => .ok (i, s1)
      | none => .error .find_free_not_reached

/-- The function `AssignVirtualRegToRealReg` ("pin"). -/
def AssignVirtualRegToRealReg (s : State) (virtual_reg real_reg : Int) : State :=
  if (s.reg_assign_infos virtual_reg).real_reg = real_reg then
    s.touch real_reg
  else
    let s1 := SpillRealRegister s real_reg
    let info := s1.reg_assign_infos virtual_reg
    let s2 : State :=
      if info.real_reg ≠ 0 then
        let t := s1.emit (.move_vreg (ScratchRegNames real_reg) (ScratchRegNames info.real_reg)
          virtual_reg)
        { t with RealRegAssignTable := Function.update t.RealRegAssignTable info.real_reg 0 }
      else if info.save_label_num ≠ 0 then
        s1.emit (.reload (ScratchRegNames real_reg) info.save_label_num)
      else s1
    let s3 : State :=
      { s2 with RealRegAssignTable := Function.update s2.RealRegAssignTable real_reg virtual_reg }
    let s4 := s3.touch real_reg
    { s4 with
      reg_assign_infos := Function.update s4.reg_assign_infos virtual_reg
        { s4.reg_assign_infos virtual_reg with real_reg := real_reg } }

/-- The function `AssignRegister` ("request_any"); the result is the returned name
and the state after the call. -/
def AssignRegister (s : State) (reg_id : Int) : Except Fatal (String × State) :=
  if reg_id < 1 ∨ NUM_OF_ASSIGN_INFOS ≤ reg_id then
    .error (.reg_id_out_of_range reg_id)
  else
    let info := s.reg_assign_infos reg_id
    if info.real_reg ≠ 0 then
      .ok (ScratchRegNames info.real_reg, s.touch info.real_reg)
    else
      match FindFreeRealReg s with
      | .error e => .error e
      | .ok (real_reg, s1) =>
        .ok (ScratchRegNames real_reg, AssignVirtualRegToRealReg s1 reg_id real_reg)

/-- A call of one of the allocator entry points the emitter uses. -/
inductive AllocOp where
  /-- `AssignRegister(fp, v)`. -/
  | request_any (v : Int)
  /-- `AssignVirtualRegToRealReg(fp, v, p)`. -/
  | pin (v p : Int)
  /-- `SpillRealRegister(fp, p)`. -/
  | spill (p : Int)
  /-- `SpillAllRealRegisters(fp)`. -/
  | spill_all
  deriving DecidableEq, Repr

/-- The arguments are a vreg id in `1..127` and a physical register in `1..9`. -/
def AllocOp.InRange : AllocOp → Prop
  | .request_any v => 1 ≤ v ∧ v ≤ 127
  | .pin v p => (1 ≤ v ∧ v ≤ 127) ∧ (1 ≤ p ∧ p ≤ 9)
  | .spill p => 1 ≤ p ∧ p ≤ 9
  | .spill_all => True

/-- One allocator call. -/
def AllocOp.run (s : State) : AllocOp → Except Fatal State
  | .request_any v =>
    match AssignRegister s v with
    | .error e => .error e
    | .ok r => .ok r.2
  | .pin v p => .ok (AssignVirtualRegToRealReg s v p)
  | .spill p => .ok (SpillRealRegister s p)
  | .spill_all => .ok (SpillAllRealRegisters s)

/-- A sequence of allocator calls, stopping at the first fatal error. -/
def runAllocOps (s : State) : List AllocOp → Except Fatal State
  | [] => .ok s
  | op :: ops =>
    match op.run s with
    | .error e => .error e
    | .ok s1 => runAllocOps s1 ops

/-! ## The C library call of `LoadImm` -/

/-- The predicate `isspace` in the "C" locale. -/
def isSpace (c : Char) : Bool :=
  c = ' ' || c = '\t' || c = '\n' || c = '\x0b' || c = '\x0c' || c = '\r'

/-- The value of a digit or letter, as `strtol` reads it. -/
def digitValue (c : Char) : Option Nat :=
  if '0' ≤ c ∧ c ≤ '9' then some (c.toNat - 48)
  else if 'a' ≤ c ∧ c ≤ 'z' then some (c.toNat - 97 + 10)
  else if 'A' ≤ c ∧ c ≤ 'Z' then some (c.toNat - 65 + 10)
  else none

/-- The value of `c` when it is a digit of the base. -/
def digitIn (base : Nat) (c : Char) : Option Nat :=
  (digitValue c).filter (fun d => decide (d < base))

/-- The longest run of digits of the base: its value on top of `acc`, and the rest. -/
def readDigits (base : Nat) : List Char → Nat → Nat × List Char
  | [], acc => (acc, [])
  | c :: cs, acc =>
    match digitIn base c with
    | some d => readDigits base cs (acc * base + d)
    | none => (acc, c :: cs)

def LONG_MAX : Int := 2 ^ 63 - 1
def LONG_MIN : Int := -(2 ^ 63)

/-- The call `strtol(s, &p, 0)` of the C library on an LP64 target, for a text without
an embedded NUL: the `long` returned and the text `p` points at.  White space and one
sign are skipped, `0x`/`0X` before a hexadecimal digit selects base 16, another leading
`0` base 8, anything else base 10; without a digit nothing is converted (0 is returned
and `p` is `s`); a value outside `long` is clamped to `LONG_MIN`/`LONG_MAX`. -/
def strtol (nptr : List Char) : Int × List Char :=
  let s1 := nptr.dropWhile isSpace
  let signed : Bool × List Char :=
    match s1 with
    | '-' :: r => (true, r)
    | '+' :: r => (false, r)
    | _ => (false, s1)
  let s2 := signed.2
  let based : Nat × List Char :=
    match s2 with
    | '0' :: x :: d :: r =>
      if (x = 'x' ∨ x = 'X') ∧ (digitIn 16 d).isSome then (16, d :: r) else (8, s2)
    | '0' :: _ => (8, s2)
    | _ => (10, s2)
  match based.2 with
  | [] => (0, nptr)
  | c :: _ =>
    if (digitIn based.1 c).isNone then (0, nptr)
    else
      let r := readDigits based.1 based.2 0
      let v : Int := if signed.1 then -(r.1 : Int) else (r.1 : Int)
      (max LONG_MIN (min LONG_MAX v), r.2)

/-- The conversion of a `long` to `int` in `int n = strtol(...)`: the low 32 bits,
read as a two's complement number (what gcc and clang define). -/
def longToInt (v : Int) : Int :=
  (v + 2 ^ 31) % 2 ^ 32 - 2 ^ 31

/-! ## IL operations

The declarations of the IL types are not part of `src/` (`compilium.h` there belongs to
another revision), so the types below hold exactly the fields `generate.c` reads. -/

/-- The opcodes `GenerateCode` switches on; `other` is any opcode that reaches the
`default:` branch, with the name `GetILOpTypeName` gives it. -/
inductive ILOpType where
  | kILOpFuncBegin | kILOpFuncEnd | kILOpLoadImm | kILOpLoadIdent | kILOpLoadArg
  | kILOpAdd | kILOpSub | kILOpMul | kILOpDiv | kILOpMod
  | kILOpAnd | kILOpXor | kILOpOr | kILOpLogicalAnd | kILOpLogicalOr
  | kILOpShiftLeft | kILOpShiftRight
  | kILOpCmpG | kILOpCmpGE | kILOpCmpL | kILOpCmpLE | kILOpCmpE | kILOpCmpNE
  | kILOpReturn | kILOpCall | kILOpWriteLocalVar | kILOpReadLocalVar
  | kILOpLabel | kILOpJmpIfZero | kILOpJmpIfNotZero | kILOpSetLogicalValue
  | other (name : String)
  deriving DecidableEq, Repr

/-- The token types `GenerateCode` distinguishes. -/
inductive TokenType where
  | kInteger | kStringLiteral | kIdentifier | other
  deriving DecidableEq, Repr

/-- The fields `type` and `str` of a token. -/
structure Token where
  type : TokenType
  str : String
  deriving DecidableEq, Repr

/-- The node `op->ast_node`, by what the `ToAST...` casts make of it. -/
inductive ASTNode where
  /-- A node none of the casts below accepts (or no node). -/
  | none
  /-- `ASTConstant`, with its token. -/
  | constant (token : Token)
  /-- `ASTIdent`, with its token. -/
  | ident (token : Token)
  /-- `ASTFuncDef`: the text of the function name token (possibly null) and
  `GetStackSizeForContext(func_def->context)`. -/
  | func_def (func_name : Option String) (stack_size : Int)
  /-- `ASTLocalVar`, with `ofs_in_stack`. -/
  | local_var (ofs_in_stack : Int)
  /-- `ASTLabel`: the identity of the node; its `label_number` is in the state. -/
  | label (node : Nat)
  /-- `ASTILOp` as an element of an argument list, with its `dst_reg`. -/
  | il_op (dst_reg : Int)
  /-- `ASTList`, with its elements. -/
  | list (nodes : List ASTNode)

/-- The struct `ASTILOp`. -/
structure ASTILOp where
  op : ILOpType
  dst_reg : Int
  left_reg : Int
  right_reg : Int
  ast_node : ASTNode

/-- The enum `KernelType`. -/
inductive KernelType where
  | kKernelDarwin | kKernelLinux
  deriving DecidableEq, Repr

/-- The expression `kernel_type == kKernelDarwin ? "_" : ""`. -/
def symbolPre (kernel_type : KernelType) : String :=
  if kernel_type = .kKernelDarwin then "_" else ""

/-! ## Instruction emitter -/

/-- The function `GenerateFuncEpilogue`. -/
def GenerateFuncEpilogue (s : State) : State :=
  ((s.emit (.fixed "mov     rsp, rbp")).emit (.fixed "pop     rbp")).emit (.fixed "ret")

/-- The function `GenerateSpillData`. -/
def GenerateSpillData (s : State) : State :=
  (List.range 128).foldl
    (fun t i =>
      if (t.reg_assign_infos (i : Int)).save_label_num ≠ 0 then
        t.emit (.quad (t.reg_assign_infos (i : Int)).save_label_num)
      else t)
    (s.emit (.fixed ".data"))

/-- The statement `if (!label->label_number) label->label_number = GetLabelNumber();`
followed by a read of `label->label_number`. -/
def ResolveLabelNumber (s : State) (node : Nat) : Int × State :=
  if s.label_number node = 0 then
    let r := GetLabelNumber s
    (r.1, { r.2 with label_number := Function.update r.2.label_number node r.1 })
  else (s.label_number node, s)

/-- The cases `kILOpAdd`, `kILOpSub`, `kILOpAnd`, `kILOpXor`, `kILOpOr`, which differ in
the mnemonic only. -/
def GenerateBinOp (mnemonic : String) (s : State) (op : ASTILOp) : Except Fatal State :=
  match AssignRegister s op.dst_reg with
  | .error e => .error e
  | .ok (dst, s1) =>
    match AssignRegister s1 op.left_reg with
    | .error e => .error e
    | .ok (left, s2) =>
      match AssignRegister s2 op.right_reg with
      | .error e => .error e
      | .ok (right, s3) =>
        .ok ((s3.emit (.instr2 mnemonic left right)).emit (.instr2 "mov" dst left))

/-- The cases `kILOpCmpG` ... `kILOpCmpNE`, which differ in the `set..` line only. -/
def GenerateCmp (setcc : String) (s : State) (op : ASTILOp) : Except Fatal State :=
  let s1 := AssignVirtualRegToRealReg s op.dst_reg REAL_REG_RAX
  match AssignRegister s1 op.left_reg with
  | .error e => .error e
  | .ok (left, s2) =>
    match AssignRegister s2 op.right_reg with
    | .error e => .error e
    | .ok (right, s3) =>
      .ok (((s3.emit (.fixed "xor rax, rax")).emit (.instr2 "cmp" left right)).emit
        (.fixed setcc))

/-- The cases `kILOpShiftLeft` and `kILOpShiftRight`. -/
def GenerateShift (line : String) (s : State) (op : ASTILOp) : State :=
  let s1 := AssignVirtualRegToRealReg s op.left_reg REAL_REG_RAX
  let s2 := AssignVirtualRegToRealReg s1 op.right_reg REAL_REG_RCX
  let s3 := s2.emit (.fixed line)
  AssignVirtualRegToRealReg s3 op.dst_reg REAL_REG_RAX

/-- The loop of `kILOpCall` over the arguments: `nodes` are the elements of
`call_params` from index `i` on. -/
def CallPinParams : State → List ASTNode → Int → Except Fatal State
  | s, [], _ => .ok s
  | s, node :: rest, i =>
    match node with
    | .il_op dst_reg => CallPinParams (AssignVirtualRegToRealReg s dst_reg (i + 1)) rest (i + 1)
    | _ => .error .null_dereference

/-- One iteration of the second loop of `GenerateCode`: the `switch (op->op)`. -/
def GenerateOp (kernel_type : KernelType) (s : State) (op : ASTILOp) : Except Fatal State :=
  match op.op with
  | .kILOpFuncBegin =>
    match op.ast_node with
    | .func_def (some func_name) stack_size =>
      .ok ((((((s.emit (.func_label (symbolPre kernel_type) func_name)).emit
        (.fixed "push    rbp")).emit (.fixed "mov     rbp, rsp")).emit
        (.fixed "mov     rax, 0xf")).emit (.fixed "not     rax")).emit
        (.sub_rsp stack_size) |>.emit (.fixed "and     rsp, rax"))
    | .func_def Option.none _ => .error .func_name_is_null
    | _ => .error .null_dereference
  | .kILOpFuncEnd => .ok (GenerateFuncEpilogue s)
  | .kILOpLoadImm =>
    match AssignRegister s op.dst_reg with
    | .error e => .error e
    | .ok (dst_name, s1) =>
      match op.ast_node with
      | .constant val =>
        match val.type with
        | .kInteger =>
          let r := strtol val.str.toList
          if val.str.toList ≠ [] ∧ r.2 = [] then
            .ok (s1.emit (.mov_imm dst_name (longToInt r.1)))
          else .error (.not_valid_as_integer val.str)
        | .kStringLiteral =>
          let label_for_skip := GetLabelNumber s1
          let label_str := GetLabelNumber label_for_skip.2
          .ok (((((label_str.2.emit (.jmp label_for_skip.1)).emit
            (.label_def label_str.1)).emit (.asciz val.str)).emit
            (.label_def label_for_skip.1)).emit (.lea_label dst_name label_str.1))
        | _ => .error .load_imm_not_implemented
      | _ => .error .null_dereference
  | .kILOpLoadIdent =>
    match AssignRegister s op.dst_reg with
    | .error e => .error e
    | .ok (dst_name, s1) =>
      match op.ast_node with
      | .ident tok =>
        match tok.type with
        | .kIdentifier => .ok (s1.emit (.lea_symbol dst_name (symbolPre kernel_type) tok.str))
        | _ => .error .load_ident_not_implemented
      | _ => .error .null_dereference
  | .kILOpLoadArg =>
    .ok (AssignVirtualRegToRealReg s op.dst_reg (REAL_REG_RDI + op.left_reg))
  | .kILOpAdd => GenerateBinOp "add" s op
  | .kILOpSub => GenerateBinOp "sub" s op
  | .kILOpMul =>
    let s1 := AssignVirtualRegToRealReg s op.left_reg REAL_REG_RAX
    match AssignRegister s1 op.dst_reg with
    | .error e => .error e
    | .ok (dst, s2) =>
      match AssignRegister s2 op.right_reg with
      | .error e => .error e
      | .ok (right, s3) =>
        .ok ((((s3.emit (.fixed "push rdx")).emit (.imul right)).emit
          (.fixed "pop rdx")).emit (.mov_from_rax dst))
  | .kILOpDiv =>
    let s1 := AssignVirtualRegToRealReg s op.left_reg REAL_REG_RAX
    let s2 := AssignVirtualRegToRealReg s1 op.dst_reg REAL_REG_RAX
    let s3 := AssignVirtualRegToRealReg s2 op.right_reg REAL_REG_RCX
    let s4 := SpillRealRegister s3 REAL_REG_RDX
    .ok ((s4.emit (.fixed "mov rdx, 0")).emit (.fixed "idiv rcx"))
  | .kILOpMod =>
    let s1 := AssignVirtualRegToRealReg s op.left_reg REAL_REG_RAX
    let s2 := AssignVirtualRegToRealReg s1 op.right_reg REAL_REG_RCX
    let s3 := SpillRealRegister s2 REAL_REG_RDX
    let s4 := (s3.emit (.fixed "mov rdx, 0")).emit (.fixed "idiv rcx")
    .ok (AssignVirtualRegToRealReg s4 op.dst_reg REAL_REG_RDX)
  | .kILOpAnd => GenerateBinOp "and" s op
  | .kILOpXor => GenerateBinOp "xor" s op
  | .kILOpOr => GenerateBinOp "or" s op
  | .kILOpLogicalAnd =>
    let s1 := AssignVirtualRegToRealReg s op.dst_reg REAL_REG_RAX
    match AssignRegister s1 op.left_reg with
    | .error e => .error e
    | .ok (left, s2) =>
      match AssignRegister s2 op.right_reg with
      | .error e => .error e
      | .ok (right, s3) =>
        .ok (((s3.emit (.cmp_zero left)).emit (.instr2 "" left right)).emit
          (.fixed "setnz al"))
  | .kILOpLogicalOr =>
    let s1 := AssignVirtualRegToRealReg s op.dst_reg REAL_REG_RAX
    match AssignRegister s1 op.left_reg with
    | .error e => .error e
    | .ok (left, s2) =>
      match AssignRegister s2 op.right_reg with
      | .error e => .error e
      | .ok (right, s3) =>
        .ok (((s3.emit (.fixed "xor rax, rax")).emit (.instr2 "or" left right)).emit
          (.fixed "setnz al"))
  | .kILOpShiftLeft => .ok (GenerateShift "SAL rax, cl" s op)
  | .kILOpShiftRight => .ok (GenerateShift "SAR rax, cl" s op)
  | .kILOpCmpG => GenerateCmp "setg al" s op
  | .kILOpCmpGE => GenerateCmp "setge al" s op
  | .kILOpCmpL => GenerateCmp "setl al" s op
  | .kILOpCmpLE => GenerateCmp "setle al" s op
  | .kILOpCmpE => GenerateCmp "sete al" s op
  | .kILOpCmpNE => GenerateCmp "setne al" s op
  | .kILOpReturn =>
    .ok (GenerateFuncEpilogue (AssignVirtualRegToRealReg s op.left_reg REAL_REG_RAX))
  | .kILOpCall =>
    match op.ast_node with
    | .list call_params =>
      match CallPinParams s (call_params.drop 1) 1 with
      | .error e => .error e
      | .ok s1 =>
        match call_params.head? with
        | some (.ident func_ident) =>
          let s2 := s1.emit (.global (symbolPre kernel_type) func_ident.str)
          let s3 := SpillAllRealRegisters s2
          let s4 := s3.emit (.call (symbolPre kernel_type) func_ident.str)
          .ok (AssignVirtualRegToRealReg s4 op.dst_reg REAL_REG_RAX)
        | _ => .error .call_params_0_not_an_ident
    | _ => .error .call_params_not_a_list
  | .kILOpWriteLocalVar =>
    match AssignRegister s op.right_reg with
    | .error e => .error e
    | .ok (right, s1) =>
      match op.ast_node with
      | .local_var ofs_in_stack => .ok (s1.emit (.store_local (8 * ofs_in_stack) right))
      | _ => .error .var_not_a_local_var
  | .kILOpReadLocalVar =>
    match AssignRegister s op.dst_reg with
    | .error e => .error e
    | .ok (dst, s1) =>
      match op.ast_node with
      | .local_var ofs_in_stack => .ok (s1.emit (.load_local dst (8 * ofs_in_stack)))
      | _ => .error .var_not_a_local_var
  | .kILOpLabel =>
    match op.ast_node with
    | .label node =>
      let r := ResolveLabelNumber s node
      .ok (SpillAllRealRegisters (r.2.emit (.label_def r.1)))
    | _ => .error .label_is_null
  | .kILOpJmpIfZero =>
    match AssignRegister s op.left_reg with
    | .error e => .error e
    | .ok (left, s1) =>
      match op.ast_node with
      | .label node =>
        let r := ResolveLabelNumber s1 node
        .ok ((r.2.emit (.cmp_zero left)).emit (.je r.1))
      | _ => .error .label_is_null
  | .kILOpJmpIfNotZero =>
    match AssignRegister s op.left_reg with
    | .error e => .error e
    | .ok (left, s1) =>
      match op.ast_node with
      | .label node =>
        let r := ResolveLabelNumber s1 node
        .ok ((r.2.emit (.cmp_zero left)).emit (.jne r.1))
      | _ => .error .label_is_null
  | .kILOpSetLogicalValue =>
    let s1 := AssignVirtualRegToRealReg s op.dst_reg REAL_REG_RAX
    match AssignRegister s1 op.left_reg with
    | .error e => .error e
    | .ok (left, s2) =>
      .ok (((s2.emit (.fixed "xor rax, rax")).emit (.cmp_zero left)).emit
        (.fixed "setne al"))
  | .other name => .error (.not_implemented name)

/-- The first loop of `GenerateCode`: one `.global` line per `FuncBegin`.  An element
of the list that is not an IL op is `none`; the loop reads `op->op` of it unchecked. -/
def GenerateGlobals (kernel_type : KernelType) : State → List (Option ASTILOp) → Except Fatal State
  | s, [] => .ok s
  | _, Option.none :: _ => .error .null_dereference
  | s, some op :: rest =>
    if op.op = .kILOpFuncBegin then
      match op.ast_node with
      | .func_def (some func_name) _ =>
        GenerateGlobals kernel_type (s.emit (.global (symbolPre kernel_type) func_name)) rest
      | .func_def Option.none _ => .error .func_name_is_null
      | _ => .error .null_dereference
    else GenerateGlobals kernel_type s rest

/-- The second loop of `GenerateCode`. -/
def GenerateOps (kernel_type : KernelType) : State → List (Option ASTILOp) → Except Fatal State
  | s, [] => .ok s
  | _, Option.none :: _ => .error .op_is_null
  | s, some op :: rest =>
    match GenerateOp kernel_type s op with
    | .error e => .error e
    | .ok s1 => GenerateOps kernel_type s1 rest

/-- The function `GenerateCode`. -/
def GenerateCode (s : State) (il : List (Option ASTILOp)) (kernel_type : KernelType) :
    Except Fatal State :=
  match GenerateGlobals kernel_type (s.emit (.fixed ".intel_syntax noprefix")) il with
  | .error e => .error e
  | .ok s1 =>
    match GenerateOps kernel_type s1 il with
    | .error e => .error e
    | .ok s2 => .ok (GenerateSpillData s2)

/-- One event of a translation: an allocator call or the code generation of an IL op. -/
inductive Step where
  | alloc (op : AllocOp)
  | il (kernel_type : KernelType) (op : ASTILOp)

/-- One event. -/
def Step.run (s : State) : Step → Except Fatal State
  | .alloc op => op.run s
  | .il kernel_type op => GenerateOp kernel_type s op

/-- A sequence of events, stopping at the first fatal error. -/
def runSteps (s : State) : List Step → Except Fatal State
  | [] => .ok s
  | st :: rest =>
    match st.run s with
    | .error e => .error e
    | .ok s1 => runSteps s1 rest

/-! ## Invariants of the allocator state -/

/-- The allocator tables agree with each other and hold values of their range: the
record of a vreg names a register exactly when the register table names the vreg
there, `real_reg` is `0` (none) or a register `1..9`, a table entry is `0` (none) or a
vreg id `1..127`, and the label counter has not gone below its initial value 1. -/
structure Consistent (s : State) : Prop where
  table_iff : ∀ v p : Int, 1 ≤ v → v ≤ 127 → 1 ≤ p → p ≤ 9 →
    ((s.reg_assign_infos v).real_reg = p ↔ s.RealRegAssignTable p = v)
  real_reg_range : ∀ v : Int, 1 ≤ v → v ≤ 127 →
    0 ≤ (s.reg_assign_infos v).real_reg ∧ (s.reg_assign_infos v).real_reg ≤ 9
  table_range : ∀ p : Int, 1 ≤ p → p ≤ 9 →
    0 ≤ s.RealRegAssignTable p ∧ s.RealRegAssignTable p ≤ 127
  num_pos : 1 ≤ s.num

/-- The reference-order stamps are older than the tick, and two occupied registers
never carry the same stamp. -/
structure StampsFresh (s : State) : Prop where
  below_tick : ∀ p : Int, 1 ≤ p → p ≤ 9 → s.RealRegRefOrder p < s.order_count
  distinct : ∀ p q : Int, 1 ≤ p → p ≤ 9 → 1 ≤ q → q ≤ 9 →
    s.RealRegAssignTable p ≠ 0 → s.RealRegAssignTable q ≠ 0 →
    s.RealRegRefOrder p = s.RealRegRefOrder q → p = q

/-- All nine scratch registers are occupied. -/
def AllOccupied (s : State) : Prop :=
  ∀ p : Int, 1 ≤ p → p ≤ 9 → s.RealRegAssignTable p ≠ 0

/-! ## Auxiliary definitions for the statements -/

/-- The line `AssignVirtualRegToRealReg` writes once the target register is free, read
in the state `s1` it has then: a register move when the vreg sits in another register,
a reload when it only has a spill label, nothing otherwise. -/
def pinMoveLines (s1 : State) (v p : Int) : List Line :=
  if (s1.reg_assign_infos v).real_reg ≠ 0 then
    [Line.move_vreg (ScratchRegNames p) (ScratchRegNames (s1.reg_assign_infos v).real_reg) v]
  else if (s1.reg_assign_infos v).save_label_num ≠ 0 then
    [Line.reload (ScratchRegNames p) (s1.reg_assign_infos v).save_label_num]
  else []

/-- The stores a run of `SpillRealRegister` over the registers `l` writes, read off the
state `s` before it and the labels in the state `t` after it. -/
def spillStores (s t : State) (l : List Int) : List Line :=
  (l.filter (fun p => decide (s.RealRegAssignTable p ≠ 0))).map
    (fun p => Line.spill_store (t.reg_assign_infos (s.RealRegAssignTable p)).save_label_num
      (ScratchRegNames p))

/-- The line is a spill store `mov [rip + Lk], <reg>`. -/
def Line.isSpillStore : Line → Bool
  | .spill_store _ _ => true
  | _ => false

/-- The loop of `kILOpCall` on argument nodes that all are IL ops: the vregs `args` are
pinned to the registers `i + 1`, `i + 2`, ... in turn. -/
def pinArgs : State → List Int → Int → State
  | s, [], _ => s
  | s, a :: rest, i => pinArgs (AssignVirtualRegToRealReg s a (i + 1)) rest (i + 1)

/-- A relation between an earlier and a later state that every primitive of the
code generator respects. -/
structure StepClosed (R : State → State → Prop) : Prop where
  refl : ∀ s, R s s
  trans : ∀ a b c, R a b → R b c → R a c
  emit : ∀ s l, R s (s.emit l)
  touch : ∀ s p, R s (s.touch p)
  spill_vreg : ∀ s v, R s (SpillVirtualRegister s v)
  table_write : ∀ (s : State) (f : Int → Int), R s { s with RealRegAssignTable := f }
  real_reg_write : ∀ (s : State) (v p : Int), R s { s with
    reg_assign_infos := Function.update s.reg_assign_infos v
      { s.reg_assign_infos v with real_reg := p } }
  label : ∀ s, R s (GetLabelNumber s).2
  node_write : ∀ (s : State) (f : Nat → Int), R s { s with label_number := f }

/-- A spill label that is set is the same in the later state. -/
def LabelsKept (s s' : State) : Prop :=
  ∀ v : Int, (s.reg_assign_infos v).save_label_num ≠ 0 →
    (s'.reg_assign_infos v).save_label_num = (s.reg_assign_infos v).save_label_num

/-- The later state has the text of the earlier one and possibly more lines after it. -/
def OutExtends (s s' : State) : Prop := ∃ l : List Line, s'.out = s.out ++ l

/-! ## Concrete states and runs -/

/-- A run that fills the nine registers, forces a spill, moves a vreg and spills. -/
def c1_ops : List AllocOp :=
  [.request_any 1, .request_any 2, .request_any 3, .request_any 4, .request_any 5,
   .request_any 6, .request_any 7, .request_any 8, .request_any 9, .request_any 10,
   .pin 3 1, .pin 11 5, .spill 2, .request_any 1, .spill_all, .pin 127 9]

/-- Nine fresh vregs fill the registers `rax..r11` in order. -/
def fill9 : List AllocOp :=
  [.request_any 1, .request_any 2, .request_any 3, .request_any 4, .request_any 5,
   .request_any 6, .request_any 7, .request_any 8, .request_any 9]

/-- After `fill9`, vreg 1 is used again, then vregs 3..9, then vreg 3. -/
def c7_ops : List AllocOp :=
  fill9 ++
  [.request_any 1, .request_any 3, .request_any 4, .request_any 5, .request_any 6,
   .request_any 7, .request_any 8, .request_any 9, .request_any 3]

/-- Vreg 1 in `rax` and vreg 2 in `rdi`, placed by two pins from the initial state. -/
def twoResident : State :=
  AssignVirtualRegToRealReg (AssignVirtualRegToRealReg State.init 1 1) 2 2

/-- The state `twoResident` after `spill_all`: vregs 1 and 2 have the labels 1 and 2. -/
def twoSpilled : State := SpillAllRealRegisters twoResident

/-- Vreg 1 in `rax`, vreg 2 in `rdi` and vreg 3 in `rsi`. -/
def threeResident : State := AssignVirtualRegToRealReg twoResident 3 3

/-- Later events: a constant load into vreg 3, an addition that reloads vregs 1 and 2, a
label, and a return of vreg 1. -/
def c5_steps : List Step :=
  [.il .kKernelLinux ⟨.kILOpLoadImm, 3, 0, 0, .constant ⟨.kInteger, "42"⟩⟩,
   .il .kKernelLinux ⟨.kILOpAdd, 4, 1, 2, .none⟩,
   .alloc (.pin 2 1),
   .il .kKernelLinux ⟨.kILOpLabel, 0, 0, 0, .label 0⟩,
   .alloc (.request_any 9),
   .il .kKernelLinux ⟨.kILOpReturn, 0, 1, 0, .none⟩]

/-- The call `g(v3, v1)` with result in vreg 9. -/
def c8_call : ASTILOp :=
  ⟨.kILOpCall, 9, 0, 0, .list (.ident ⟨.kIdentifier, "g"⟩ :: [3, 1].map ASTNode.il_op)⟩

/-- The nine registers filled by `fill9`; the next request has to spill. -/
def nineResident : State :=
  AssignVirtualRegToRealReg (AssignVirtualRegToRealReg (AssignVirtualRegToRealReg
  (AssignVirtualRegToRealReg (AssignVirtualRegToRealReg (AssignVirtualRegToRealReg
  (AssignVirtualRegToRealReg (AssignVirtualRegToRealReg (AssignVirtualRegToRealReg
    State.init 1 1) 2 2) 3 3) 4 4) 5 5) 6 6) 7 7) 8 8) 9 9

/-! ## Residence, kinds of lines, label numbers and spill labels -/

/-- The vreg `w` is recorded in a register `1..9` and the register table agrees. -/
def Resident (s : State) (w : Int) : Prop :=
  (1 ≤ (s.reg_assign_infos w).real_reg ∧ (s.reg_assign_infos w).real_reg ≤ 9) ∧
    s.RealRegAssignTable (s.reg_assign_infos w).real_reg = w

/-- The mnemonic of a pure binary op, as the cases `kILOpAdd`, `kILOpSub`, `kILOpAnd`,
`kILOpXor`, `kILOpOr` of `GenerateCode` print it. -/
def binopMnemonic : ILOpType → Option String
  | .kILOpAdd => some "add"
  | .kILOpSub => some "sub"
  | .kILOpAnd => some "and"
  | .kILOpXor => some "xor"
  | .kILOpOr => some "or"
  | _ => none

/-- The `set..` line of a comparison, as the cases `kILOpCmpG` ... `kILOpCmpNE` of
`GenerateCode` print it. -/
def cmpSetcc : ILOpType → Option String
  | .kILOpCmpG => some "setg al"
  | .kILOpCmpGE => some "setge al"
  | .kILOpCmpL => some "setl al"
  | .kILOpCmpLE => some "setle al"
  | .kILOpCmpE => some "sete al"
  | .kILOpCmpNE => some "setne al"
  | _ => none

/-- The nine pins that build `nineResident`. -/
def pins9 : List AllocOp :=
  [.pin 1 1, .pin 2 2, .pin 3 3, .pin 4 4, .pin 5 5, .pin 6 6, .pin 7 7, .pin 8 8, .pin 9 9]

/-- Vreg 5 in `rdx`, nothing else resident. -/
def rdxHeld : State := AssignVirtualRegToRealReg State.init 5 4

/-- The line is one the allocator writes: a spill store, a register move or a reload. -/
def Line.isAlloc : Line → Bool
  | .spill_store _ _ => true
  | .move_vreg _ _ _ => true
  | .reload _ _ => true
  | _ => false

/-- The line is an entry `Lk: .quad 0` of the spill directory. -/
def Line.isQuad : Line → Bool
  | .quad _ => true
  | _ => false

/-- The line is written by a case of `GenerateCode` itself: neither an allocator line
nor an entry of the spill directory. -/
def Line.isPlain (l : Line) : Bool := !l.isAlloc && !l.isQuad

/-- The spill label of a line that accesses a spill slot: `mov [rip + Lk], r` or
`mov r, [rip + Lk]`. -/
def Line.spillLabel? : Line → Option Int
  | .spill_store k _ => some k
  | .reload _ k => some k
  | _ => none

/-- The number in a line that names the label of a label node: `je Lk`, `jne Lk`
or `Lk:`. -/
def Line.jumpLabel? : Line → Option Int
  | .je k => some k
  | .jne k => some k
  | .label_def k => some k
  | _ => none

/-- The `dst_reg` of an argument node of a call that is an IL op. -/
def ASTNode.argReg? : ASTNode → Option Int
  | .il_op dst_reg => some dst_reg
  | _ => Option.none

/-- The vregs of the arguments of a call: the elements of `call_params` after the
first. -/
def ASTNode.callArgs : ASTNode → List Int
  | .list call_params => (call_params.drop 1).filterMap ASTNode.argReg?
  | _ => []

/-- The vregs that the case of the op hands to `AssignVirtualRegToRealReg`, which does
not check their range (the other operands go through `AssignRegister`, which does). -/
def ASTILOp.pinned (op : ASTILOp) : List Int :=
  match op.op with
  | .kILOpLoadArg => [op.dst_reg]
  | .kILOpMul => [op.left_reg]
  | .kILOpDiv => [op.left_reg, op.dst_reg, op.right_reg]
  | .kILOpMod => [op.left_reg, op.right_reg, op.dst_reg]
  | .kILOpLogicalAnd => [op.dst_reg]
  | .kILOpLogicalOr => [op.dst_reg]
  | .kILOpShiftLeft => [op.left_reg, op.right_reg, op.dst_reg]
  | .kILOpShiftRight => [op.left_reg, op.right_reg, op.dst_reg]
  | .kILOpCmpG => [op.dst_reg]
  | .kILOpCmpGE => [op.dst_reg]
  | .kILOpCmpL => [op.dst_reg]
  | .kILOpCmpLE => [op.dst_reg]
  | .kILOpCmpE => [op.dst_reg]
  | .kILOpCmpNE => [op.dst_reg]
  | .kILOpReturn => [op.left_reg]
  | .kILOpCall => op.dst_reg :: op.ast_node.callArgs
  | .kILOpSetLogicalValue => [op.dst_reg]
  | _ => []

/-- A relation between an earlier and a later state that the allocator respects, as
long as the vregs given to `AssignVirtualRegToRealReg` satisfy `V`. -/
structure AllocClosed (V : Int → Prop) (R : State → State → Prop) : Prop where
  refl : ∀ s, R s s
  trans : ∀ a b c, R a b → R b c → R a c
  touch : ∀ s p, R s (s.touch p)
  spill : ∀ s p, R s (SpillRealRegister s p)
  pin : ∀ s v p, V v → R s (AssignVirtualRegToRealReg s v p)
  range : ∀ v : Int, 1 ≤ v → v ≤ 127 → V v

/-- A relation that the cases of `GenerateCode` respect as well. -/
structure OpClosed (V : Int → Prop) (R : State → State → Prop) extends AllocClosed V R : Prop where
  emit : ∀ s l, Line.isPlain l = true → R s (s.emit l)
  label : ∀ s, R s (GetLabelNumber s).2
  node : ∀ s n, R s (ResolveLabelNumber s n).2

/-- The numbers of the label nodes are fresh: the counter is at least 1, every
`label_number` is below the counter, and two nodes never share a non-zero number. -/
def NodesFresh (s : State) : Prop :=
  1 ≤ s.num ∧ (∀ n : Nat, s.label_number n < s.num) ∧
  ∀ n m : Nat, s.label_number n ≠ 0 → s.label_number n = s.label_number m → n = m

/-- From fresh label numbers the step leads to fresh label numbers, and a
`label_number` that is set stays as it is. -/
def NodesKept (s s' : State) : Prop :=
  NodesFresh s →
    NodesFresh s' ∧ ∀ n : Nat, s.label_number n ≠ 0 → s'.label_number n = s.label_number n

/-- The later state has the text of the earlier one and allocator lines after it. -/
def AllocOnly (s s' : State) : Prop :=
  ∃ l : List Line, s'.out = s.out ++ l ∧ ∀ x ∈ l, Line.isAlloc x = true

/-- The op is a `Label`, `JmpIfZero` or `JmpIfNotZero` whose node is the label
node `n`. -/
def ASTILOp.namesLabel (op : ASTILOp) (n : Nat) : Prop :=
  (op.op = .kILOpLabel ∨ op.op = .kILOpJmpIfZero ∨ op.op = .kILOpJmpIfNotZero) ∧
    op.ast_node = .label n

/-- The line in which an op that names a label prints the number `k`. -/
def ILOpType.labelLine : ILOpType → Int → Option Line
  | .kILOpLabel, k => some (.label_def k)
  | .kILOpJmpIfZero, k => some (.je k)
  | .kILOpJmpIfNotZero, k => some (.jne k)
  | _, _ => none

/-- A forward reference: a conditional jump to node 7, one to node 8, then the label
of node 7. -/
def c18_ops : List (Option ASTILOp) :=
  [some ⟨.kILOpJmpIfZero, 0, 1, 0, .label 7⟩, some ⟨.kILOpJmpIfNotZero, 0, 1, 0, .label 8⟩,
   some ⟨.kILOpLabel, 0, 0, 0, .label 7⟩]

/-- The spill labels are in order: the label counter is at least 1; every spill label
is below the counter; two vregs never share a non-zero label; only vregs `1..127` have
a label; the register table holds `0` or a vreg id `1..127` at every index; and the
text written so far has no directory entry, while the label of each spill store and
reload in it is the non-zero label of some vreg. -/
structure SpillInv (s : State) : Prop where
  num_pos : 1 ≤ s.num
  label_lt : ∀ v : Int, (s.reg_assign_infos v).save_label_num < s.num
  label_inj : ∀ v w : Int, (s.reg_assign_infos v).save_label_num ≠ 0 →
    (s.reg_assign_infos v).save_label_num = (s.reg_assign_infos w).save_label_num → v = w
  label_range : ∀ v : Int, (s.reg_assign_infos v).save_label_num ≠ 0 → 1 ≤ v ∧ v ≤ 127
  table_range : ∀ p : Int, 0 ≤ s.RealRegAssignTable p ∧ s.RealRegAssignTable p ≤ 127
  lines : ∀ x ∈ s.out, Line.isQuad x = false ∧ ∀ k : Int, Line.spillLabel? x = some k →
    k ≠ 0 ∧ ∃ v : Int, (s.reg_assign_infos v).save_label_num = k

/-- The step keeps `SpillInv`. -/
def SpillKept (s s' : State) : Prop := SpillInv s → SpillInv s'

/-- The spill directory as the specification describes it: one line `Lk: .quad 0` for
each vreg `0..127` whose spill label `k` is not 0, in the order of the vregs. -/
def spillDirectory (s : State) : List Line :=
  ((List.range 128).filter
    (fun i : Nat => decide ((s.reg_assign_infos (i : Int)).save_label_num ≠ 0))).map
    (fun i : Nat => Line.quad (s.reg_assign_infos (i : Int)).save_label_num)

/-- An argument is loaded into vreg 1, a label spills it, and it is returned. -/
def c17_il : List (Option ASTILOp) :=
  [some ⟨.kILOpLoadArg, 1, 0, 0, .none⟩, some ⟨.kILOpLabel, 0, 0, 0, .label 3⟩,
   some ⟨.kILOpReturn, 0, 1, 0, .none⟩]

/-! ## Placement of a vreg, stored evictions, decimal numerals -/

/-- The vreg is resident in a register or has a spill label. -/
def Placed (s : State) (v : Int) : Prop :=
  (s.reg_assign_infos v).real_reg ≠ 0 ∨ (s.reg_assign_infos v).save_label_num ≠ 0

/-- The text of the later state is the text of the earlier one and the lines `l`, and
every vreg `1..127` that was resident before and is not resident after has a non-zero
spill label after, while `l` contains its store from the register it was in. -/
def EvictionsStored (s s' : State) (l : List Line) : Prop :=
  s'.out = s.out ++ l ∧
    ∀ w : Int, 1 ≤ w → w ≤ 127 → (s.reg_assign_infos w).real_reg ≠ 0 →
      (s'.reg_assign_infos w).real_reg = 0 →
      (s'.reg_assign_infos w).save_label_num ≠ 0 ∧
      Line.spill_store (s'.reg_assign_infos w).save_label_num
        (ScratchRegNames (s.reg_assign_infos w).real_reg) ∈ l

/-- The value of a decimal numeral, read digit by digit. -/
def decimalValue (cs : List Char) : Nat :=
  cs.foldl (fun acc c => acc * 10 + (c.toNat - 48)) 0

/-- The vreg `w` is in the register it was in, or it has a spill label and the lines
added to the text contain its store from the register it was in. -/
def KeptOrStored (a b : State) (w : Int) : Prop :=
  (b.reg_assign_infos w).real_reg = (a.reg_assign_infos w).real_reg ∨
  ((b.reg_assign_infos w).save_label_num ≠ 0 ∧ ∃ l : List Line, b.out = a.out ++ l ∧
    Line.spill_store (b.reg_assign_infos w).save_label_num
      (ScratchRegNames (a.reg_assign_infos w).real_reg) ∈ l)

/-- The nine registers filled by `fill9`, then vregs 1, 2 and 3 requested again: the
register `rdx` with vreg 4 is the first stale one. -/
def rdxStale : List AllocOp :=
  fill9 ++ [.request_any 1, .request_any 2, .request_any 3]

/-! # Lemmas -/

/-! ## Field-by-field description of the allocator functions -/

theorem SpillVirtualRegister_real_reg (s : State) (v w : Int) :
    ((SpillVirtualRegister s v).reg_assign_infos w).real_reg =
      if w = v then 0 else (s.reg_assign_infos w).real_reg := by
  unfold SpillVirtualRegister GetLabelNumber State.emit
  by_cases h : (s.reg_assign_infos v).save_label_num = 0 <;>
    by_cases hw : w = v <;> simp [h, hw, Function.update_apply]

theorem SpillVirtualRegister_label (s : State) (v w : Int) :
    ((SpillVirtualRegister s v).reg_assign_infos w).save_label_num =
      if w = v ∧ (s.reg_assign_infos v).save_label_num = 0 then s.num
      else (s.reg_assign_infos w).save_label_num := by
  unfold SpillVirtualRegister GetLabelNumber State.emit
  by_cases h : (s.reg_assign_infos v).save_label_num = 0 <;>
    by_cases hw : w = v <;> simp [h, hw, Function.update_apply]

theorem SpillVirtualRegister_table (s : State) (v p : Int) :
    (SpillVirtualRegister s v).RealRegAssignTable p =
      if p = (s.reg_assign_infos v).real_reg then 0 else s.RealRegAssignTable p := by
  unfold SpillVirtualRegister GetLabelNumber State.emit
  by_cases h : (s.reg_assign_infos v).save_label_num = 0 <;>
    simp [h, Function.update_apply]

theorem SpillVirtualRegister_order (s : State) (v : Int) :
    (SpillVirtualRegister s v).RealRegRefOrder = s.RealRegRefOrder ∧
      (SpillVirtualRegister s v).order_count = s.order_count ∧
      (SpillVirtualRegister s v).label_number = s.label_number := by
  unfold SpillVirtualRegister GetLabelNumber State.emit
  by_cases h : (s.reg_assign_infos v).save_label_num = 0 <;> simp [h]

theorem SpillVirtualRegister_num (s : State) (v : Int) :
    (SpillVirtualRegister s v).num =
      if (s.reg_assign_infos v).save_label_num = 0 then s.num + 1 else s.num := by
  unfold SpillVirtualRegister GetLabelNumber State.emit
  by_cases h : (s.reg_assign_infos v).save_label_num = 0 <;> simp [h]

theorem SpillVirtualRegister_out (s : State) (v : Int) :
    (SpillVirtualRegister s v).out = s.out ++
      [Line.spill_store ((SpillVirtualRegister s v).reg_assign_infos v).save_label_num
        (ScratchRegNames (s.reg_assign_infos v).real_reg)] := by
  unfold SpillVirtualRegister GetLabelNumber State.emit
  by_cases h : (s.reg_assign_infos v).save_label_num = 0 <;> simp [h]

theorem touch_fields (s : State) (p : Int) :
    (s.touch p).reg_assign_infos = s.reg_assign_infos ∧
    (s.touch p).RealRegAssignTable = s.RealRegAssignTable ∧
    (s.touch p).RealRegRefOrder = Function.update s.RealRegRefOrder p s.order_count ∧
    (s.touch p).order_count = s.order_count + 1 ∧
    (s.touch p).num = s.num ∧ (s.touch p).label_number = s.label_number ∧
    (s.touch p).out = s.out := by
  simp [State.touch]

theorem pin_same (s : State) (v p : Int) (h : (s.reg_assign_infos v).real_reg = p) :
    AssignVirtualRegToRealReg s v p = s.touch p := by
  unfold AssignVirtualRegToRealReg
  simp [h]

theorem pin_real_reg (s : State) (v p w : Int) (h : (s.reg_assign_infos v).real_reg ≠ p) :
    ((AssignVirtualRegToRealReg s v p).reg_assign_infos w).real_reg =
      if w = v then p else ((SpillRealRegister s p).reg_assign_infos w).real_reg := by
  unfold AssignVirtualRegToRealReg State.touch State.emit
  simp only [h, if_false]
  by_cases hw : w = v <;> by_cases h1 : ((SpillRealRegister s p).reg_assign_infos v).real_reg = 0 <;>
    by_cases h2 : ((SpillRealRegister s p).reg_assign_infos v).save_label_num = 0 <;>
    simp [hw, h1, h2, Function.update_apply]

theorem pin_label (s : State) (v p w : Int) (h : (s.reg_assign_infos v).real_reg ≠ p) :
    ((AssignVirtualRegToRealReg s v p).reg_assign_infos w).save_label_num =
      ((SpillRealRegister s p).reg_assign_infos w).save_label_num := by
  unfold AssignVirtualRegToRealReg State.touch State.emit
  simp only [h, if_false]
  by_cases hw : w = v <;> by_cases h1 : ((SpillRealRegister s p).reg_assign_infos v).real_reg = 0 <;>
    by_cases h2 : ((SpillRealRegister s p).reg_assign_infos v).save_label_num = 0 <;>
    simp [hw, h1, h2, Function.update_apply]

theorem pin_table (s : State) (v p r : Int) (h : (s.reg_assign_infos v).real_reg ≠ p) :
    (AssignVirtualRegToRealReg s v p).RealRegAssignTable r =
      if r = p then v
      else if ((SpillRealRegister s p).reg_assign_infos v).real_reg ≠ 0 ∧
          r = ((SpillRealRegister s p).reg_assign_infos v).real_reg then 0
      else (SpillRealRegister s p).RealRegAssignTable r := by
  unfold AssignVirtualRegToRealReg State.touch State.emit
  simp only [h, if_false]
  by_cases hr : r = p <;> by_cases h1 : ((SpillRealRegister s p).reg_assign_infos v).real_reg = 0 <;>
    by_cases h2 : ((SpillRealRegister s p).reg_assign_infos v).save_label_num = 0 <;>
    simp [hr, h1, h2, Function.update_apply]

theorem pin_order (s : State) (v p : Int) (h : (s.reg_assign_infos v).real_reg ≠ p) :
    (AssignVirtualRegToRealReg s v p).RealRegRefOrder =
        Function.update (SpillRealRegister s p).RealRegRefOrder p (SpillRealRegister s p).order_count ∧
      (AssignVirtualRegToRealReg s v p).order_count = (SpillRealRegister s p).order_count + 1 ∧
      (AssignVirtualRegToRealReg s v p).num = (SpillRealRegister s p).num ∧
      (AssignVirtualRegToRealReg s v p).label_number = (SpillRealRegister s p).label_number := by
  unfold AssignVirtualRegToRealReg State.touch State.emit
  simp only [h, if_false]
  by_cases h1 : ((SpillRealRegister s p).reg_assign_infos v).real_reg = 0 <;>
    by_cases h2 : ((SpillRealRegister s p).reg_assign_infos v).save_label_num = 0 <;>
    simp [h1, h2]

theorem pin_out (s : State) (v p : Int) (h : (s.reg_assign_infos v).real_reg ≠ p) :
    (AssignVirtualRegToRealReg s v p).out =
      (SpillRealRegister s p).out ++ pinMoveLines (SpillRealRegister s p) v p := by
  unfold AssignVirtualRegToRealReg State.touch State.emit pinMoveLines
  simp only [h, if_false]
  by_cases h1 : ((SpillRealRegister s p).reg_assign_infos v).real_reg = 0 <;>
    by_cases h2 : ((SpillRealRegister s p).reg_assign_infos v).save_label_num = 0 <;>
    simp [h1, h2]

theorem SpillRealRegister_real_reg (s : State) (p w : Int) :
    ((SpillRealRegister s p).reg_assign_infos w).real_reg =
      if s.RealRegAssignTable p ≠ 0 ∧ w = s.RealRegAssignTable p then 0
      else (s.reg_assign_infos w).real_reg := by
  unfold SpillRealRegister
  by_cases h : s.RealRegAssignTable p = 0
  · simp [h]
  · simp only [h, ne_eq, not_false_eq_true, if_true, SpillVirtualRegister_real_reg, true_and]

theorem SpillRealRegister_label (s : State) (p w : Int) :
    ((SpillRealRegister s p).reg_assign_infos w).save_label_num =
      if s.RealRegAssignTable p ≠ 0 ∧ w = s.RealRegAssignTable p ∧
          (s.reg_assign_infos w).save_label_num = 0 then s.num
      else (s.reg_assign_infos w).save_label_num := by
  unfold SpillRealRegister
  by_cases h : s.RealRegAssignTable p = 0
  · simp [h]
  · simp only [h, ne_eq, not_false_eq_true, if_true, SpillVirtualRegister_label, true_and]
    by_cases hw : w = s.RealRegAssignTable p
    · subst hw; simp
    · simp [hw]

theorem SpillRealRegister_order (s : State) (p : Int) :
    (SpillRealRegister s p).RealRegRefOrder = s.RealRegRefOrder ∧
      (SpillRealRegister s p).order_count = s.order_count ∧
      (SpillRealRegister s p).label_number = s.label_number := by
  unfold SpillRealRegister
  split_ifs
  · exact SpillVirtualRegister_order s _
  · exact ⟨rfl, rfl, rfl⟩

theorem SpillRealRegister_num (s : State) (p : Int) :
    (SpillRealRegister s p).num =
      if s.RealRegAssignTable p ≠ 0 ∧
        (s.reg_assign_infos (s.RealRegAssignTable p)).save_label_num = 0 then s.num + 1
      else s.num := by
  unfold SpillRealRegister
  by_cases h0 : s.RealRegAssignTable p = 0
  · simp [h0]
  · simp [h0, SpillVirtualRegister_num]

theorem pin_nonresident (s : State) (v p w : Int) (hwv : w ≠ v)
    (h0 : (s.reg_assign_infos w).real_reg = 0) :
    ((AssignVirtualRegToRealReg s v p).reg_assign_infos w).real_reg = 0 := by
  by_cases hs : (s.reg_assign_infos v).real_reg = p
  · rw [pin_same s v p hs]; exact h0
  · rw [pin_real_reg s v p w hs, if_neg hwv, SpillRealRegister_real_reg]
    split_ifs
    · rfl
    · exact h0

theorem ResolveLabelNumber_fields (s : State) (n : Nat) :
    (ResolveLabelNumber s n).2.reg_assign_infos = s.reg_assign_infos ∧
    (ResolveLabelNumber s n).2.RealRegAssignTable = s.RealRegAssignTable ∧
    (ResolveLabelNumber s n).2.RealRegRefOrder = s.RealRegRefOrder ∧
    (ResolveLabelNumber s n).2.order_count = s.order_count ∧
    (ResolveLabelNumber s n).2.out = s.out ∧
    s.num ≤ (ResolveLabelNumber s n).2.num ∧
    (ResolveLabelNumber s n).2.label_number n = (ResolveLabelNumber s n).1 := by
  unfold ResolveLabelNumber GetLabelNumber
  split_ifs <;> simp

theorem GenerateFuncEpilogue_out (s : State) :
    (GenerateFuncEpilogue s).out =
      s.out ++ [Line.fixed "mov     rsp, rbp", Line.fixed "pop     rbp", Line.fixed "ret"] := by
  simp [GenerateFuncEpilogue, State.emit]

theorem GenerateFuncEpilogue_tables (s : State) :
    (GenerateFuncEpilogue s).RealRegAssignTable = s.RealRegAssignTable ∧
      (GenerateFuncEpilogue s).reg_assign_infos = s.reg_assign_infos := by
  simp [GenerateFuncEpilogue, State.emit]

theorem SpillAllRealRegisters_label_number (s : State) :
    (SpillAllRealRegisters s).label_number = s.label_number := by
  have key : ∀ (l : List Int) (t : State),
      (l.foldl SpillRealRegister t).label_number = t.label_number := by
    intro l
    induction l with
    | nil => intro t; rfl
    | cons a l ih => intro t; rw [List.foldl_cons, ih, (SpillRealRegister_order t a).2.2]
  exact key _ s

/-! ## Consistency is kept by spills and pins -/

theorem SpillVirtualRegister_consistent (s : State) (v : Int) (h : Consistent s)
    (hv1 : 1 ≤ v) (hv2 : v ≤ 127) (hr : (s.reg_assign_infos v).real_reg ≠ 0) :
    Consistent (SpillVirtualRegister s v) := by
  have hvr := h.real_reg_range v hv1 hv2
  constructor
  · intro w q hw1 hw2 hq1 hq2
    have a1 := h.table_iff w q hw1 hw2 hq1 hq2
    have a2 := h.table_iff v q hv1 hv2 hq1 hq2
    have a3 := h.table_iff w (s.reg_assign_infos v).real_reg hw1 hw2 (by omega) (by omega)
    rw [SpillVirtualRegister_real_reg, SpillVirtualRegister_table]
    split_ifs <;> omega
  · intro w hw1 hw2
    have := h.real_reg_range w hw1 hw2
    rw [SpillVirtualRegister_real_reg]
    split_ifs <;> omega
  · intro q hq1 hq2
    have := h.table_range q hq1 hq2
    rw [SpillVirtualRegister_table]
    split_ifs <;> omega
  · have := h.num_pos
    rw [SpillVirtualRegister_num]
    split_ifs <;> omega

theorem SpillRealRegister_consistent (s : State) (p : Int) (h : Consistent s)
    (hp1 : 1 ≤ p) (hp2 : p ≤ 9) : Consistent (SpillRealRegister s p) := by
  unfold SpillRealRegister
  split_ifs with h0
  · have r := h.table_range p hp1 hp2
    have a := h.table_iff (s.RealRegAssignTable p) p (by omega) (by omega) hp1 hp2
    exact SpillVirtualRegister_consistent s _ h (by omega) (by omega) (by omega)
  · exact h

theorem touch_consistent (s : State) (p : Int) (h : Consistent s) : Consistent (s.touch p) :=
  ⟨h.table_iff, h.real_reg_range, h.table_range, h.num_pos⟩

theorem consistent_of_tables (s t : State) (h : Consistent s)
    (hi : t.reg_assign_infos = s.reg_assign_infos)
    (ht : t.RealRegAssignTable = s.RealRegAssignTable) (hn : s.num ≤ t.num) : Consistent t := by
  constructor
  · rw [hi, ht]; exact h.table_iff
  · rw [hi]; exact h.real_reg_range
  · rw [ht]; exact h.table_range
  · have := h.num_pos; omega

theorem emit_consistent (s : State) (l : Line) (h : Consistent s) : Consistent (s.emit l) :=
  consistent_of_tables s _ h rfl rfl (le_refl _)

theorem SpillRealRegister_table (s : State) (p r : Int) (h : Consistent s)
    (hp1 : 1 ≤ p) (hp2 : p ≤ 9) :
    (SpillRealRegister s p).RealRegAssignTable r = if r = p then 0 else s.RealRegAssignTable r := by
  unfold SpillRealRegister
  by_cases h0 : s.RealRegAssignTable p = 0
  · simp only [h0, ne_eq, not_true_eq_false, if_false]
    split_ifs with hr
    · rw [hr, h0]
    · rfl
  · have r0 := h.table_range p hp1 hp2
    have a := h.table_iff (s.RealRegAssignTable p) p (by omega) (by omega) hp1 hp2
    simp only [h0, ne_eq, not_false_eq_true, if_true, SpillVirtualRegister_table, a.mpr rfl]

theorem SpillRealRegister_out (s : State) (p : Int) (h : Consistent s)
    (hp1 : 1 ≤ p) (hp2 : p ≤ 9) :
    (SpillRealRegister s p).out = s.out ++
      if s.RealRegAssignTable p ≠ 0 then
        [Line.spill_store
          ((SpillRealRegister s p).reg_assign_infos (s.RealRegAssignTable p)).save_label_num
          (ScratchRegNames p)]
      else [] := by
  by_cases h0 : s.RealRegAssignTable p = 0
  · simp [SpillRealRegister, h0]
  · have r0 := h.table_range p hp1 hp2
    have a := h.table_iff (s.RealRegAssignTable p) p (by omega) (by omega) hp1 hp2
    have e : SpillRealRegister s p = SpillVirtualRegister s (s.RealRegAssignTable p) := by
      simp [SpillRealRegister, h0]
    rw [e]
    simp only [h0, ne_eq, not_false_eq_true, if_true, SpillVirtualRegister_out, a.mpr rfl]

theorem pin_consistent (s : State) (v p : Int) (h : Consistent s)
    (hv1 : 1 ≤ v) (hv2 : v ≤ 127) (hp1 : 1 ≤ p) (hp2 : p ≤ 9) :
    Consistent (AssignVirtualRegToRealReg s v p) := by
  by_cases hs : (s.reg_assign_infos v).real_reg = p
  · rw [pin_same s v p hs]; exact touch_consistent s p h
  · have h1 := SpillRealRegister_consistent s p h hp1 hp2
    have hf : (SpillRealRegister s p).RealRegAssignTable p = 0 := by
      rw [SpillRealRegister_table s p p h hp1 hp2]; simp
    have hq : ((SpillRealRegister s p).reg_assign_infos v).real_reg ≠ p := by
      rw [SpillRealRegister_real_reg]; split_ifs <;> omega
    have hvr := h1.real_reg_range v hv1 hv2
    constructor
    · intro w r hw1 hw2 hr1 hr2
      have a1 := h1.table_iff w r hw1 hw2 hr1 hr2
      have a2 := h1.table_iff v r hv1 hv2 hr1 hr2
      have a3 := h1.table_iff w p hw1 hw2 hp1 hp2
      have a4 := h1.table_iff v p hv1 hv2 hp1 hp2
      rw [pin_real_reg s v p w hs, pin_table s v p r hs]
      split_ifs <;> omega
    · intro w hw1 hw2
      have := h1.real_reg_range w hw1 hw2
      rw [pin_real_reg s v p w hs]
      split_ifs <;> omega
    · intro r hr1 hr2
      have := h1.table_range r hr1 hr2
      rw [pin_table s v p r hs]
      split_ifs <;> omega
    · rw [(pin_order s v p hs).2.2.1]; exact h1.num_pos

theorem pin_target (s : State) (v p : Int) (h : Consistent s)
    (hv1 : 1 ≤ v) (hv2 : v ≤ 127) (hp1 : 1 ≤ p) (hp2 : p ≤ 9) :
    (AssignVirtualRegToRealReg s v p).RealRegAssignTable p = v := by
  by_cases hs : (s.reg_assign_infos v).real_reg = p
  · rw [pin_same s v p hs]; exact (h.table_iff v p hv1 hv2 hp1 hp2).mp hs
  · rw [pin_table s v p p hs]; simp

/-- A pin leaves alone every register other than its target that does not hold the
pinned vreg. -/
theorem pin_table_frame (s : State) (v p r : Int) (h : Consistent s)
    (hv1 : 1 ≤ v) (hv2 : v ≤ 127) (hp1 : 1 ≤ p) (hp2 : p ≤ 9) (hr1 : 1 ≤ r) (hr2 : r ≤ 9)
    (hrp : r ≠ p) (hrv : s.RealRegAssignTable r ≠ v) :
    (AssignVirtualRegToRealReg s v p).RealRegAssignTable r = s.RealRegAssignTable r := by
  by_cases hs : (s.reg_assign_infos v).real_reg = p
  · rw [pin_same s v p hs]; rfl
  · have hiff := h.table_iff v r hv1 hv2 hr1 hr2
    have hifp := h.table_iff v p hv1 hv2 hp1 hp2
    have hq : ((SpillRealRegister s p).reg_assign_infos v).real_reg =
        (s.reg_assign_infos v).real_reg := by
      rw [SpillRealRegister_real_reg, if_neg]
      rintro ⟨_, h2⟩; exact hs (hifp.mpr h2.symm)
    rw [pin_table s v p r hs, if_neg hrp, hq, if_neg, SpillRealRegister_table s p r h hp1 hp2,
      if_neg hrp]
    rintro ⟨_, h2⟩; exact hrv (hiff.mp h2.symm)

/-- The lines of `AssignVirtualRegToRealReg(v, p)` in a consistent state: the store of
another occupant of `p`, then the move or the reload of `v`. -/
theorem pin_out_consistent (s : State) (v p : Int) (h : Consistent s)
    (hv1 : 1 ≤ v) (hv2 : v ≤ 127) (hp1 : 1 ≤ p) (hp2 : p ≤ 9) :
    (AssignVirtualRegToRealReg s v p).out = s.out ++
      (if s.RealRegAssignTable p ≠ 0 ∧ s.RealRegAssignTable p ≠ v then
        [Line.spill_store
          ((AssignVirtualRegToRealReg s v p).reg_assign_infos (s.RealRegAssignTable p)).save_label_num
          (ScratchRegNames p)]
       else []) ++
      (if (s.reg_assign_infos v).real_reg ≠ 0 ∧ (s.reg_assign_infos v).real_reg ≠ p then
        [Line.move_vreg (ScratchRegNames p) (ScratchRegNames (s.reg_assign_infos v).real_reg) v]
       else if (s.reg_assign_infos v).real_reg = 0 ∧ (s.reg_assign_infos v).save_label_num ≠ 0 then
        [Line.reload (ScratchRegNames p) (s.reg_assign_infos v).save_label_num]
       else []) := by
  have hiff := h.table_iff v p hv1 hv2 hp1 hp2
  by_cases hs : (s.reg_assign_infos v).real_reg = p
  · have ht := hiff.mp hs
    rw [pin_same s v p hs]
    have e1 : ¬ (s.RealRegAssignTable p ≠ 0 ∧ s.RealRegAssignTable p ≠ v) := by
      rintro ⟨_, h2⟩; exact h2 ht
    have e2 : ¬ ((s.reg_assign_infos v).real_reg ≠ 0 ∧ (s.reg_assign_infos v).real_reg ≠ p) := by
      rintro ⟨_, h2⟩; exact h2 hs
    have e3 : ¬ ((s.reg_assign_infos v).real_reg = 0 ∧
        (s.reg_assign_infos v).save_label_num ≠ 0) := by
      rintro ⟨h1, _⟩; omega
    rw [if_neg e1, if_neg e2, if_neg e3]
    simp [State.touch]
  · have hne : s.RealRegAssignTable p ≠ v := fun ht => hs (hiff.mpr ht)
    have hvr : ((SpillRealRegister s p).reg_assign_infos v).real_reg =
        (s.reg_assign_infos v).real_reg := by
      rw [SpillRealRegister_real_reg, if_neg]
      rintro ⟨_, h2⟩; exact hne h2.symm
    have hvl : ((SpillRealRegister s p).reg_assign_infos v).save_label_num =
        (s.reg_assign_infos v).save_label_num := by
      rw [SpillRealRegister_label, if_neg]
      rintro ⟨_, h2, _⟩; exact hne h2.symm
    rw [pin_out s v p hs, SpillRealRegister_out s p h hp1 hp2, pin_label s v p _ hs]
    unfold pinMoveLines
    rw [hvr, hvl]
    congr 1
    · congr 1
      by_cases h0 : s.RealRegAssignTable p = 0
      · simp [h0]
      · simp [h0, hne]
    · by_cases hr0 : (s.reg_assign_infos v).real_reg = 0
      · simp [hr0]
      · simp [hr0, hs]

/-! ## The register scans -/

theorem mem_scratchIndices (i : Int) : i ∈ scratchIndices ↔ 1 ≤ i ∧ i ≤ 9 := by
  simp only [scratchIndices, List.mem_cons, List.mem_singleton, List.not_mem_nil, or_false]
  omega

theorem scratchIndices_nodup : scratchIndices.Nodup := by
  simp [scratchIndices]

theorem find?_scratchIndices_some (f : Int → Bool) (i : Int)
    (h : scratchIndices.find? f = some i) :
    (1 ≤ i ∧ i ≤ 9) ∧ f i = true ∧ ∀ j : Int, 1 ≤ j → j < i → f j = false := by
  have hm := (mem_scratchIndices i).mp (List.mem_of_find?_eq_some h)
  refine ⟨hm, List.find?_some h, ?_⟩
  obtain ⟨_, as, bs, hl, hf⟩ := List.find?_eq_some.mp h
  intro j hj1 hj2
  have hj : j ∈ scratchIndices := (mem_scratchIndices j).mpr ⟨hj1, by omega⟩
  have hs : List.Pairwise (fun a b : Int => a < b) scratchIndices := by
    simp [scratchIndices]
  rw [hl] at hj hs
  rcases List.mem_append.mp hj with hja | hjb
  · simpa using hf j hja
  · exfalso
    rcases List.mem_cons.mp hjb with e | hjb
    · omega
    · have := (List.pairwise_cons.mp (List.pairwise_append.mp hs).2.1).1 j hjb
      omega

theorem find?_scratchIndices_none (f : Int → Bool) (h : scratchIndices.find? f = none)
    (j : Int) (hj1 : 1 ≤ j) (hj2 : j ≤ 9) : f j = false := by
  have := List.find?_eq_none.mp h j ((mem_scratchIndices j).mpr ⟨hj1, hj2⟩)
  simpa using this

theorem firstFreeRealReg_some (s : State) (i : Int) (h : firstFreeRealReg s = some i) :
    (1 ≤ i ∧ i ≤ 9) ∧ s.RealRegAssignTable i = 0 ∧
      ∀ j : Int, 1 ≤ j → j < i → s.RealRegAssignTable j ≠ 0 := by
  obtain ⟨hr, hi, hj⟩ := find?_scratchIndices_some _ i h
  refine ⟨hr, by simpa using hi, ?_⟩
  intro j h1 h2
  simpa using hj j h1 h2

theorem firstFreeRealReg_none (s : State) (h : firstFreeRealReg s = none) : AllOccupied s := by
  intro j h1 h2
  simpa using find?_scratchIndices_none _ h j h1 h2

theorem firstFreeRealReg_isSome (s : State) (p : Int) (hp1 : 1 ≤ p) (hp2 : p ≤ 9)
    (h : s.RealRegAssignTable p = 0) : ∃ i, firstFreeRealReg s = some i := by
  cases e : firstFreeRealReg s with
  | some i => exact ⟨i, rfl⟩
  | none => exact absurd h (firstFreeRealReg_none s e p hp1 hp2)

/-- What `SelectVirtualRegisterToSpill` returns: the occupant of the first register that
is occupied and stale. -/
theorem Select_ok (s : State) (v : Int) (h : SelectVirtualRegisterToSpill s = .ok v) :
    ∃ i : Int, (1 ≤ i ∧ i ≤ 9) ∧ v = s.RealRegAssignTable i ∧ s.RealRegAssignTable i ≠ 0 ∧
      s.RealRegRefOrder i ≤ s.order_count - 9 ∧
      ∀ j : Int, 1 ≤ j → j < i →
        ¬ (s.RealRegAssignTable j ≠ 0 ∧ s.RealRegRefOrder j ≤ s.order_count - 9) := by
  unfold SelectVirtualRegisterToSpill at h
  split at h
  · rename_i i hi
    obtain ⟨hr, hp, hj⟩ := find?_scratchIndices_some _ i hi
    simp only [NUM_OF_SCRATCH_REGS, Bool.and_eq_true, decide_eq_true_eq] at hp
    refine ⟨i, hr, by injection h with h; exact h.symm, hp.1, hp.2, ?_⟩
    intro j h1 h2
    have := hj j h1 h2
    simp only [NUM_OF_SCRATCH_REGS, Bool.and_eq_false_iff, decide_eq_false_iff_not] at this
    tauto
  · cases h

theorem Select_error (s : State) (e : Fatal) (h : SelectVirtualRegisterToSpill s = .error e) :
    e = .select_not_reached ∧ ∀ j : Int, 1 ≤ j → j ≤ 9 →
      ¬ (s.RealRegAssignTable j ≠ 0 ∧ s.RealRegRefOrder j ≤ s.order_count - 9) := by
  unfold SelectVirtualRegisterToSpill at h
  split at h
  · cases h
  · rename_i hi
    refine ⟨by injection h with h; exact h.symm, ?_⟩
    intro j h1 h2
    have := find?_scratchIndices_none _ hi j h1 h2
    simp only [NUM_OF_SCRATCH_REGS, Bool.and_eq_false_iff, decide_eq_false_iff_not] at this
    tauto

theorem FindFreeRealReg_ok (s : State) (i : Int) (s1 : State) (h : Consistent s)
    (e : FindFreeRealReg s = .ok (i, s1)) :
    (firstFreeRealReg s = some i ∧ s1 = s) ∨
    (AllOccupied s ∧ s1 = SpillVirtualRegister s (s.RealRegAssignTable i) ∧
      (1 ≤ i ∧ i ≤ 9) ∧ s.RealRegRefOrder i ≤ s.order_count - 9 ∧
      ∀ j : Int, 1 ≤ j → j < i → ¬ s.RealRegRefOrder j ≤ s.order_count - 9) := by
  unfold FindFreeRealReg at e
  cases hf : firstFreeRealReg s with
  | some i0 =>
    simp only [hf] at e
    injection e with e
    injection e with e1 e2
    subst e1 e2
    exact Or.inl ⟨rfl, rfl⟩
  | none =>
    have hall := firstFreeRealReg_none s hf
    simp only [hf] at e
    cases hsel : SelectVirtualRegisterToSpill s with
    | error err => simp only [hsel] at e; cases e
    | ok v =>
      simp only [hsel] at e
      obtain ⟨j, hj, hv, hocc, hstale, hfirst⟩ := Select_ok s v hsel
      have hrr : (s.reg_assign_infos (s.RealRegAssignTable j)).real_reg = j := by
        have r0 := h.table_range j hj.1 hj.2
        exact (h.table_iff _ j (by omega) (by omega) hj.1 hj.2).mpr rfl
      cases hf1 : firstFreeRealReg (SpillVirtualRegister s v) with
      | none => simp only [hf1] at e; cases e
      | some i1 =>
        simp only [hf1] at e
        injection e with e
        injection e with e1 e2
        subst e1 e2
        obtain ⟨hi, hz, _⟩ := firstFreeRealReg_some _ i1 hf1
        have hij : i1 = j := by
          rw [hv, SpillVirtualRegister_table, hrr] at hz
          by_contra hne
          rw [if_neg hne] at hz
          exact hall i1 hi.1 hi.2 hz
        subst hij
        refine Or.inr ⟨hall, by rw [hv], hi, hstale, ?_⟩
        intro k hk1 hk2 hk
        exact hfirst k hk1 hk2 ⟨hall k hk1 (by omega), hk⟩

theorem FindFreeRealReg_error (s : State) (e : Fatal) (h : Consistent s)
    (he : FindFreeRealReg s = .error e) :
    e = .select_not_reached ∧ AllOccupied s ∧
      ∀ j : Int, 1 ≤ j → j ≤ 9 → ¬ s.RealRegRefOrder j ≤ s.order_count - 9 := by
  unfold FindFreeRealReg at he
  cases hf : firstFreeRealReg s with
  | some i0 => simp only [hf] at he; cases he
  | none =>
    have hall := firstFreeRealReg_none s hf
    simp only [hf] at he
    cases hsel : SelectVirtualRegisterToSpill s with
    | error err =>
      simp only [hsel] at he
      injection he with he
      subst he
      obtain ⟨h1, h2⟩ := Select_error s err hsel
      exact ⟨h1, hall, fun j hj1 hj2 hk => h2 j hj1 hj2 ⟨hall j hj1 hj2, hk⟩⟩
    | ok v =>
      exfalso
      simp only [hsel] at he
      obtain ⟨j, hj, hv, hocc, hstale, hfirst⟩ := Select_ok s v hsel
      have hrr : (s.reg_assign_infos (s.RealRegAssignTable j)).real_reg = j := by
        have r0 := h.table_range j hj.1 hj.2
        exact (h.table_iff _ j (by omega) (by omega) hj.1 hj.2).mpr rfl
      have hz : (SpillVirtualRegister s v).RealRegAssignTable j = 0 := by
        rw [hv, SpillVirtualRegister_table, hrr]; simp
      obtain ⟨i1, hi1⟩ := firstFreeRealReg_isSome _ j hj.1 hj.2 hz
      simp only [hi1] at he
      cases he

theorem FindFreeRealReg_spec (s : State) (i : Int) (s1 : State) (h : Consistent s)
    (e : FindFreeRealReg s = .ok (i, s1)) :
    (1 ≤ i ∧ i ≤ 9) ∧ s1.RealRegAssignTable i = 0 ∧ Consistent s1 := by
  rcases FindFreeRealReg_ok s i s1 h e with ⟨hf, rfl⟩ | ⟨hall, rfl, hi, _, _⟩
  · obtain ⟨hi, hz, _⟩ := firstFreeRealReg_some _ i hf
    exact ⟨hi, hz, h⟩
  · have r0 := h.table_range i hi.1 hi.2
    have hocc := hall i hi.1 hi.2
    have hrr : (s.reg_assign_infos (s.RealRegAssignTable i)).real_reg = i :=
      (h.table_iff _ i (by omega) (by omega) hi.1 hi.2).mpr rfl
    refine ⟨hi, ?_, SpillVirtualRegister_consistent s _ h (by omega) (by omega) (by omega)⟩
    rw [SpillVirtualRegister_table, hrr]; simp

theorem FindFreeRealReg_real_reg (s : State) (i : Int) (s1 : State) (v : Int) (h : Consistent s)
    (e : FindFreeRealReg s = .ok (i, s1)) (hv : (s.reg_assign_infos v).real_reg = 0) :
    (s1.reg_assign_infos v).real_reg = 0 := by
  rcases FindFreeRealReg_ok s i s1 h e with ⟨_, rfl⟩ | ⟨_, rfl, _, _, _⟩
  · exact hv
  · rw [SpillVirtualRegister_real_reg]; split_ifs <;> simp [hv]

theorem AssignRegister_ok (s : State) (v : Int) (name : String) (s' : State)
    (e : AssignRegister s v = .ok (name, s')) :
    (1 ≤ v ∧ v ≤ 127) ∧
    (((s.reg_assign_infos v).real_reg ≠ 0 ∧ name = ScratchRegNames (s.reg_assign_infos v).real_reg ∧
        s' = s.touch (s.reg_assign_infos v).real_reg) ∨
     ((s.reg_assign_infos v).real_reg = 0 ∧ ∃ i s1, FindFreeRealReg s = .ok (i, s1) ∧
        name = ScratchRegNames i ∧ s' = AssignVirtualRegToRealReg s1 v i)) := by
  unfold AssignRegister at e
  simp only [NUM_OF_ASSIGN_INFOS] at e
  split_ifs at e with h1 h2
  · refine ⟨by omega, Or.inl ⟨h2, ?_⟩⟩
    injection e with e
    injection e with e1 e2
    exact ⟨e1.symm, e2.symm⟩
  · refine ⟨by omega, Or.inr ⟨by simpa using h2, ?_⟩⟩
    cases hf : FindFreeRealReg s with
    | error err => simp only [hf] at e; cases e
    | ok r =>
      obtain ⟨i, s1⟩ := r
      simp only [hf] at e
      injection e with e
      injection e with e1 e2
      exact ⟨i, s1, rfl, e1.symm, e2.symm⟩

theorem AssignRegister_consistent (s : State) (v : Int) (name : String) (s' : State)
    (h : Consistent s) (e : AssignRegister s v = .ok (name, s')) : Consistent s' := by
  obtain ⟨hv, ⟨_, _, rfl⟩ | ⟨_, i, s1, hf, _, rfl⟩⟩ := AssignRegister_ok s v name s' e
  · exact touch_consistent s _ h
  · obtain ⟨hi, _, h1⟩ := FindFreeRealReg_spec s i s1 h hf
    exact pin_consistent s1 v i h1 hv.1 hv.2 hi.1 hi.2

/-! ## Consistency is an invariant of every run -/

theorem foldl_SpillRealRegister_consistent (l : List Int) (s : State) (h : Consistent s)
    (hl : ∀ i ∈ l, 1 ≤ i ∧ i ≤ 9) : Consistent (l.foldl SpillRealRegister s) := by
  induction l generalizing s with
  | nil => exact h
  | cons a l ih =>
    rw [List.foldl_cons]
    have ha := hl a (List.mem_cons_self a l)
    exact ih _ (SpillRealRegister_consistent s a h ha.1 ha.2)
      (fun i hi => hl i (List.mem_cons_of_mem a hi))

theorem SpillAllRealRegisters_consistent (s : State) (h : Consistent s) :
    Consistent (SpillAllRealRegisters s) :=
  foldl_SpillRealRegister_consistent scratchIndices s h (fun i hi => (mem_scratchIndices i).mp hi)

theorem init_consistent : Consistent State.init := by
  constructor
  · intro v p hv1 hv2 hp1 hp2
    simp only [State.init]
    omega
  · intro v _ _; simp [State.init]
  · intro p _ _; simp [State.init]
  · simp [State.init]

theorem AllocOp_run_consistent (s s' : State) (op : AllocOp) (h : Consistent s)
    (hr : op.InRange) (e : op.run s = .ok s') : Consistent s' := by
  cases op with
  | request_any v =>
    simp only [AllocOp.run] at e
    cases ha : AssignRegister s v with
    | error err => simp only [ha] at e; cases e
    | ok r =>
      simp only [ha] at e
      injection e with e
      subst e
      exact AssignRegister_consistent s v r.1 r.2 h ha
  | pin v p =>
    simp only [AllocOp.run] at e
    injection e with e
    subst e
    exact pin_consistent s v p h hr.1.1 hr.1.2 hr.2.1 hr.2.2
  | spill p =>
    simp only [AllocOp.run] at e
    injection e with e
    subst e
    exact SpillRealRegister_consistent s p h hr.1 hr.2
  | spill_all =>
    simp only [AllocOp.run] at e
    injection e with e
    subst e
    exact SpillAllRealRegisters_consistent s h

theorem runAllocOps_consistent (ops : List AllocOp) (s s' : State) (h : Consistent s)
    (hr : ∀ op ∈ ops, op.InRange) (e : runAllocOps s ops = .ok s') : Consistent s' := by
  induction ops generalizing s with
  | nil =>
    simp only [runAllocOps] at e
    injection e with e
    subst e
    exact h
  | cons op ops ih =>
    simp only [runAllocOps] at e
    cases h1 : op.run s with
    | error err => simp only [h1] at e; cases e
    | ok s1 =>
      simp only [h1] at e
      exact ih s1 (AllocOp_run_consistent s s1 op h (hr op (List.mem_cons_self op ops)) h1)
        (fun o ho => hr o (List.mem_cons_of_mem op ho)) e

theorem twoResident_consistent : Consistent twoResident :=
  pin_consistent _ 2 2
    (pin_consistent _ 1 1 init_consistent (by decide) (by decide) (by decide) (by decide))
    (by decide) (by decide) (by decide) (by decide)

theorem threeResident_consistent : Consistent threeResident :=
  pin_consistent _ 3 3 twoResident_consistent (by decide) (by decide) (by decide) (by decide)

/-! ## What `SpillAllRealRegisters` does -/

theorem SpillRealRegister_label_kept (s : State) (p w : Int)
    (hw : (s.reg_assign_infos w).save_label_num ≠ 0) :
    ((SpillRealRegister s p).reg_assign_infos w).save_label_num =
      (s.reg_assign_infos w).save_label_num := by
  rw [SpillRealRegister_label]
  split_ifs with hc
  · exact absurd hc.2.2 hw
  · rfl

theorem SpillVirtualRegister_label_kept (s : State) (v w : Int)
    (hw : (s.reg_assign_infos w).save_label_num ≠ 0) :
    ((SpillVirtualRegister s v).reg_assign_infos w).save_label_num =
      (s.reg_assign_infos w).save_label_num := by
  rw [SpillVirtualRegister_label]
  split_ifs with hc
  · obtain ⟨rfl, h0⟩ := hc; exact absurd h0 hw
  · rfl

theorem SpillRealRegister_label_ne_zero (s : State) (p : Int) (h : Consistent s)
    (h0 : s.RealRegAssignTable p ≠ 0) :
    ((SpillRealRegister s p).reg_assign_infos (s.RealRegAssignTable p)).save_label_num ≠ 0 := by
  rw [SpillRealRegister_label]
  have := h.num_pos
  split_ifs with hc
  · omega
  · intro hl; exact hc ⟨h0, rfl, hl⟩

theorem foldl_SpillRealRegister_spec (l : List Int) (s : State) (h : Consistent s)
    (hl : ∀ i ∈ l, 1 ≤ i ∧ i ≤ 9) (hnd : l.Nodup) :
    (∀ r : Int, (l.foldl SpillRealRegister s).RealRegAssignTable r =
      if r ∈ l then 0 else s.RealRegAssignTable r) ∧
    (∀ w : Int, (s.reg_assign_infos w).save_label_num ≠ 0 →
      ((l.foldl SpillRealRegister s).reg_assign_infos w).save_label_num =
        (s.reg_assign_infos w).save_label_num) ∧
    (∀ p ∈ l, s.RealRegAssignTable p ≠ 0 →
      ((l.foldl SpillRealRegister s).reg_assign_infos (s.RealRegAssignTable p)).save_label_num
        ≠ 0) ∧
    (l.foldl SpillRealRegister s).out = s.out ++ spillStores s (l.foldl SpillRealRegister s) l := by
  induction l generalizing s with
  | nil => simp [spillStores]
  | cons a l ih =>
    have ha := hl a (List.mem_cons_self a l)
    have hnd' := List.nodup_cons.mp hnd
    have h1 := SpillRealRegister_consistent s a h ha.1 ha.2
    obtain ⟨it, ik, il, io⟩ := ih (SpillRealRegister s a) h1
      (fun i hi => hl i (List.mem_cons_of_mem a hi)) hnd'.2
    have hsame : ∀ p ∈ l, (SpillRealRegister s a).RealRegAssignTable p = s.RealRegAssignTable p := by
      intro p hp
      rw [SpillRealRegister_table s a p h ha.1 ha.2, if_neg]
      rintro rfl; exact hnd'.1 hp
    rw [List.foldl_cons]
    refine ⟨?_, ?_, ?_, ?_⟩
    · intro r
      rw [it r, SpillRealRegister_table s a r h ha.1 ha.2]
      by_cases hra : r = a
      · subst hra; simp
      · by_cases hrl : r ∈ l <;> simp [hra, hrl]
    · intro w hw
      have := SpillRealRegister_label_kept s a w hw
      rw [ik w (by rw [this]; exact hw), this]
    · intro p hp h0
      rcases List.mem_cons.mp hp with rfl | hp
      · have := SpillRealRegister_label_ne_zero s p h h0
        rw [ik _ this]; exact this
      · have := il p hp (by rw [hsame p hp]; exact h0)
        rw [hsame p hp] at this
        exact this
    · rw [io, SpillRealRegister_out s a h ha.1 ha.2]
      have e1 : spillStores (SpillRealRegister s a)
          (List.foldl SpillRealRegister (SpillRealRegister s a) l) l =
          spillStores s (List.foldl SpillRealRegister (SpillRealRegister s a) l) l := by
        unfold spillStores
        rw [List.filter_congr (q := fun p => decide (s.RealRegAssignTable p ≠ 0))
          (fun p hp => by rw [hsame p hp])]
        apply List.map_congr_left
        intro p hp
        rw [hsame p (List.mem_filter.mp hp).1]
      rw [e1]
      by_cases h0 : s.RealRegAssignTable a = 0
      · simp [spillStores, List.filter_cons, h0]
      · have := SpillRealRegister_label_ne_zero s a h h0
        simp [spillStores, List.filter_cons, h0, ik _ this]

/-- What `SpillAllRealRegisters` does to a consistent state. -/
theorem SpillAllRealRegisters_spec (s : State) (h : Consistent s) :
    (∀ p : Int, 1 ≤ p → p ≤ 9 → (SpillAllRealRegisters s).RealRegAssignTable p = 0) ∧
    (∀ v : Int, 1 ≤ v → v ≤ 127 → ((SpillAllRealRegisters s).reg_assign_infos v).real_reg = 0) ∧
    (∀ v : Int, 1 ≤ v → v ≤ 127 → (s.reg_assign_infos v).real_reg ≠ 0 →
      ((SpillAllRealRegisters s).reg_assign_infos v).save_label_num ≠ 0) ∧
    (SpillAllRealRegisters s).out = s.out ++
      ((scratchIndices.filter (fun p => decide (s.RealRegAssignTable p ≠ 0))).map
        (fun p => Line.spill_store
          ((SpillAllRealRegisters s).reg_assign_infos (s.RealRegAssignTable p)).save_label_num
          (ScratchRegNames p))) := by
  have hc := SpillAllRealRegisters_consistent s h
  obtain ⟨ht, _, hl, ho⟩ := foldl_SpillRealRegister_spec scratchIndices s h
    (fun i hi => (mem_scratchIndices i).mp hi) scratchIndices_nodup
  have hfree : ∀ p : Int, 1 ≤ p → p ≤ 9 → (SpillAllRealRegisters s).RealRegAssignTable p = 0 := by
    intro p hp1 hp2
    unfold SpillAllRealRegisters
    rw [ht p, if_pos ((mem_scratchIndices p).mpr ⟨hp1, hp2⟩)]
  refine ⟨hfree, ?_, ?_, ho⟩
  · intro v hv1 hv2
    have hr := hc.real_reg_range v hv1 hv2
    by_contra hne
    have := (hc.table_iff v _ hv1 hv2 (by omega) (by omega)).mp rfl
    rw [hfree _ (by omega) (by omega)] at this
    omega
  · intro v hv1 hv2 hres
    have hr := h.real_reg_range v hv1 hv2
    have hp := (h.table_iff v _ hv1 hv2 (by omega) (by omega)).mp rfl
    have := hl (s.reg_assign_infos v).real_reg ((mem_scratchIndices _).mpr (by omega))
      (by rw [hp]; omega)
    rw [hp] at this
    exact this

/-! ## Relations that every step of the code generator respects -/

section Closed

variable {R : State → State → Prop}

theorem StepClosed.spill (hR : StepClosed R) (s : State) (p : Int) :
    R s (SpillRealRegister s p) := by
  unfold SpillRealRegister
  split_ifs
  · exact hR.spill_vreg s _
  · exact hR.refl s

theorem StepClosed.spill_list (hR : StepClosed R) (l : List Int) (s : State) :
    R s (l.foldl SpillRealRegister s) := by
  induction l generalizing s with
  | nil => exact hR.refl s
  | cons a l ih => exact hR.trans _ _ _ (hR.spill s a) (ih _)

theorem StepClosed.spill_all (hR : StepClosed R) (s : State) :
    R s (SpillAllRealRegisters s) :=
  hR.spill_list scratchIndices s

theorem StepClosed.pin (hR : StepClosed R) (s : State) (v p : Int) :
    R s (AssignVirtualRegToRealReg s v p) := by
  unfold AssignVirtualRegToRealReg
  split_ifs with h
  · exact hR.touch s p
  · refine hR.trans _ _ _ (hR.spill s p) ?_
    refine hR.trans _ _ _ ?_ (hR.real_reg_write _ v p)
    refine hR.trans _ _ _ ?_ (hR.touch _ p)
    refine hR.trans _ _ _ ?_ (hR.table_write _ _)
    split_ifs
    · exact hR.trans _ _ _ (hR.emit _ _) (hR.table_write _ _)
    · exact hR.emit _ _
    · exact hR.refl _

theorem StepClosed.find_free (hR : StepClosed R) (s : State) (i : Int) (s1 : State)
    (e : FindFreeRealReg s = .ok (i, s1)) : R s s1 := by
  unfold FindFreeRealReg at e
  split at e
  · injection e with e; injection e with _ e; subst e; exact hR.refl s
  · split at e
    · cases e
    · dsimp only at e
      split at e
      · injection e with e; injection e with _ e; subst e; exact hR.spill_vreg s _
      · cases e

theorem StepClosed.request (hR : StepClosed R) (s : State) (v : Int) (name : String)
    (s' : State) (e : AssignRegister s v = .ok (name, s')) : R s s' := by
  obtain ⟨_, ⟨_, _, rfl⟩ | ⟨_, i, s1, hf, _, rfl⟩⟩ := AssignRegister_ok s v name s' e
  · exact hR.touch s _
  · exact hR.trans _ _ _ (hR.find_free s i s1 hf) (hR.pin s1 v i)

theorem StepClosed.request_right (hR : StepClosed R) {s t t' : State} {v : Int} {name : String}
    (e : AssignRegister t v = .ok (name, t')) (h : R s t) : R s t' :=
  hR.trans _ _ _ h (hR.request t v name t' e)

theorem StepClosed.emit_right (hR : StepClosed R) {s t : State} (l : Line) (h : R s t) :
    R s (t.emit l) :=
  hR.trans _ _ _ h (hR.emit t l)

theorem StepClosed.pin_right (hR : StepClosed R) {s t : State} (v p : Int) (h : R s t) :
    R s (AssignVirtualRegToRealReg t v p) :=
  hR.trans _ _ _ h (hR.pin t v p)

theorem StepClosed.spill_right (hR : StepClosed R) {s t : State} (p : Int) (h : R s t) :
    R s (SpillRealRegister t p) :=
  hR.trans _ _ _ h (hR.spill t p)

theorem StepClosed.spill_all_right (hR : StepClosed R) {s t : State} (h : R s t) :
    R s (SpillAllRealRegisters t) :=
  hR.trans _ _ _ h (hR.spill_all t)

theorem StepClosed.label_right (hR : StepClosed R) {s t : State} (h : R s t) :
    R s (GetLabelNumber t).2 :=
  hR.trans _ _ _ h (hR.label t)

theorem StepClosed.node (hR : StepClosed R) (s : State) (n : Nat) :
    R s (ResolveLabelNumber s n).2 := by
  unfold ResolveLabelNumber
  split_ifs
  · exact hR.trans _ _ _ (hR.label s) (hR.node_write _ _)
  · exact hR.refl s

theorem StepClosed.node_right (hR : StepClosed R) {s t : State} (n : Nat) (h : R s t) :
    R s (ResolveLabelNumber t n).2 :=
  hR.trans _ _ _ h (hR.node t n)

theorem StepClosed.epilogue_right (hR : StepClosed R) {s t : State} (h : R s t) :
    R s (GenerateFuncEpilogue t) :=
  hR.emit_right _ (hR.emit_right _ (hR.emit_right _ h))

theorem StepClosed.call_params (hR : StepClosed R) (nodes : List ASTNode) (s : State) (i : Int)
    (s' : State) (e : CallPinParams s nodes i = .ok s') : R s s' := by
  induction nodes generalizing s i with
  | nil => simp only [CallPinParams] at e; injection e with e; subst e; exact hR.refl s
  | cons n rest ih =>
    cases n with
    | il_op d => simp only [CallPinParams] at e; exact hR.trans _ _ _ (hR.pin s d _) (ih _ _ e)
    | _ => simp only [CallPinParams] at e; cases e

theorem StepClosed.binop (hR : StepClosed R) (m : String) (s : State) (op : ASTILOp) (s' : State)
    (e : GenerateBinOp m s op = .ok s') : R s s' := by
  unfold GenerateBinOp at e
  repeat' split at e
  all_goals cases e
  all_goals repeat (with_reducible first
    | exact hR.refl _
    | apply hR.emit_right
    | refine hR.request_right (by assumption) ?_)

theorem StepClosed.cmp (hR : StepClosed R) (m : String) (s : State) (op : ASTILOp) (s' : State)
    (e : GenerateCmp m s op = .ok s') : R s s' := by
  unfold GenerateCmp at e
  dsimp only at e
  repeat' split at e
  all_goals cases e
  all_goals repeat (with_reducible first
    | exact hR.refl _
    | apply hR.emit_right
    | apply hR.pin_right
    | refine hR.request_right (by assumption) ?_)

theorem StepClosed.shift (hR : StepClosed R) (m : String) (s : State) (op : ASTILOp) :
    R s (GenerateShift m s op) := by
  unfold GenerateShift
  dsimp only
  repeat (with_reducible first
    | exact hR.refl _
    | apply hR.emit_right
    | apply hR.pin_right)

theorem StepClosed.generate_op (hR : StepClosed R) (k : KernelType) (s : State) (op : ASTILOp)
    (s' : State) (e : GenerateOp k s op = .ok s') : R s s' := by
  unfold GenerateOp at e
  split at e
  all_goals first
    | exact hR.binop _ s op s' e
    | exact hR.cmp _ s op s' e
    | (repeat' first | split at e | dsimp only at e
       all_goals cases e
       all_goals repeat (with_reducible first
        | exact hR.refl _
        | exact hR.shift _ _ _
        | exact hR.call_params _ _ _ _ (by assumption)
        | apply hR.emit_right
        | apply hR.pin_right
        | apply hR.spill_right
        | apply hR.spill_all_right
        | apply hR.epilogue_right
        | apply hR.label_right
        | apply hR.node_right
        | refine hR.request_right (by assumption) ?_))

theorem StepClosed.alloc_op (hR : StepClosed R) (s : State) (op : AllocOp) (s' : State)
    (e : op.run s = .ok s') : R s s' := by
  cases op with
  | request_any v =>
    simp only [AllocOp.run] at e
    split at e
    · cases e
    · cases e; exact hR.request _ _ _ _ (by assumption)
  | pin v p => cases e; exact hR.pin s v p
  | spill p => cases e; exact hR.spill s p
  | spill_all => cases e; exact hR.spill_all s

theorem StepClosed.run_steps (hR : StepClosed R) (steps : List Step) (s s' : State)
    (e : runSteps s steps = .ok s') : R s s' := by
  induction steps generalizing s with
  | nil => simp only [runSteps] at e; cases e; exact hR.refl _
  | cons st rest ih =>
    simp only [runSteps] at e
    split at e
    · cases e
    · rename_i s1 h1
      refine hR.trans _ _ _ ?_ (ih s1 e)
      cases st with
      | alloc op => exact hR.alloc_op s op s1 h1
      | il k op => exact hR.generate_op k s op s1 h1

theorem StepClosed.pin_args {R : State → State → Prop} (hR : StepClosed R) (args : List Int)
    (s : State) (i : Int) : R s (pinArgs s args i) := by
  induction args generalizing s i with
  | nil => exact hR.refl s
  | cons a rest ih => exact hR.trans _ _ _ (hR.pin s a (i + 1)) (ih _ _)

theorem LabelsKept_closed : StepClosed LabelsKept where
  refl := fun _ _ _ => rfl
  trans := fun a b c hab hbc v hv => by
    have h1 := hab v hv
    rw [hbc v (by rw [h1]; exact hv), h1]
  emit := fun _ _ _ _ => rfl
  touch := fun _ _ _ _ => rfl
  spill_vreg := fun s v w hw => SpillVirtualRegister_label_kept s v w hw
  table_write := fun _ _ _ _ => rfl
  real_reg_write := fun s v p w _ => by
    by_cases h : w = v <;> simp [Function.update_apply, h]
  label := fun _ _ _ => rfl
  node_write := fun _ _ _ _ => rfl

theorem OutExtends_closed : StepClosed OutExtends where
  refl := fun _ => ⟨[], by simp⟩
  trans := fun a b c ⟨l1, h1⟩ ⟨l2, h2⟩ => ⟨l1 ++ l2, by rw [h2, h1, List.append_assoc]⟩
  emit := fun s l => ⟨[l], rfl⟩
  touch := fun _ _ => ⟨[], by simp [State.touch]⟩
  spill_vreg := fun s v => ⟨_, SpillVirtualRegister_out s v⟩
  table_write := fun _ _ => ⟨[], by simp⟩
  real_reg_write := fun _ _ _ => ⟨[], by simp⟩
  label := fun _ => ⟨[], by simp [GetLabelNumber]⟩
  node_write := fun _ _ => ⟨[], by simp⟩

end Closed

/-! ## The reference-order stamps -/

theorem touch_stamps (s : State) (p : Int) (h : StampsFresh s) :
    StampsFresh (s.touch p) := by
  constructor
  · intro r hr1 hr2
    have := h.below_tick r hr1 hr2
    simp only [State.touch, Function.update_apply]
    split_ifs <;> omega
  · intro a b ha1 ha2 hb1 hb2 hoa hob he
    have ba := h.below_tick a ha1 ha2
    have bb := h.below_tick b hb1 hb2
    have d := h.distinct a b ha1 ha2 hb1 hb2 hoa hob
    simp only [State.touch, Function.update_apply] at he
    split_ifs at he <;> omega

theorem stamps_of_freed (s t : State) (h : StampsFresh s)
    (ho : t.RealRegRefOrder = s.RealRegRefOrder) (hc : t.order_count = s.order_count)
    (ht : ∀ r : Int, 1 ≤ r → r ≤ 9 → t.RealRegAssignTable r ≠ 0 → s.RealRegAssignTable r ≠ 0) :
    StampsFresh t := by
  constructor
  · intro r hr1 hr2; rw [ho, hc]; exact h.below_tick r hr1 hr2
  · intro a b ha1 ha2 hb1 hb2 hoa hob he
    rw [ho] at he
    exact h.distinct a b ha1 ha2 hb1 hb2 (ht a ha1 ha2 hoa) (ht b hb1 hb2 hob) he

theorem SpillVirtualRegister_stamps (s : State) (v : Int) (h : StampsFresh s) :
    StampsFresh (SpillVirtualRegister s v) := by
  refine stamps_of_freed s _ h (SpillVirtualRegister_order s v).1 (SpillVirtualRegister_order s v).2.1 ?_
  intro r _ _ hr
  rw [SpillVirtualRegister_table] at hr
  split_ifs at hr
  · exact absurd rfl hr
  · exact hr

theorem SpillRealRegister_stamps (s : State) (p : Int) (h : StampsFresh s) :
    StampsFresh (SpillRealRegister s p) := by
  unfold SpillRealRegister
  split_ifs
  · exact SpillVirtualRegister_stamps s _ h
  · exact h

theorem pin_stamps (s : State) (v p : Int) (h : StampsFresh s) : StampsFresh (AssignVirtualRegToRealReg s v p) := by
  by_cases hs : (s.reg_assign_infos v).real_reg = p
  · rw [pin_same s v p hs]; exact touch_stamps s p h
  · have h1 := SpillRealRegister_stamps s p h
    obtain ⟨eo, ec, _, _⟩ := pin_order s v p hs
    constructor
    · intro r hr1 hr2
      have := h1.below_tick r hr1 hr2
      rw [eo, ec, Function.update_apply]
      split_ifs <;> omega
    · intro a b ha1 ha2 hb1 hb2 hoa hob he
      have ba := h1.below_tick a ha1 ha2
      have bb := h1.below_tick b hb1 hb2
      have d := h1.distinct a b ha1 ha2 hb1 hb2
      rw [pin_table s v p a hs] at hoa
      rw [pin_table s v p b hs] at hob
      rw [eo] at he
      simp only [Function.update_apply] at he
      by_cases hap : a = p <;> by_cases hbp : b = p
      · omega
      · rw [if_pos hap, if_neg hbp] at he; omega
      · rw [if_neg hap, if_pos hbp] at he; omega
      · rw [if_neg hap, if_neg hbp] at he
        rw [if_neg hap] at hoa
        rw [if_neg hbp] at hob
        split_ifs at hoa
        · exact absurd rfl hoa
        · split_ifs at hob
          · exact absurd rfl hob
          · exact d hoa hob he

theorem FindFreeRealReg_stamps (s : State) (i : Int) (s1 : State) (hc : Consistent s)
    (h : StampsFresh s) (e : FindFreeRealReg s = .ok (i, s1)) : StampsFresh s1 := by
  rcases FindFreeRealReg_ok s i s1 hc e with ⟨_, rfl⟩ | ⟨_, rfl, _, _, _⟩
  · exact h
  · exact SpillVirtualRegister_stamps s _ h

theorem AssignRegister_stamps (s : State) (v : Int) (name : String) (s' : State)
    (hc : Consistent s) (h : StampsFresh s) (e : AssignRegister s v = .ok (name, s')) :
    StampsFresh s' := by
  obtain ⟨hv, ⟨hres, _, rfl⟩ | ⟨_, i, s1, hf, _, rfl⟩⟩ := AssignRegister_ok s v name s' e
  · exact touch_stamps s _ h
  · exact pin_stamps s1 v i (FindFreeRealReg_stamps s i s1 hc h hf)

theorem foldl_SpillRealRegister_stamps (l : List Int) (s : State) (h : StampsFresh s) :
    StampsFresh (l.foldl SpillRealRegister s) := by
  induction l generalizing s with
  | nil => exact h
  | cons a l ih => exact ih _ (SpillRealRegister_stamps s a h)

theorem init_stamps : StampsFresh State.init := by
  constructor
  · intro p _ _; simp [State.init]
  · intro p q _ _ _ _ hp; simp [State.init] at hp

theorem AllocOp_run_stamps (s s' : State) (op : AllocOp) (hc : Consistent s) (h : StampsFresh s)
    (hr : op.InRange) (e : op.run s = .ok s') : StampsFresh s' := by
  cases op with
  | request_any v =>
    simp only [AllocOp.run] at e
    split at e
    · cases e
    · cases e; exact AssignRegister_stamps s v _ _ hc h (by assumption)
  | pin v p => cases e; exact pin_stamps s v p h
  | spill p => cases e; exact SpillRealRegister_stamps s p h
  | spill_all => cases e; exact foldl_SpillRealRegister_stamps _ s h

theorem runAllocOps_stamps (ops : List AllocOp) (s s' : State) (hc : Consistent s)
    (h : StampsFresh s) (hr : ∀ op ∈ ops, op.InRange) (e : runAllocOps s ops = .ok s') :
    StampsFresh s' := by
  induction ops generalizing s with
  | nil => simp only [runAllocOps] at e; cases e; exact h
  | cons op ops ih =>
    simp only [runAllocOps] at e
    split at e
    · cases e
    · rename_i s1 h1
      have ho := hr op (List.mem_cons_self op ops)
      exact ih s1 (AllocOp_run_consistent s s1 op hc ho h1) (AllocOp_run_stamps s s1 op hc h ho h1)
        (fun o hm => hr o (List.mem_cons_of_mem op hm)) e

/-- Nine occupied registers cannot all have been stamped within the last eight ticks. -/
theorem exists_stale (s : State) (h : StampsFresh s) (ho : AllOccupied s) :
    ∃ j : Int, (1 ≤ j ∧ j ≤ 9) ∧ s.RealRegRefOrder j ≤ s.order_count - 9 := by
  by_contra hne
  push_neg at hne
  have hinj : Set.InjOn s.RealRegRefOrder (Finset.Icc (1 : Int) 9 : Set Int) := by
    intro a ha b hb hab
    simp only [Finset.coe_Icc, Set.mem_Icc] at ha hb
    exact h.distinct a b ha.1 ha.2 hb.1 hb.2 (ho a ha.1 ha.2) (ho b hb.1 hb.2) hab
  have hmaps : ∀ a ∈ Finset.Icc (1 : Int) 9,
      s.RealRegRefOrder a ∈ Finset.Icc (s.order_count - 8) (s.order_count - 1) := by
    intro a ha
    simp only [Finset.mem_Icc] at ha ⊢
    have := h.below_tick a ha.1 ha.2
    have := hne a ⟨ha.1, ha.2⟩
    omega
  have := Finset.card_le_card_of_injOn s.RealRegRefOrder hmaps hinj
  simp only [Int.card_Icc] at this
  omega

theorem Select_isOk (s : State) (h : StampsFresh s) (ho : AllOccupied s) :
    ∃ v, SelectVirtualRegisterToSpill s = .ok v := by
  cases e : SelectVirtualRegisterToSpill s with
  | ok v => exact ⟨v, rfl⟩
  | error err =>
    exfalso
    obtain ⟨j, hj, hs⟩ := exists_stale s h ho
    exact (Select_error s err e).2 j hj.1 hj.2 ⟨ho j hj.1 hj.2, hs⟩

theorem FindFreeRealReg_isOk (s : State) (hc : Consistent s) (h : StampsFresh s) :
    ∃ i s1, FindFreeRealReg s = .ok (i, s1) := by
  cases e : FindFreeRealReg s with
  | ok r => exact ⟨r.1, r.2, rfl⟩
  | error err =>
    exfalso
    obtain ⟨_, ho, hn⟩ := FindFreeRealReg_error s err hc e
    obtain ⟨j, hj, hs⟩ := exists_stale s h ho
    exact hn j hj.1 hj.2 hs

theorem AssignRegister_isOk (s : State) (v : Int) (hc : Consistent s) (h : StampsFresh s)
    (hv1 : 1 ≤ v) (hv2 : v ≤ 127) : ∃ name s', AssignRegister s v = .ok (name, s') := by
  unfold AssignRegister
  simp only [NUM_OF_ASSIGN_INFOS]
  rw [if_neg (by omega)]
  split_ifs
  · exact ⟨_, _, rfl⟩
  · obtain ⟨i, s1, hf⟩ := FindFreeRealReg_isOk s hc h
    rw [hf]
    exact ⟨_, _, rfl⟩

/-! ## The argument loop of a call -/

theorem CallPinParams_il_ops (s : State) (args : List Int) (i : Int) :
    CallPinParams s (args.map ASTNode.il_op) i = .ok (pinArgs s args i) := by
  induction args generalizing s i with
  | nil => rfl
  | cons a rest ih => simp only [List.map_cons, CallPinParams, pinArgs]; exact ih _ _

/-- What a pin does to a resident vreg other than the pinned one: it stays where it is,
or it was the occupant of the target and is stored under its (non-zero) label. -/
theorem pin_other (s : State) (v p w : Int) (h : Consistent s) (hp1 : 1 ≤ p) (hp2 : p ≤ 9)
    (hw1 : 1 ≤ w) (hw2 : w ≤ 127) (hwv : w ≠ v) :
    ((AssignVirtualRegToRealReg s v p).reg_assign_infos w).real_reg =
        (s.reg_assign_infos w).real_reg ∨
    (((AssignVirtualRegToRealReg s v p).reg_assign_infos w).real_reg = 0 ∧
      ((AssignVirtualRegToRealReg s v p).reg_assign_infos w).save_label_num ≠ 0 ∧
      ∃ l : List Line, (AssignVirtualRegToRealReg s v p).out = s.out ++ l ∧
        Line.spill_store ((AssignVirtualRegToRealReg s v p).reg_assign_infos w).save_label_num
          (ScratchRegNames (s.reg_assign_infos w).real_reg) ∈ l) := by
  by_cases hs : (s.reg_assign_infos v).real_reg = p
  · left; rw [pin_same s v p hs]; rfl
  · by_cases hocc : s.RealRegAssignTable p = w
    · right
      have hwp : (s.reg_assign_infos w).real_reg = p :=
        (h.table_iff w p hw1 hw2 hp1 hp2).mpr hocc
      have h0 : s.RealRegAssignTable p ≠ 0 := by omega
      have hl : ((AssignVirtualRegToRealReg s v p).reg_assign_infos w).save_label_num =
          ((SpillRealRegister s p).reg_assign_infos w).save_label_num := pin_label s v p w hs
      refine ⟨?_, ?_, ?_⟩
      · rw [pin_real_reg s v p w hs, if_neg hwv, SpillRealRegister_real_reg]
        simp [hocc, h0]
        omega
      · rw [hl, ← hocc]; exact SpillRealRegister_label_ne_zero s p h h0
      · refine ⟨[Line.spill_store
            ((SpillRealRegister s p).reg_assign_infos (s.RealRegAssignTable p)).save_label_num
            (ScratchRegNames p)] ++ pinMoveLines (SpillRealRegister s p) v p, ?_, ?_⟩
        · rw [pin_out s v p hs, SpillRealRegister_out s p h hp1 hp2, if_pos h0,
            List.append_assoc]
        · rw [hl, hwp, hocc]; simp
    · left
      rw [pin_real_reg s v p w hs, if_neg hwv, SpillRealRegister_real_reg, if_neg]
      rintro ⟨_, h2⟩; exact hocc h2.symm

/-- The loop of `kILOpCall` over pairwise distinct in-range vregs, started at register
`i + 1`: the registers up to `i` that hold no argument are left alone, every argument
ends in its register, and a resident vreg that is no argument stays in place or is
stored by a line of the loop. -/
theorem pinArgs_spec (args : List Int) (s : State) (i : Int) (h : Consistent s)
    (hnd : args.Nodup) (hr : ∀ a ∈ args, 1 ≤ a ∧ a ≤ 127) (hi : 0 ≤ i)
    (hlen : i + args.length ≤ 9) :
    Consistent (pinArgs s args i) ∧
    (∀ r : Int, 1 ≤ r → r ≤ i → s.RealRegAssignTable r ∉ args →
      (pinArgs s args i).RealRegAssignTable r = s.RealRegAssignTable r) ∧
    (∀ (n : Nat) (a : Int), args[n]? = some a →
      (pinArgs s args i).RealRegAssignTable (i + 1 + n) = a) ∧
    (∀ w : Int, w ∉ args → (s.reg_assign_infos w).real_reg = 0 →
      ((pinArgs s args i).reg_assign_infos w).real_reg = 0) ∧
    (∃ L : List Line, (pinArgs s args i).out = s.out ++ L ∧
      ∀ w : Int, 1 ≤ w → w ≤ 127 → w ∉ args →
        (((pinArgs s args i).reg_assign_infos w).real_reg = (s.reg_assign_infos w).real_reg ∨
         (((pinArgs s args i).reg_assign_infos w).real_reg = 0 ∧
          ((pinArgs s args i).reg_assign_infos w).save_label_num ≠ 0 ∧
          Line.spill_store ((pinArgs s args i).reg_assign_infos w).save_label_num
            (ScratchRegNames (s.reg_assign_infos w).real_reg) ∈ L))) := by
  induction args generalizing s i with
  | nil =>
    refine ⟨h, fun _ _ _ _ => rfl, ?_, fun _ _ h0 => h0, ⟨[], by simp [pinArgs], ?_⟩⟩
    · intro n a hn; simp at hn
    · intro w _ _ _; exact Or.inl rfl
  | cons a rest ih =>
    have ha := hr a (List.mem_cons_self a rest)
    have hnd' := List.nodup_cons.mp hnd
    have hl : (i + 1) + rest.length ≤ 9 := by
      simp only [List.length_cons, Nat.cast_add, Nat.cast_one] at hlen; omega
    have hp1 : 1 ≤ i + 1 := by omega
    have hp2 : i + 1 ≤ 9 := by omega
    have h1 := pin_consistent s a (i + 1) h ha.1 ha.2 hp1 hp2
    obtain ⟨ic, iframe, iarg, inon, L2, io, iev⟩ := ih (AssignVirtualRegToRealReg s a (i + 1)) (i + 1)
      h1 hnd'.2 (fun b hb => hr b (List.mem_cons_of_mem a hb)) (by omega) hl
    obtain ⟨L1, ho1⟩ := OutExtends_closed.pin s a (i + 1)
    simp only [pinArgs]
    refine ⟨ic, ?_, ?_, ?_, ⟨L1 ++ L2, by rw [io, ho1, List.append_assoc], ?_⟩⟩
    · intro r hr1 hr2 hnot
      have hra : s.RealRegAssignTable r ≠ a := fun e => hnot (e ▸ List.mem_cons_self a rest)
      have hf := pin_table_frame s a (i + 1) r h ha.1 ha.2 hp1 hp2 hr1 (by omega) (by omega) hra
      rw [iframe r hr1 (by omega) (by rw [hf]; exact fun hm => hnot (List.mem_cons_of_mem a hm)), hf]
    · intro n b hn
      cases n with
      | zero =>
        simp only [List.getElem?_cons_zero, Option.some.injEq] at hn
        subst hn
        have ht := pin_target s a (i + 1) h ha.1 ha.2 hp1 hp2
        have := iframe (i + 1) hp1 (le_refl _) (by rw [ht]; exact hnd'.1)
        simpa [ht] using this
      | succ m =>
        simp only [List.getElem?_cons_succ] at hn
        have := iarg m b hn
        have e : i + 1 + ((m + 1 : Nat) : Int) = i + 1 + 1 + (m : Int) := by push_cast; ring
        rw [e]; exact this
    · intro w hw h0
      have hwa : w ≠ a := fun e => hw (e ▸ List.mem_cons_self a rest)
      exact inon w (fun hm => hw (List.mem_cons_of_mem a hm))
        (pin_nonresident s a (i + 1) w hwa h0)
    · intro w hw1 hw2 hw
      have hwa : w ≠ a := fun e => hw (e ▸ List.mem_cons_self a rest)
      have hwr : w ∉ rest := fun hm => hw (List.mem_cons_of_mem a hm)
      rcases pin_other s a (i + 1) w h hp1 hp2 hw1 hw2 hwa with hsame | ⟨hz, hlab, l, hol, hmem⟩
      · rcases iev w hw1 hw2 hwr with hk | ⟨hz2, hlab2, hmem2⟩
        · left; rw [hk, hsame]
        · right
          refine ⟨hz2, hlab2, List.mem_append_right _ ?_⟩
          rw [← hsame]; exact hmem2
      · right
        have hkept := LabelsKept_closed.pin_args rest (AssignVirtualRegToRealReg s a (i + 1))
          (i + 1) w hlab
        have hl1 : l = L1 := List.append_cancel_left (hol.symm.trans ho1)
        refine ⟨inon w hwr hz, by rw [hkept]; exact hlab, List.mem_append_left _ ?_⟩
        rw [hkept, ← hl1]; exact hmem

/-- The `kILOpCall` case on a well-formed argument list, step by step. -/
theorem GenerateOp_call (k : KernelType) (s : State) (dst left right : Int) (f : Token)
    (args : List Int) :
    GenerateOp k s ⟨.kILOpCall, dst, left, right, .list (.ident f :: args.map ASTNode.il_op)⟩ =
      .ok (AssignVirtualRegToRealReg
        ((SpillAllRealRegisters ((pinArgs s args 1).emit (.global (symbolPre k) f.str))).emit
          (.call (symbolPre k) f.str)) dst REAL_REG_RAX) := by
  simp only [GenerateOp, List.drop_succ_cons, List.drop_zero, CallPinParams_il_ops,
    List.head?_cons]

/-! ## The allocator contract -/

/-- C1 (table consistency): from the initial state, after any sequence of
`AssignRegister`, `AssignVirtualRegToRealReg`, `SpillRealRegister` and
`SpillAllRealRegisters` calls with vreg ids in `1..127` and registers in `1..9` that
runs to its end, `reg_assign_infos[v].real_reg = p` holds exactly when
`RealRegAssignTable[p] = v`; no vreg is in two registers and no register is recorded
for two vregs. -/
theorem C1_table_consistency (ops : List AllocOp) (s : State)
    (hr : ∀ op ∈ ops, op.InRange) (e : runAllocOps State.init ops = .ok s) :
    (∀ v p : Int, 1 ≤ v → v ≤ 127 → 1 ≤ p → p ≤ 9 →
      ((s.reg_assign_infos v).real_reg = p ↔ s.RealRegAssignTable p = v)) ∧
    (∀ v p q : Int, 1 ≤ v → v ≤ 127 → 1 ≤ p → p ≤ 9 → 1 ≤ q → q ≤ 9 →
      s.RealRegAssignTable p = v → s.RealRegAssignTable q = v → p = q) ∧
    (∀ v w p : Int, 1 ≤ v → v ≤ 127 → 1 ≤ w → w ≤ 127 → 1 ≤ p → p ≤ 9 →
      (s.reg_assign_infos v).real_reg = p → (s.reg_assign_infos w).real_reg = p → v = w) := by
  have h := runAllocOps_consistent ops State.init s init_consistent hr e
  refine ⟨h.table_iff, ?_, ?_⟩
  · intro v p q hv1 hv2 hp1 hp2 hq1 hq2 hp hq
    have a := (h.table_iff v p hv1 hv2 hp1 hp2).mpr hp
    have b := (h.table_iff v q hv1 hv2 hq1 hq2).mpr hq
    omega
  · intro v w p hv1 hv2 hw1 hw2 hp1 hp2 hv hw
    have a := (h.table_iff v p hv1 hv2 hp1 hp2).mp hv
    have b := (h.table_iff w p hw1 hw2 hp1 hp2).mp hw
    omega

/-- The arguments of `c1_ops` are in range. -/
theorem c1_ops_inRange : ∀ op ∈ c1_ops, op.InRange := by
  intro op h
  simp only [c1_ops, List.mem_cons, List.mem_singleton, List.not_mem_nil, or_false] at h
  rcases h with h | h | h | h | h | h | h | h | h | h | h | h | h | h | h | h <;>
    subst h <;> simp [AllocOp.InRange]

/-- The run `c1_ops` ends, with vreg 127 in `r11`, in a state whose tables agree. -/
theorem C1_table_consistency_witness :
    ∃ s : State, runAllocOps State.init c1_ops = .ok s ∧
      (∀ v p : Int, 1 ≤ v → v ≤ 127 → 1 ≤ p → p ≤ 9 →
        ((s.reg_assign_infos v).real_reg = p ↔ s.RealRegAssignTable p = v)) ∧
      s.RealRegAssignTable 9 = 127 :=
  ⟨_, rfl, (C1_table_consistency c1_ops _ c1_ops_inRange rfl).1, by decide⟩

/-- C2 (request_any): in a consistent state, when `AssignRegister(v)` returns, it returns
`ScratchRegNames[p]` for a register `p` in `1..9` that holds `v` afterwards in both
tables; when `v` was resident in `p` before, that `p` is returned, no line is written,
and only `RealRegRefOrder[p]` and `order_count` change.  (A call that returns has passed
the range check, so `v` is in `1..127`.) -/
theorem C2_request_any_postcondition (s : State) (v : Int) (name : String) (s' : State)
    (h : Consistent s) (e : AssignRegister s v = .ok (name, s')) :
    (∃ p : Int, (1 ≤ p ∧ p ≤ 9) ∧ name = ScratchRegNames p ∧
      s'.RealRegAssignTable p = v ∧ (s'.reg_assign_infos v).real_reg = p) ∧
    (∀ p : Int, 1 ≤ p → p ≤ 9 → (s.reg_assign_infos v).real_reg = p →
      name = ScratchRegNames p ∧ s'.out = s.out ∧
      s'.reg_assign_infos = s.reg_assign_infos ∧
      s'.RealRegAssignTable = s.RealRegAssignTable ∧
      s'.num = s.num ∧ s'.label_number = s.label_number ∧
      (∀ q : Int, q ≠ p → s'.RealRegRefOrder q = s.RealRegRefOrder q)) := by
  obtain ⟨hv, hcase⟩ := AssignRegister_ok s v name s' e
  have hr := h.real_reg_range v hv.1 hv.2
  rcases hcase with ⟨hres, hn, rfl⟩ | ⟨hnot, i, s1, hf, hn, rfl⟩
  · refine ⟨⟨(s.reg_assign_infos v).real_reg, by omega, hn, ?_, rfl⟩, ?_⟩
    · exact (h.table_iff v _ hv.1 hv.2 (by omega) (by omega)).mp rfl
    · intro p _ _ hp
      subst hp
      refine ⟨hn, rfl, rfl, rfl, rfl, rfl, ?_⟩
      intro q hq
      simp [State.touch, Function.update_apply, hq]
  · obtain ⟨hi, hz, h1⟩ := FindFreeRealReg_spec s i s1 h hf
    have h0 := FindFreeRealReg_real_reg s i s1 v h hf hnot
    have hne : (s1.reg_assign_infos v).real_reg ≠ i := by omega
    refine ⟨⟨i, hi, hn, ?_, ?_⟩, ?_⟩
    · rw [pin_table s1 v i i hne]; simp
    · rw [pin_real_reg s1 v i v hne]; simp
    · intro p hp1 _ hp
      omega

/-- The first request of a fresh vreg in the initial state returns `rax`. -/
theorem C2_request_any_postcondition_witness :
    ∃ s' : State, AssignRegister State.init 5 = .ok ("rax", s') ∧
      (∃ p : Int, (1 ≤ p ∧ p ≤ 9) ∧ "rax" = ScratchRegNames p ∧
        s'.RealRegAssignTable p = 5 ∧ (s'.reg_assign_infos 5).real_reg = p) :=
  ⟨_, rfl, (C2_request_any_postcondition State.init 5 "rax" _ init_consistent rfl).1⟩

/-- C3 (pin): in a consistent state, after `AssignVirtualRegToRealReg(v, p)` with `v` in
`1..127` and `p` in `1..9`, register `p` holds `v` in both tables; a different vreg `u`
that `p` held is resident nowhere and has a non-zero spill label; a register `q ≠ p`
that held `v` is free; every other register keeps its occupant. -/
theorem C3_pin_postcondition (s : State) (v p : Int) (h : Consistent s)
    (hv1 : 1 ≤ v) (hv2 : v ≤ 127) (hp1 : 1 ≤ p) (hp2 : p ≤ 9) :
    (AssignVirtualRegToRealReg s v p).RealRegAssignTable p = v ∧
    ((AssignVirtualRegToRealReg s v p).reg_assign_infos v).real_reg = p ∧
    (∀ u : Int, s.RealRegAssignTable p = u → u ≠ 0 → u ≠ v →
      ((AssignVirtualRegToRealReg s v p).reg_assign_infos u).real_reg = 0 ∧
      (∀ r : Int, 1 ≤ r → r ≤ 9 → (AssignVirtualRegToRealReg s v p).RealRegAssignTable r ≠ u) ∧
      ((AssignVirtualRegToRealReg s v p).reg_assign_infos u).save_label_num ≠ 0) ∧
    (∀ q : Int, 1 ≤ q → q ≤ 9 → q ≠ p → (s.reg_assign_infos v).real_reg = q →
      (AssignVirtualRegToRealReg s v p).RealRegAssignTable q = 0) ∧
    (∀ r : Int, 1 ≤ r → r ≤ 9 → r ≠ p → r ≠ (s.reg_assign_infos v).real_reg →
      (AssignVirtualRegToRealReg s v p).RealRegAssignTable r = s.RealRegAssignTable r) := by
  have hc := pin_consistent s v p h hv1 hv2 hp1 hp2
  by_cases hs : (s.reg_assign_infos v).real_reg = p
  · have hp := (h.table_iff v p hv1 hv2 hp1 hp2).mp hs
    rw [pin_same s v p hs]
    refine ⟨hp, hs, ?_, ?_, ?_⟩
    · intro u hu _ huv; omega
    · intro q _ _ hq hvq; omega
    · intro r _ _ _ _; rfl
  · have hvs : ((SpillRealRegister s p).reg_assign_infos v).real_reg =
        (s.reg_assign_infos v).real_reg := by
      rw [SpillRealRegister_real_reg]
      have := h.table_iff v p hv1 hv2 hp1 hp2
      split_ifs <;> omega
    have hr := h.real_reg_range v hv1 hv2
    have htp : (AssignVirtualRegToRealReg s v p).RealRegAssignTable p = v := by
      rw [pin_table s v p p hs]; simp
    have hvp : ((AssignVirtualRegToRealReg s v p).reg_assign_infos v).real_reg = p := by
      rw [pin_real_reg s v p v hs]; simp
    refine ⟨htp, hvp, ?_, ?_, ?_⟩
    · intro u hu hu0 huv
      have hur := h.table_range p hp1 hp2
      have hu1 : 1 ≤ u := by omega
      have hu2 : u ≤ 127 := by omega
      have hz : ((AssignVirtualRegToRealReg s v p).reg_assign_infos u).real_reg = 0 := by
        rw [pin_real_reg s v p u hs, if_neg huv, SpillRealRegister_real_reg]
        simp [hu, hu0]
      refine ⟨hz, ?_, ?_⟩
      · intro r hr1 hr2 hru
        have := (hc.table_iff u r hu1 hu2 hr1 hr2).mpr hru
        omega
      · rw [pin_label s v p u hs, SpillRealRegister_label]
        have := h.num_pos
        split_ifs with hc1
        · omega
        · intro hl
          exact hc1 ⟨by omega, hu.symm, hl⟩
    · intro q hq1 hq2 hqp hvq
      rw [pin_table s v p q hs, if_neg hqp, hvs, hvq]
      simp; omega
    · intro r hr1 hr2 hrp hrv
      rw [pin_table s v p r hs, if_neg hrp, hvs, SpillRealRegister_table s p r h hp1 hp2,
        if_neg hrp]
      simp [hrv]

/-- Pinning vreg 2 (resident in `rdi`) to `rax` (held by vreg 1). -/
theorem C3_pin_postcondition_witness :
    Consistent twoResident ∧
    (AssignVirtualRegToRealReg twoResident 2 1).RealRegAssignTable 1 = 2 ∧
    ((AssignVirtualRegToRealReg twoResident 2 1).reg_assign_infos 2).real_reg = 1 ∧
    ((AssignVirtualRegToRealReg twoResident 2 1).reg_assign_infos 1).real_reg = 0 ∧
    ((AssignVirtualRegToRealReg twoResident 2 1).reg_assign_infos 1).save_label_num ≠ 0 ∧
    (AssignVirtualRegToRealReg twoResident 2 1).RealRegAssignTable 2 = 0 ∧
    (AssignVirtualRegToRealReg twoResident 2 1).out =
      [Line.spill_store 1 "rax", Line.move_vreg "rax" "rdi" 2] :=
  have h := C3_pin_postcondition twoResident 2 1 twoResident_consistent
    (by decide) (by decide) (by decide) (by decide)
  have hu := h.2.2.1 1 (by decide) (by decide) (by decide)
  ⟨twoResident_consistent, h.1, h.2.1, hu.1, hu.2.2,
    h.2.2.2.1 2 (by decide) (by decide) (by decide) (by decide), by decide⟩

/-- C4 (spill_all): in a consistent state, after `SpillAllRealRegisters` every register
`1..9` is free and every vreg `1..127` has `real_reg = 0`; every vreg that was resident
has a non-zero spill label; the text written is exactly one store
`mov [rip + Lk], <name>` per register that was occupied, in index order `rax..r11`,
with `k` the label of its occupant and `<name>` the name of the register. -/
theorem C4_spill_all_postcondition (s : State) (h : Consistent s) :
    (∀ p : Int, 1 ≤ p → p ≤ 9 → (SpillAllRealRegisters s).RealRegAssignTable p = 0) ∧
    (∀ v : Int, 1 ≤ v → v ≤ 127 → ((SpillAllRealRegisters s).reg_assign_infos v).real_reg = 0) ∧
    (∀ v : Int, 1 ≤ v → v ≤ 127 → (s.reg_assign_infos v).real_reg ≠ 0 →
      ((SpillAllRealRegisters s).reg_assign_infos v).save_label_num ≠ 0) ∧
    (SpillAllRealRegisters s).out = s.out ++
      ((scratchIndices.filter (fun p => decide (s.RealRegAssignTable p ≠ 0))).map
        (fun p => Line.spill_store
          ((SpillAllRealRegisters s).reg_assign_infos (s.RealRegAssignTable p)).save_label_num
          (ScratchRegNames p))) :=
  SpillAllRealRegisters_spec s h

/-- Spilling all with vreg 1 in `rax` and vreg 2 in `rdi` writes two stores, in that
order. -/
theorem C4_spill_all_postcondition_witness :
    Consistent twoResident ∧
    (SpillAllRealRegisters twoResident).RealRegAssignTable 1 = 0 ∧
    ((SpillAllRealRegisters twoResident).reg_assign_infos 2).real_reg = 0 ∧
    ((SpillAllRealRegisters twoResident).reg_assign_infos 2).save_label_num ≠ 0 ∧
    (SpillAllRealRegisters twoResident).out =
      [Line.spill_store 1 "rax", Line.spill_store 2 "rdi"] :=
  have h := C4_spill_all_postcondition twoResident twoResident_consistent
  ⟨twoResident_consistent, h.1 1 (by decide) (by decide), h.2.1 2 (by decide) (by decide),
    h.2.2.1 2 (by decide) (by decide) (by decide), h.2.2.2.trans (by decide)⟩

/-- C5 (spill label persistence): over any sequence of allocator calls and IL ops that
runs to its end from any state, a vreg whose `save_label_num` is non-zero has the same
`save_label_num` in the final state. -/
theorem C5_spill_label_persistence (steps : List Step) (s s' : State) (v : Int)
    (e : runSteps s steps = .ok s')
    (h : (s.reg_assign_infos v).save_label_num ≠ 0) :
    (s'.reg_assign_infos v).save_label_num = (s.reg_assign_infos v).save_label_num :=
  LabelsKept_closed.run_steps steps s s' e v h

/-- The label 1 of vreg 1 survives a constant load, an addition that reloads it, a pin,
a label, a request and a return. -/
theorem C5_spill_label_persistence_witness :
    ∃ s' : State, runSteps twoSpilled c5_steps = .ok s' ∧
      (twoSpilled.reg_assign_infos 1).save_label_num = 1 ∧
      (s'.reg_assign_infos 1).save_label_num = (twoSpilled.reg_assign_infos 1).save_label_num ∧
      (s'.reg_assign_infos 3).save_label_num = 3 :=
  ⟨_, rfl, by decide,
    C5_spill_label_persistence c5_steps twoSpilled _ 1 rfl (by decide), by decide⟩

/-! ## Spill selection -/

/-- The arguments of `fill9` are in range. -/
theorem fill9_inRange : ∀ op ∈ fill9, op.InRange := by
  intro op h
  simp only [fill9, List.mem_cons, List.mem_singleton, List.not_mem_nil, or_false] at h
  rcases h with h | h | h | h | h | h | h | h | h <;> subst h <;> simp [AllocOp.InRange]

/-- C6, as the code has it: exhaustion is not reachable.  After any sequence of allocator
calls with in-range arguments from the initial state, a state with all nine registers
occupied has an occupied register whose stamp is at most `order_count - 9`, so
`SelectVirtualRegisterToSpill` returns a vreg, and `AssignRegister` of any vreg id in
`1..127` returns without a fatal error. -/
theorem C6_exhaustion_unreachable (ops : List AllocOp) (s : State) (v : Int)
    (hr : ∀ op ∈ ops, op.InRange) (e : runAllocOps State.init ops = .ok s)
    (hv1 : 1 ≤ v) (hv2 : v ≤ 127) :
    (AllOccupied s → ∃ u, SelectVirtualRegisterToSpill s = .ok u) ∧
    (∃ name s', AssignRegister s v = .ok (name, s')) :=
  have hc := runAllocOps_consistent ops State.init s init_consistent hr e
  have hs := runAllocOps_stamps ops State.init s init_consistent init_stamps hr e
  ⟨fun ho => Select_isOk s hs ho, AssignRegister_isOk s v hc hs hv1 hv2⟩

/-- With the nine registers filled by `fill9`, a victim is found and the request of a
tenth vreg returns. -/
theorem C6_exhaustion_unreachable_witness :
    ∃ s : State, runAllocOps State.init fill9 = .ok s ∧
      (s.RealRegAssignTable 1 ≠ 0 ∧ s.RealRegAssignTable 9 ≠ 0) ∧
      (∃ u, SelectVirtualRegisterToSpill s = .ok u) ∧
      (∃ name s', AssignRegister s 10 = .ok (name, s')) :=
  have h := C6_exhaustion_unreachable fill9 _ 10 fill9_inRange rfl (by decide) (by decide)
  ⟨_, rfl, by decide, h.1 (by intro p h1 h2; interval_cases p <;> decide), h.2⟩

/-- C6 as stated fails: no sequence of allocator calls with in-range arguments leads
from the initial state to a state where all nine registers are occupied and
`SelectVirtualRegisterToSpill` reaches its fatal error, nor to one where
`AssignRegister` of a vreg id in `1..127` ends in a fatal error. -/
theorem C6_exhaustion_counterexample :
    ¬ ∃ (ops : List AllocOp) (s : State) (v : Int) (err : Fatal),
      (∀ op ∈ ops, op.InRange) ∧ (1 ≤ v ∧ v ≤ 127) ∧
      runAllocOps State.init ops = .ok s ∧
      ((AllOccupied s ∧ SelectVirtualRegisterToSpill s = .error err) ∨
        AssignRegister s v = .error err) := by
  rintro ⟨ops, s, v, err, hr, hv, e, hbad⟩
  have hc := runAllocOps_consistent ops State.init s init_consistent hr e
  have hs := runAllocOps_stamps ops State.init s init_consistent init_stamps hr e
  rcases hbad with ⟨ho, hsel⟩ | hreq
  · obtain ⟨u, hu⟩ := Select_isOk s hs ho
    rw [hu] at hsel
    cases hsel
  · obtain ⟨name, s', hok⟩ := AssignRegister_isOk s v hc hs hv.1 hv.2
    rw [hok] at hreq
    cases hreq

/-- C7, as the code has it: in a state reached from the initial one by allocator calls
with in-range arguments in which all nine registers are occupied, `FindFreeRealReg`
evicts the occupant of the first register, in index order `rax..r11`, whose stamp is at
most `order_count - 9`: every register before it was stamped within the last eight
ticks, and every register with an older stamp than the victim comes after it. -/
theorem C7_victim_is_first_stale (ops : List AllocOp) (s : State)
    (hr : ∀ op ∈ ops, op.InRange) (e : runAllocOps State.init ops = .ok s)
    (ho : AllOccupied s) :
    ∃ i : Int, (1 ≤ i ∧ i ≤ 9) ∧
      FindFreeRealReg s = .ok (i, SpillVirtualRegister s (s.RealRegAssignTable i)) ∧
      s.RealRegRefOrder i ≤ s.order_count - 9 ∧
      (∀ j : Int, 1 ≤ j → j < i → s.order_count - 9 < s.RealRegRefOrder j) ∧
      (∀ j : Int, 1 ≤ j → j ≤ 9 → s.RealRegRefOrder j < s.RealRegRefOrder i → i < j) := by
  have hc := runAllocOps_consistent ops State.init s init_consistent hr e
  have hs := runAllocOps_stamps ops State.init s init_consistent init_stamps hr e
  obtain ⟨i, s1, hf⟩ := FindFreeRealReg_isOk s hc hs
  rcases FindFreeRealReg_ok s i s1 hc hf with ⟨hfree, _⟩ | ⟨_, rfl, hi, hst, hfirst⟩
  · obtain ⟨hi, hz, _⟩ := firstFreeRealReg_some s i hfree
    exact absurd hz (ho i hi.1 hi.2)
  · refine ⟨i, hi, hf, hst, ?_, ?_⟩
    · intro j hj1 hj2
      have := hfirst j hj1 hj2
      omega
    · intro j hj1 hj2 hlt
      by_contra hn
      have hji : j < i := by
        rcases lt_or_eq_of_le (not_lt.mp hn) with h | h
        · exact h
        · subst h; omega
      have := hfirst j hj1 hji
      omega

/-- The tenth request after `fill9` (ten `LoadImm` into vregs 1..10) evicts vreg 1. -/
theorem C7_victim_is_first_stale_witness :
    ∃ s : State, runAllocOps State.init fill9 = .ok s ∧
      (∃ i : Int, (1 ≤ i ∧ i ≤ 9) ∧
        FindFreeRealReg s = .ok (i, SpillVirtualRegister s (s.RealRegAssignTable i)) ∧
        s.RealRegRefOrder i ≤ s.order_count - 9 ∧
        (∀ j : Int, 1 ≤ j → j < i → s.order_count - 9 < s.RealRegRefOrder j) ∧
        (∀ j : Int, 1 ≤ j → j ≤ 9 → s.RealRegRefOrder j < s.RealRegRefOrder i → i < j)) ∧
      (∃ s1, FindFreeRealReg s = .ok (1, s1) ∧ s.RealRegAssignTable 1 = 1 ∧
        s1.out = [Line.spill_store 1 "rax"]) :=
  ⟨_, rfl,
    C7_victim_is_first_stale fill9 _ fill9_inRange rfl
      (by intro p h1 h2; interval_cases p <;> decide),
    ⟨_, rfl, by decide, by decide⟩⟩

/-- C7 as stated fails: after `c7_ops` all nine registers are occupied, `rdi` carries
the oldest stamp (2, vreg 2), and `FindFreeRealReg` evicts vreg 1 from `rax`, whose
stamp is 10. -/
theorem C7_lru_counterexample :
    ∃ s s1 : State, runAllocOps State.init c7_ops = .ok s ∧
      (s.RealRegAssignTable 1 ≠ 0 ∧ s.RealRegAssignTable 2 ≠ 0 ∧ s.RealRegAssignTable 3 ≠ 0 ∧
        s.RealRegAssignTable 4 ≠ 0 ∧ s.RealRegAssignTable 5 ≠ 0 ∧ s.RealRegAssignTable 6 ≠ 0 ∧
        s.RealRegAssignTable 7 ≠ 0 ∧ s.RealRegAssignTable 8 ≠ 0 ∧ s.RealRegAssignTable 9 ≠ 0) ∧
      FindFreeRealReg s = .ok (1, s1) ∧
      s.RealRegAssignTable 1 = 1 ∧ s.RealRegAssignTable 2 = 2 ∧
      s1.out = [Line.spill_store 1 "rax"] ∧
      (s1.reg_assign_infos 1).real_reg = 0 ∧ (s1.reg_assign_infos 2).real_reg = 2 ∧
      s.RealRegRefOrder 1 = 10 ∧ s.RealRegRefOrder 2 = 2 :=
  ⟨_, _, rfl, by decide, rfl, by decide, by decide, by decide, by decide, by decide,
    by decide, by decide⟩

/-! ## The emitter: call, return, label -/

/-- C8 (ABI at call sites): for a `Call` whose `k ≤ 6` arguments are produced by pairwise
distinct vregs in `1..127`, in a consistent state: after the pinning loop the `i`-th
argument's vreg is in register `i + 1` (`rdi, rsi, rdx, rcx, r8, r9`), for all `i` at
once; at the point where the `call` line is written no vreg is resident, and every vreg
that was resident before the op and is no argument has a non-zero spill label and a
store `mov [rip + Lk], <reg>` among the lines the op wrote before the `call` line; and
those lines either contain no store at all or end with a store, so nothing stands
between the last store and the `call` line. -/
theorem C8_call_abi (k : KernelType) (s : State) (dst left right : Int) (f : Token)
    (args : List Int) (h : Consistent s) (hnd : args.Nodup)
    (hr : ∀ a ∈ args, 1 ≤ a ∧ a ≤ 127) (hlen : args.length ≤ 6) :
    ∃ s1 s3 : State, ∃ before : List Line,
      CallPinParams s (args.map ASTNode.il_op) 1 = .ok s1 ∧
      (∀ (n : Nat) (a : Int), args[n]? = some a →
        s1.RealRegAssignTable (n + 2) = a ∧ (s1.reg_assign_infos a).real_reg = n + 2) ∧
      GenerateOp k s ⟨.kILOpCall, dst, left, right, .list (.ident f :: args.map ASTNode.il_op)⟩ =
        .ok (AssignVirtualRegToRealReg (s3.emit (.call (symbolPre k) f.str)) dst REAL_REG_RAX) ∧
      s3.out = s.out ++ before ∧
      (∀ p : Int, 1 ≤ p → p ≤ 9 → s3.RealRegAssignTable p = 0) ∧
      (∀ w : Int, 1 ≤ w → w ≤ 127 → (s.reg_assign_infos w).real_reg ≠ 0 → w ∉ args →
        (s3.reg_assign_infos w).real_reg = 0 ∧ (s3.reg_assign_infos w).save_label_num ≠ 0 ∧
        ∃ p : Int, (1 ≤ p ∧ p ≤ 9) ∧
          Line.spill_store (s3.reg_assign_infos w).save_label_num (ScratchRegNames p) ∈ before) ∧
      ((∀ l ∈ before, l.isSpillStore = false) ∨
        ∃ (front : List Line) (label : Int) (reg : String),
          before = front ++ [Line.spill_store label reg]) := by
  obtain ⟨hc1, _, harg, _, L, hL, hev⟩ := pinArgs_spec args s 1 h hnd hr (by decide)
    (by have : (args.length : Int) ≤ 6 := by exact_mod_cast hlen
        omega)
  have hc2 : Consistent ((pinArgs s args 1).emit (.global (symbolPre k) f.str)) :=
    emit_consistent _ _ hc1
  obtain ⟨hfree, hzero, hlab, hout⟩ := SpillAllRealRegisters_spec _ hc2
  have hkept : LabelsKept (pinArgs s args 1)
      (SpillAllRealRegisters ((pinArgs s args 1).emit (.global (symbolPre k) f.str))) :=
    LabelsKept_closed.trans _ _ _ (LabelsKept_closed.emit _ _) (LabelsKept_closed.spill_all _)
  refine ⟨pinArgs s args 1,
    SpillAllRealRegisters ((pinArgs s args 1).emit (.global (symbolPre k) f.str)),
    L ++ [Line.global (symbolPre k) f.str] ++
      spillStores ((pinArgs s args 1).emit (.global (symbolPre k) f.str))
        (SpillAllRealRegisters ((pinArgs s args 1).emit (.global (symbolPre k) f.str)))
        scratchIndices,
    CallPinParams_il_ops s args 1, ?_, GenerateOp_call k s dst left right f args, ?_, hfree,
    ?_, ?_⟩
  · intro n a hn
    have hmem : a ∈ args := List.getElem?_mem hn
    have ha := hr a hmem
    have ht := harg n a hn
    have e : (1 : Int) + 1 + n = n + 2 := by ring
    rw [e] at ht
    have hn6 : n < args.length := by
      by_contra hge
      rw [List.getElem?_eq_none (by omega)] at hn
      cases hn
    refine ⟨ht, (hc1.table_iff a _ ha.1 ha.2 (by omega) (by omega)).mpr ht⟩
  · rw [hout]
    simp only [spillStores, State.emit, hL, List.append_assoc]
  · intro w hw1 hw2 hres hw
    refine ⟨hzero w hw1 hw2, ?_⟩
    have hsr := h.real_reg_range w hw1 hw2
    rcases hev w hw1 hw2 hw with hsame | ⟨hz, hl0, hmem⟩
    · have hres1 : ((pinArgs s args 1).reg_assign_infos w).real_reg ≠ 0 := by rw [hsame]; exact hres
      have ht := (hc1.table_iff w _ hw1 hw2 (by rw [hsame]; omega) (by rw [hsame]; omega)).mp rfl
      refine ⟨hlab w hw1 hw2 hres1, (s.reg_assign_infos w).real_reg, by omega, ?_⟩
      apply List.mem_append_right
      unfold spillStores
      rw [List.mem_map]
      refine ⟨(s.reg_assign_infos w).real_reg, ?_, ?_⟩
      · rw [List.mem_filter]
        refine ⟨(mem_scratchIndices _).mpr (by omega), ?_⟩
        rw [hsame] at ht
        simp only [State.emit, ht, decide_eq_true_eq]
        omega
      · rw [hsame] at ht
        simp only [State.emit, ht]
    · have hk := hkept w hl0
      refine ⟨by rw [hk]; exact hl0, (s.reg_assign_infos w).real_reg, by omega, ?_⟩
      rw [hk]
      exact List.mem_append_left _ (List.mem_append_left _ hmem)
  · rcases List.eq_nil_or_concat
      (spillStores ((pinArgs s args 1).emit (.global (symbolPre k) f.str))
        (SpillAllRealRegisters ((pinArgs s args 1).emit (.global (symbolPre k) f.str)))
        scratchIndices) with hnil | ⟨front, b, hcat⟩
    · left
      have hargs : args = [] := by
        cases args with
        | nil => rfl
        | cons a rest =>
          exfalso
          have ht := harg 0 a (by simp)
          have ha := hr a (List.mem_cons_self a rest)
          have hmem : (2 : Int) ∈ scratchIndices.filter (fun p => decide
              (((pinArgs s (a :: rest) 1).emit
                (.global (symbolPre k) f.str)).RealRegAssignTable p ≠ 0)) := by
            rw [List.mem_filter]
            refine ⟨by decide, ?_⟩
            simp only [State.emit, decide_eq_true_eq]
            have e : (1 : Int) + 1 + ((0 : Nat) : Int) = 2 := by norm_num
            rw [e] at ht
            rw [ht]; omega
          unfold spillStores at hnil
          rw [List.map_eq_nil_iff] at hnil
          rw [hnil] at hmem
          cases hmem
      subst hargs
      have hL0 : L = [] := by
        have : s.out = s.out ++ L := hL
        exact List.self_eq_append_right.mp this
      rw [hnil, hL0]
      intro l hl
      simp only [List.nil_append, List.append_nil, List.mem_singleton] at hl
      subst hl
      rfl
    · right
      have hb : b ∈ spillStores ((pinArgs s args 1).emit (.global (symbolPre k) f.str))
          (SpillAllRealRegisters ((pinArgs s args 1).emit (.global (symbolPre k) f.str)))
          scratchIndices := by
        rw [hcat]; simp
      unfold spillStores at hb
      obtain ⟨p, _, hp⟩ := List.mem_map.mp hb
      have hfin := congrArg (fun t => L ++ [Line.global (symbolPre k) f.str] ++ t) hcat
      simp only [List.concat_eq_append, ← hp] at hfin
      rw [← List.append_assoc] at hfin
      exact ⟨_, _, _, hfin⟩

/-- The call `g(v3, v1)` while vregs 1, 2, 3 sit in `rax`, `rdi`, `rsi`: vreg 2 is
stored when `rdi` is taken, and all is stored before the `call` line. -/
theorem C8_call_abi_witness :
    Consistent threeResident ∧
    (∃ s1 : State, CallPinParams threeResident ([3, 1].map ASTNode.il_op) 1 = .ok s1 ∧
      s1.RealRegAssignTable 2 = 3 ∧ s1.RealRegAssignTable 3 = 1) ∧
    (∃ s' : State, GenerateOp .kKernelLinux threeResident c8_call = .ok s' ∧
      s'.out.map Line.render =
        ["mov [rip + L1], rdi\n", "mov rdi, rsi # vreg 3\n", "mov rsi, rax # vreg 1\n",
         ".global g\n", "mov [rip + L2], rdi\n", "mov [rip + L3], rsi\n", "call g\n"]) :=
  ⟨threeResident_consistent,
    match C8_call_abi .kKernelLinux threeResident 9 0 0 ⟨.kIdentifier, "g"⟩ [3, 1]
      threeResident_consistent (by decide)
      (by intro a ha; simp only [List.mem_cons, List.mem_singleton, List.not_mem_nil,
            or_false] at ha
          rcases ha with rfl | rfl <;> decide)
      (by decide) with
    | ⟨s1, _, _, h1, h2, _⟩ => ⟨s1, h1, (h2 0 3 rfl).1, (h2 1 1 rfl).1⟩,
    ⟨_, rfl, by decide⟩⟩

/-- C9 (return placement): for a `Return` of a vreg `v` in `1..127` in a consistent
state, the op succeeds, `rax` holds `v` afterwards, and the text written is: the store
of the previous occupant of `rax` when that was another vreg; then `mov rax, <q>` (printed
with the comment `# vreg <v>` after it) when `v` sat in another register `q`, or
`mov rax, [rip + Lk]` when `v` was only in memory under the label `k`; then the three
epilogue lines, and nothing else. -/
theorem C9_return_placement (k : KernelType) (s : State) (dst v right : Int) (node : ASTNode)
    (h : Consistent s) (hv1 : 1 ≤ v) (hv2 : v ≤ 127) :
    ∃ s' : State, GenerateOp k s ⟨.kILOpReturn, dst, v, right, node⟩ = .ok s' ∧
      s'.RealRegAssignTable REAL_REG_RAX = v ∧
      (s'.reg_assign_infos v).real_reg = REAL_REG_RAX ∧
      s'.out = s.out ++
        (if s.RealRegAssignTable REAL_REG_RAX ≠ 0 ∧ s.RealRegAssignTable REAL_REG_RAX ≠ v then
          [Line.spill_store
            (s'.reg_assign_infos (s.RealRegAssignTable REAL_REG_RAX)).save_label_num "rax"]
         else []) ++
        (if (s.reg_assign_infos v).real_reg ≠ 0 ∧ (s.reg_assign_infos v).real_reg ≠ REAL_REG_RAX
          then [Line.move_vreg "rax" (ScratchRegNames (s.reg_assign_infos v).real_reg) v]
         else if (s.reg_assign_infos v).real_reg = 0 ∧ (s.reg_assign_infos v).save_label_num ≠ 0
          then [Line.reload "rax" (s.reg_assign_infos v).save_label_num]
         else []) ++
        [Line.fixed "mov     rsp, rbp", Line.fixed "pop     rbp", Line.fixed "ret"] := by
  refine ⟨GenerateFuncEpilogue (AssignVirtualRegToRealReg s v REAL_REG_RAX), rfl, ?_, ?_, ?_⟩
  · rw [(GenerateFuncEpilogue_tables _).1]
    have hc := pin_consistent s v 1 h hv1 hv2 (by decide) (by decide)
    by_cases hs : (s.reg_assign_infos v).real_reg = 1
    · rw [REAL_REG_RAX, pin_same s v 1 hs]
      exact (h.table_iff v 1 hv1 hv2 (by decide) (by decide)).mp hs
    · rw [REAL_REG_RAX, pin_table s v 1 1 hs]; simp
  · rw [(GenerateFuncEpilogue_tables _).2]
    by_cases hs : (s.reg_assign_infos v).real_reg = 1
    · rw [REAL_REG_RAX, pin_same s v 1 hs]; exact hs
    · rw [REAL_REG_RAX, pin_real_reg s v 1 v hs]; simp
  · rw [GenerateFuncEpilogue_out, (GenerateFuncEpilogue_tables _).2,
      pin_out_consistent s v REAL_REG_RAX h hv1 hv2 (by decide) (by decide)]
    rfl

/-- Returning vreg 2 (in `rdi`) while vreg 1 sits in `rax`. -/
theorem C9_return_placement_witness :
    Consistent twoResident ∧
    ∃ s' : State, GenerateOp .kKernelLinux twoResident ⟨.kILOpReturn, 0, 2, 0, .none⟩ = .ok s' ∧
      s'.RealRegAssignTable REAL_REG_RAX = 2 ∧
      s'.out = [Line.spill_store 1 "rax", Line.move_vreg "rax" "rdi" 2,
        Line.fixed "mov     rsp, rbp", Line.fixed "pop     rbp", Line.fixed "ret"] :=
  ⟨twoResident_consistent,
    (C9_return_placement .kKernelLinux twoResident 0 2 0 .none twoResident_consistent
      (by decide) (by decide)).elim
      (fun s' hs' => ⟨s', hs'.1, hs'.2.1, by
        have e := hs'.1
        have e2 : s' = GenerateFuncEpilogue (AssignVirtualRegToRealReg twoResident 2 REAL_REG_RAX) := by
          injection e with e; exact e.symm
        subst e2
        decide⟩)⟩

/-- C10, as the code has it: for a `Label` op in a consistent state, the `Lk:` line is
written first and the stores of all resident vregs follow it, in register order, as part
of the same op; after the op no vreg is resident. -/
theorem C10_label_then_spill (k : KernelType) (s : State) (dst left right : Int) (node : Nat)
    (h : Consistent s) :
    ∃ s' : State, GenerateOp k s ⟨.kILOpLabel, dst, left, right, .label node⟩ = .ok s' ∧
      s'.out = s.out ++ [Line.label_def (s'.label_number node)] ++
        ((scratchIndices.filter (fun p => decide (s.RealRegAssignTable p ≠ 0))).map
          (fun p => Line.spill_store
            (s'.reg_assign_infos (s.RealRegAssignTable p)).save_label_num (ScratchRegNames p))) ∧
      (∀ p : Int, 1 ≤ p → p ≤ 9 → s'.RealRegAssignTable p = 0) ∧
      (∀ v : Int, 1 ≤ v → v ≤ 127 → (s'.reg_assign_infos v).real_reg = 0) := by
  obtain ⟨fi, ft, _, _, fo, fn, fl⟩ := ResolveLabelNumber_fields s node
  have hc : Consistent ((ResolveLabelNumber s node).2.emit
      (Line.label_def (ResolveLabelNumber s node).1)) :=
    emit_consistent _ _ (consistent_of_tables s _ h fi ft fn)
  obtain ⟨h1, h2, _, h4⟩ := SpillAllRealRegisters_spec _ hc
  refine ⟨_, rfl, ?_, h1, h2⟩
  rw [h4, SpillAllRealRegisters_label_number]
  simp only [State.emit, fo, ft, fl, List.append_assoc]

/-- A `Label` op with two resident vregs leaves no vreg resident. -/
theorem C10_label_then_spill_witness :
    Consistent twoResident ∧
    ∃ s' : State,
      GenerateOp .kKernelDarwin twoResident ⟨.kILOpLabel, 0, 0, 0, .label 7⟩ = .ok s' ∧
      (s'.RealRegAssignTable 1 = 0 ∧ s'.RealRegAssignTable 2 = 0) ∧
      (s'.reg_assign_infos 1).real_reg = 0 :=
  ⟨twoResident_consistent,
    (C10_label_then_spill .kKernelDarwin twoResident 0 0 0 7 twoResident_consistent).elim
      (fun s' hs' => ⟨s', hs'.1,
        ⟨hs'.2.2.1 1 (by decide) (by decide), hs'.2.2.1 2 (by decide) (by decide)⟩,
        hs'.2.2.2 1 (by decide) (by decide)⟩)⟩

/-- C10 as stated fails: with vreg 1 in `rax` and vreg 2 in `rdi`, a `Label` op writes
`L1:` first and the two stores after it. -/
theorem C10_spill_before_label_counterexample :
    ∃ s' : State,
      GenerateOp .kKernelLinux twoResident ⟨.kILOpLabel, 0, 0, 0, .label 0⟩ = .ok s' ∧
      twoResident.out = [] ∧
      s'.out = [Line.label_def 1, Line.spill_store 2 "rax", Line.spill_store 3 "rdi"] ∧
      s'.out.map Line.render = ["L1:\n", "mov [rip + L2], rax\n", "mov [rip + L3], rdi\n"] :=
  ⟨_, rfl, by decide, by decide, by decide⟩

/-! ## The tick and the stamps -/

/-- `FindFreeRealReg` returns the state it got, or that state after one spill. -/
theorem FindFreeRealReg_cases (s : State) (i : Int) (s1 : State)
    (e : FindFreeRealReg s = .ok (i, s1)) :
    (1 ≤ i ∧ i ≤ 9) ∧ (s1 = s ∨ ∃ u, s1 = SpillVirtualRegister s u) := by
  unfold FindFreeRealReg at e
  split at e
  · rename_i j hj
    injection e with e; injection e with e1 e2; subst e1 e2
    exact ⟨(firstFreeRealReg_some s _ hj).1, Or.inl rfl⟩
  · split at e
    · cases e
    · dsimp only at e
      split at e
      · rename_i j hj
        injection e with e; injection e with e1 e2; subst e1 e2
        exact ⟨(firstFreeRealReg_some _ _ hj).1, Or.inr ⟨_, rfl⟩⟩
      · cases e

theorem pin_tick (s : State) (v p : Int) :
    (AssignVirtualRegToRealReg s v p).order_count = s.order_count + 1 ∧
    ((AssignVirtualRegToRealReg s v p).reg_assign_infos v).real_reg = p ∧
    (AssignVirtualRegToRealReg s v p).RealRegRefOrder p = s.order_count ∧
    (∀ q : Int, q ≠ p →
      (AssignVirtualRegToRealReg s v p).RealRegRefOrder q = s.RealRegRefOrder q) := by
  by_cases hs : (s.reg_assign_infos v).real_reg = p
  · rw [pin_same s v p hs]
    refine ⟨rfl, hs, by simp [State.touch], ?_⟩
    intro q hq; simp [State.touch, Function.update_apply, hq]
  · obtain ⟨eo, ec, _, _⟩ := pin_order s v p hs
    obtain ⟨so, sc, _⟩ := SpillRealRegister_order s p
    refine ⟨by rw [ec, sc], by rw [pin_real_reg s v p v hs]; simp, by rw [eo, so, sc]; simp, ?_⟩
    intro q hq
    rw [eo, so]; simp [Function.update_apply, hq]

theorem SpillAllRealRegisters_order (s : State) :
    (SpillAllRealRegisters s).RealRegRefOrder = s.RealRegRefOrder ∧
      (SpillAllRealRegisters s).order_count = s.order_count := by
  have key : ∀ (l : List Int) (t : State),
      (l.foldl SpillRealRegister t).RealRegRefOrder = t.RealRegRefOrder ∧
        (l.foldl SpillRealRegister t).order_count = t.order_count := by
    intro l
    induction l with
    | nil => intro t; exact ⟨rfl, rfl⟩
    | cons a l ih =>
      intro t
      rw [List.foldl_cons]
      obtain ⟨h1, h2⟩ := ih (SpillRealRegister t a)
      rw [h1, h2, (SpillRealRegister_order t a).1, (SpillRealRegister_order t a).2.1]
      exact ⟨rfl, rfl⟩
  exact key _ s

/-- What a returning `AssignRegister` does to the tick: one tick, and the stamp of the
register it returns is the tick before the call. -/
theorem AssignRegister_tick (s : State) (v : Int) (name : String) (s' : State)
    (e : AssignRegister s v = .ok (name, s')) :
    s'.order_count = s.order_count + 1 ∧
    name = ScratchRegNames (s'.reg_assign_infos v).real_reg ∧
    s'.RealRegRefOrder (s'.reg_assign_infos v).real_reg = s.order_count ∧
    (∀ q : Int, q ≠ (s'.reg_assign_infos v).real_reg →
      s'.RealRegRefOrder q = s.RealRegRefOrder q) := by
  obtain ⟨_, ⟨hres, hn, rfl⟩ | ⟨hnot, i, s1, hf, hn, rfl⟩⟩ := AssignRegister_ok s v name s' e
  · refine ⟨rfl, hn, by simp [State.touch], ?_⟩
    intro q hq
    simp only [State.touch] at hq ⊢
    simp [Function.update_apply, hq]
  · obtain ⟨ht, hr, ho, hoth⟩ := pin_tick s1 v i
    have h1 : s1.order_count = s.order_count ∧ s1.RealRegRefOrder = s.RealRegRefOrder := by
      rcases (FindFreeRealReg_cases s i s1 hf).2 with rfl | ⟨u, rfl⟩
      · exact ⟨rfl, rfl⟩
      · exact ⟨(SpillVirtualRegister_order s u).2.1, (SpillVirtualRegister_order s u).1⟩
    rw [hr]
    refine ⟨by rw [ht, h1.1], hn, by rw [ho, h1.1], ?_⟩
    intro q hq
    rw [hoth q hq, h1.2]

/-- C19 (reference-order discipline): a returning `AssignRegister` and every
`AssignVirtualRegToRealReg` advance `order_count` by exactly one and stamp the register
that holds the vreg afterwards with the value `order_count` had before the call;
`SpillVirtualRegister`, `SpillRealRegister` and `SpillAllRealRegisters` change neither
`order_count` nor any entry of `RealRegRefOrder`. -/
theorem C19_reference_order_discipline (s : State) (v : Int) (name : String) (s' : State)
    (e : AssignRegister s v = .ok (name, s')) :
    (s'.order_count = s.order_count + 1 ∧
      name = ScratchRegNames (s'.reg_assign_infos v).real_reg ∧
      s'.RealRegRefOrder (s'.reg_assign_infos v).real_reg = s.order_count) ∧
    (∀ (t : State) (w p : Int),
      (AssignVirtualRegToRealReg t w p).order_count = t.order_count + 1 ∧
      ((AssignVirtualRegToRealReg t w p).reg_assign_infos w).real_reg = p ∧
      (AssignVirtualRegToRealReg t w p).RealRegRefOrder p = t.order_count) ∧
    (∀ (t : State) (w : Int),
      (SpillVirtualRegister t w).order_count = t.order_count ∧
      (SpillVirtualRegister t w).RealRegRefOrder = t.RealRegRefOrder) ∧
    (∀ (t : State) (p : Int),
      (SpillRealRegister t p).order_count = t.order_count ∧
      (SpillRealRegister t p).RealRegRefOrder = t.RealRegRefOrder) ∧
    (∀ t : State,
      (SpillAllRealRegisters t).order_count = t.order_count ∧
      (SpillAllRealRegisters t).RealRegRefOrder = t.RealRegRefOrder) := by
  obtain ⟨h1, h2, h3, _⟩ := AssignRegister_tick s v name s' e
  refine ⟨⟨h1, h2, h3⟩, ?_, ?_, ?_, ?_⟩
  · intro t w p
    obtain ⟨a, b, c, _⟩ := pin_tick t w p
    exact ⟨a, b, c⟩
  · intro t w
    exact ⟨(SpillVirtualRegister_order t w).2.1, (SpillVirtualRegister_order t w).1⟩
  · intro t p
    exact ⟨(SpillRealRegister_order t p).2.1, (SpillRealRegister_order t p).1⟩
  · intro t
    exact ⟨(SpillAllRealRegisters_order t).2, (SpillAllRealRegisters_order t).1⟩

/-- A request that spills vreg 1 from `rax` and takes `rax`: tick 10 becomes 11 and `rax`
is stamped 10. -/
theorem C19_reference_order_discipline_witness :
    ∃ s' : State, AssignRegister nineResident 10 = .ok ("rax", s') ∧
      nineResident.order_count = 10 ∧ s'.order_count = 11 ∧
      s'.RealRegRefOrder 1 = 10 ∧ s'.out = [Line.spill_store 1 "rax"] ∧
      (s'.order_count = nineResident.order_count + 1 ∧
        "rax" = ScratchRegNames (s'.reg_assign_infos 10).real_reg ∧
        s'.RealRegRefOrder (s'.reg_assign_infos 10).real_reg = nineResident.order_count) :=
  ⟨_, rfl, by decide, by decide, by decide, by decide,
    (C19_reference_order_discipline nineResident 10 "rax" _ rfl).1⟩

/-! ## Function begin, range checks, logical and, argument load -/

/-- The `kILOpFuncBegin` case with a function name: seven lines. -/
theorem GenerateOp_func_begin (k : KernelType) (s : State)
    (dst left right : Int) (func_name : String) (stack_size : Int) :
    GenerateOp k s ⟨.kILOpFuncBegin, dst, left, right, .func_def (some func_name) stack_size⟩
      = .ok ([Line.func_label (symbolPre k) func_name, Line.fixed "push    rbp",
         Line.fixed "mov     rbp, rsp", Line.fixed "mov     rax, 0xf", Line.fixed "not     rax",
         Line.sub_rsp stack_size, Line.fixed "and     rsp, rax"].foldl State.emit s) := by
  simp only [GenerateOp, List.foldl_cons, List.foldl_nil]

/-- C11, as the code has it: there is no per-function reset.  Processing a `FuncBegin`
op (with a function name) only writes the label and the prologue; `reg_assign_infos`,
`RealRegAssignTable`, `RealRegRefOrder`, `order_count` and the label counter are what
they were, so every vreg that was resident before the op is resident after it. -/
theorem C11_func_begin_keeps_allocator_state (k : KernelType) (s : State)
    (dst left right : Int) (func_name : String) (stack_size : Int) :
    ∃ s' : State,
      GenerateOp k s ⟨.kILOpFuncBegin, dst, left, right, .func_def (some func_name) stack_size⟩
        = .ok s' ∧
      s'.reg_assign_infos = s.reg_assign_infos ∧
      s'.RealRegAssignTable = s.RealRegAssignTable ∧
      s'.RealRegRefOrder = s.RealRegRefOrder ∧
      s'.order_count = s.order_count ∧ s'.num = s.num ∧
      s'.out = s.out ++
        [Line.func_label (symbolPre k) func_name, Line.fixed "push    rbp",
         Line.fixed "mov     rbp, rsp", Line.fixed "mov     rax, 0xf", Line.fixed "not     rax",
         Line.sub_rsp stack_size, Line.fixed "and     rsp, rax"] := by
  refine ⟨_, GenerateOp_func_begin k s dst left right func_name stack_size, ?_⟩
  simp [State.emit]

/-- C11 as stated fails: with vreg 1 in `rax` and vreg 2 in `rdi`, a `FuncBegin` op leaves
both resident, and a request of vreg 1 in the next function is answered with `rax`
without any allocation. -/
theorem C11_per_function_reset_counterexample :
    ∃ s' : State,
      GenerateOp .kKernelLinux twoResident
        ⟨.kILOpFuncBegin, 0, 0, 0, .func_def (some "g") 16⟩ = .ok s' ∧
      s'.RealRegAssignTable 1 = 1 ∧ s'.RealRegAssignTable 2 = 2 ∧
      (s'.reg_assign_infos 1).real_reg = 1 ∧ (s'.reg_assign_infos 2).real_reg = 2 ∧
      AssignRegister s' 1 = .ok ("rax", s'.touch 1) :=
  ⟨_, rfl, by decide, by decide, by decide, by decide, rfl⟩

/-- C12 at the failing input: `AssignRegister` refuses the vreg id 0, but a `Return` of
vreg 0 goes through `AssignVirtualRegToRealReg` without any check: the op ends without
an error, `reg_assign_infos[0].real_reg` is set to `rax`, a tick is consumed, and the
tables disagree (`RealRegAssignTable[rax]` is 0). -/
theorem C12_pin_has_no_range_check :
    AssignRegister State.init 0 = .error (.reg_id_out_of_range 0) ∧
    AssignRegister State.init 128 = .error (.reg_id_out_of_range 128) ∧
    ∃ s' : State,
      GenerateOp .kKernelLinux State.init ⟨.kILOpReturn, 0, 0, 0, .none⟩ = .ok s' ∧
      (s'.reg_assign_infos 0).real_reg = 1 ∧ s'.RealRegAssignTable 1 = 0 ∧
      s'.order_count = 2 ∧ s'.RealRegRefOrder 1 = 1 :=
  ⟨rfl, rfl, _, rfl, by decide, by decide, by decide, by decide⟩

/-- C15 at the failing input: `LogicalAnd dst=3 left=1 right=2` in the initial state
writes `cmp rdi, 0`, then a line without a mnemonic, then `setnz al`; there is no
`xor rax, rax`.  `LogicalOr` on the same operands writes `xor rax, rax`, `or rdi, rsi`,
`setnz al`. -/
theorem C15_logical_and_lines :
    (∃ s' : State,
      GenerateOp .kKernelLinux State.init ⟨.kILOpLogicalAnd, 3, 1, 2, .none⟩ = .ok s' ∧
      s'.out.map Line.render = ["cmp rdi, 0\n", " rdi, rsi\n", "setnz al\n"] ∧
      s'.RealRegAssignTable REAL_REG_RAX = 3) ∧
    (∃ s' : State,
      GenerateOp .kKernelLinux State.init ⟨.kILOpLogicalOr, 3, 1, 2, .none⟩ = .ok s' ∧
      s'.out.map Line.render = ["xor rax, rax\n", "or rdi, rsi\n", "setnz al\n"] ∧
      s'.RealRegAssignTable REAL_REG_RAX = 3) :=
  ⟨⟨_, rfl, by decide, by decide⟩, ⟨_, rfl, by decide, by decide⟩⟩

/-- C16 (argument load): a `LoadArg` with argument index `i` in `0..5` and a vreg `v` in
`1..127` succeeds and leaves `v` recorded in the register of index `i + 2`, whose name
is the `i`-th of `rdi, rsi, rdx, rcx, r8, r9`; in a consistent state the register table
names `v` there as well.  From the initial state, `LoadArg dst=v i=0` writes nothing and
the `Return left=v` after it writes the one move `mov rax, rdi` (with the comment
`# vreg v`) and then the epilogue. -/
theorem C16_argument_load (k : KernelType) (s : State) (v i right : Int) (node : ASTNode)
    (hv1 : 1 ≤ v) (hv2 : v ≤ 127) (hi1 : 0 ≤ i) (hi2 : i ≤ 5) :
    (∃ s' : State, GenerateOp k s ⟨.kILOpLoadArg, v, i, right, node⟩ = .ok s' ∧
      (s'.reg_assign_infos v).real_reg = i + 2 ∧
      (Consistent s → s'.RealRegAssignTable (i + 2) = v) ∧
      ["rdi", "rsi", "rdx", "rcx", "r8", "r9"][i.toNat]? = some (ScratchRegNames (i + 2))) ∧
    (∃ s1 s2 : State,
      GenerateOp k State.init ⟨.kILOpLoadArg, v, 0, right, node⟩ = .ok s1 ∧ s1.out = [] ∧
      GenerateOp k s1 ⟨.kILOpReturn, 0, v, 0, .none⟩ = .ok s2 ∧
      s2.out = [Line.move_vreg "rax" "rdi" v, Line.fixed "mov     rsp, rbp",
        Line.fixed "pop     rbp", Line.fixed "ret"]) := by
  have e2 : REAL_REG_RDI + i = i + 2 := by simp only [REAL_REG_RDI]; ring
  refine ⟨⟨AssignVirtualRegToRealReg s v (REAL_REG_RDI + i), rfl, ?_, ?_, ?_⟩, ?_⟩
  · rw [(pin_tick s v (REAL_REG_RDI + i)).2.1, e2]
  · intro hc
    rw [e2]
    exact pin_target s v (i + 2) hc hv1 hv2 (by omega) (by omega)
  · have hcases : i = 0 ∨ i = 1 ∨ i = 2 ∨ i = 3 ∨ i = 4 ∨ i = 5 := by omega
    rcases hcases with h | h | h | h | h | h <;> subst h <;> decide
  · have hc0 := init_consistent
    have h1c : Consistent (AssignVirtualRegToRealReg State.init v 2) :=
      pin_consistent _ v 2 hc0 hv1 hv2 (by decide) (by decide)
    have hne : ((State.init).reg_assign_infos v).real_reg ≠ 2 := by simp [State.init]
    have hr1 : ((AssignVirtualRegToRealReg State.init v 2).reg_assign_infos v).real_reg = 2 :=
      (pin_tick State.init v 2).2.1
    have ht1 : ∀ r : Int, (AssignVirtualRegToRealReg State.init v 2).RealRegAssignTable r =
        if r = 2 then v else 0 := by
      intro r
      rw [pin_table State.init v 2 r hne]
      simp [SpillRealRegister, State.init]
    have ho1 : (AssignVirtualRegToRealReg State.init v 2).out = [] := by
      rw [pin_out State.init v 2 hne]
      simp [SpillRealRegister, State.init, pinMoveLines]
    refine ⟨AssignVirtualRegToRealReg State.init v 2,
      GenerateFuncEpilogue (AssignVirtualRegToRealReg
        (AssignVirtualRegToRealReg State.init v 2) v REAL_REG_RAX), rfl, ho1, rfl, ?_⟩
    rw [GenerateFuncEpilogue_out,
      pin_out_consistent _ v REAL_REG_RAX h1c hv1 hv2 (by decide) (by decide), ho1, hr1,
      ht1 REAL_REG_RAX]
    simp [REAL_REG_RAX, ScratchRegNames]

/-- The argument with index 2 goes to `rdx`; the identity function of argument 0. -/
theorem C16_argument_load_witness :
    (∃ s' : State, GenerateOp .kKernelLinux twoResident ⟨.kILOpLoadArg, 7, 2, 0, .none⟩ = .ok s' ∧
      (s'.reg_assign_infos 7).real_reg = 4 ∧ ScratchRegNames 4 = "rdx") ∧
    (∃ s1 s2 : State,
      GenerateOp .kKernelLinux State.init ⟨.kILOpLoadArg, 1, 0, 0, .none⟩ = .ok s1 ∧ s1.out = [] ∧
      GenerateOp .kKernelLinux s1 ⟨.kILOpReturn, 0, 1, 0, .none⟩ = .ok s2 ∧
      s2.out = [Line.move_vreg "rax" "rdi" 1, Line.fixed "mov     rsp, rbp",
        Line.fixed "pop     rbp", Line.fixed "ret"]) :=
  ⟨match (C16_argument_load .kKernelLinux twoResident 7 2 0 .none
      (by decide) (by decide) (by decide) (by decide)).1 with
    | ⟨s', h1, h2, _⟩ => ⟨s', h1, h2, by decide⟩,
   (C16_argument_load .kKernelLinux State.init 1 0 0 .none
      (by decide) (by decide) (by decide) (by decide)).2⟩

/-! ## Registers stamped within the last eight ticks are not victims -/

/-- After a returning `AssignRegister(v)` in a consistent state, `v` is resident and the
name returned is the name of its register. -/
theorem AssignRegister_resident (s : State) (v : Int) (name : String) (s' : State)
    (h : Consistent s) (e : AssignRegister s v = .ok (name, s')) :
    Resident s' v ∧ name = ScratchRegNames (s'.reg_assign_infos v).real_reg := by
  have hn := (AssignRegister_tick s v name s' e).2.1
  have hc := AssignRegister_consistent s v name s' h e
  obtain ⟨hv, hcase⟩ := AssignRegister_ok s v name s' e
  have hr' := hc.real_reg_range v hv.1 hv.2
  have hne : (s'.reg_assign_infos v).real_reg ≠ 0 := by
    rcases hcase with ⟨hres, _, rfl⟩ | ⟨_, i, s1, hf, _, rfl⟩
    · exact hres
    · rw [(pin_tick s1 v i).2.1]
      have := (FindFreeRealReg_cases s i s1 hf).1
      omega
  refine ⟨⟨by omega, ?_⟩, hn⟩
  exact (hc.table_iff v _ hv.1 hv.2 (by omega) (by omega)).mp rfl

/-- A returning `AssignRegister(v)` in a consistent state leaves in place every vreg whose
register was stamped within the last `k ≤ 8` ticks, and that register is then stamped
within the last `k + 1` ticks. -/
theorem AssignRegister_keeps (s : State) (v : Int) (name : String) (s' : State)
    (h : Consistent s) (e : AssignRegister s v = .ok (name, s'))
    (w : Int) (hw1 : 1 ≤ w) (hw2 : w ≤ 127) (hres : (s.reg_assign_infos w).real_reg ≠ 0)
    (k : Int) (hk0 : 0 ≤ k) (hk : k ≤ 8)
    (hrec : s.order_count - k ≤ s.RealRegRefOrder (s.reg_assign_infos w).real_reg) :
    (s'.reg_assign_infos w).real_reg = (s.reg_assign_infos w).real_reg ∧
    s'.order_count - (k + 1) ≤ s'.RealRegRefOrder (s'.reg_assign_infos w).real_reg := by
  have hc := AssignRegister_consistent s v name s' h e
  obtain ⟨ht, _, hstamp, hoth⟩ := AssignRegister_tick s v name s' e
  have hwr := h.real_reg_range w hw1 hw2
  have hwt := (h.table_iff w _ hw1 hw2 (by omega) (by omega)).mp rfl
  obtain ⟨hv, hcase⟩ := AssignRegister_ok s v name s' e
  have hsame : (s'.reg_assign_infos w).real_reg = (s.reg_assign_infos w).real_reg := by
    rcases hcase with ⟨_, _, rfl⟩ | ⟨hnot, i, s1, hf, _, rfl⟩
    · rfl
    · have hwv : w ≠ v := by rintro rfl; exact hres hnot
      obtain ⟨hi, hz, h1⟩ := FindFreeRealReg_spec s i s1 h hf
      have hs1 : (s1.reg_assign_infos w).real_reg = (s.reg_assign_infos w).real_reg := by
        rcases FindFreeRealReg_ok s i s1 h hf with ⟨_, rfl⟩ | ⟨_, rfl, _, hst, _⟩
        · rfl
        · rw [SpillVirtualRegister_real_reg, if_neg]
          intro hwi
          have := (h.table_iff w i hw1 hw2 hi.1 hi.2).mpr hwi.symm
          rw [this] at hrec
          omega
      have hne : (s1.reg_assign_infos v).real_reg ≠ i := by
        have := FindFreeRealReg_real_reg s i s1 v h hf hnot
        omega
      rw [pin_real_reg s1 v i w hne, if_neg hwv, SpillRealRegister_real_reg, if_neg, hs1]
      rintro ⟨h0, _⟩; exact h0 hz
  refine ⟨hsame, ?_⟩
  rw [hsame, ht]
  by_cases hq : (s.reg_assign_infos w).real_reg = (s'.reg_assign_infos v).real_reg
  · rw [hq, hstamp]; omega
  · rw [hoth _ hq]; omega

/-- A vreg that is resident in a consistent state stays resident when its register is
unchanged and the new state is consistent. -/
theorem Resident_of_real_reg (s : State) (w : Int) (h : Consistent s)
    (hw1 : 1 ≤ w) (hw2 : w ≤ 127) (hres : (s.reg_assign_infos w).real_reg ≠ 0) :
    Resident s w := by
  have hr := h.real_reg_range w hw1 hw2
  exact ⟨by omega, (h.table_iff w _ hw1 hw2 (by omega) (by omega)).mp rfl⟩

/-- Two registers in `1..9` with the same name are the same register. -/
theorem ScratchRegNames_inj (p q : Int) (hp1 : 1 ≤ p) (hp2 : p ≤ 9) (hq1 : 1 ≤ q) (hq2 : q ≤ 9)
    (e : ScratchRegNames p = ScratchRegNames q) : p = q := by
  interval_cases p <;> interval_cases q <;> first | rfl | (exfalso; revert e; decide)

theorem GenerateOp_binop (k : KernelType) (s : State) (ty : ILOpType) (m : String)
    (dst left right : Int) (node : ASTNode) (hm : binopMnemonic ty = some m) :
    GenerateOp k s ⟨ty, dst, left, right, node⟩ =
      GenerateBinOp m s ⟨ty, dst, left, right, node⟩ := by
  cases ty <;> simp only [binopMnemonic, Option.some.injEq, reduceCtorEq] at hm <;>
    subst hm <;> rfl

theorem GenerateOp_cmp (k : KernelType) (s : State) (ty : ILOpType) (c : String)
    (dst left right : Int) (node : ASTNode) (hc : cmpSetcc ty = some c) :
    GenerateOp k s ⟨ty, dst, left, right, node⟩ =
      GenerateCmp c s ⟨ty, dst, left, right, node⟩ := by
  cases ty <;> simp only [cmpSetcc, Option.some.injEq, reduceCtorEq] at hc <;>
    subst hc <;> rfl

/-- Right after a returning `AssignRegister(v)`, the register of `v` carries the newest
stamp. -/
theorem AssignRegister_fresh (s : State) (v : Int) (name : String) (s' : State)
    (e : AssignRegister s v = .ok (name, s')) :
    s'.order_count - 1 ≤ s'.RealRegRefOrder (s'.reg_assign_infos v).real_reg := by
  obtain ⟨ht, _, hstamp, _⟩ := AssignRegister_tick s v name s' e
  rw [ht, hstamp]; omega

/-- One request in a reachable state: it succeeds, the vreg is resident under the name
returned and carries the newest stamp, and every vreg whose register was stamped within
the last `k ≤ 8` ticks is where it was. -/
theorem request_step (s : State) (v : Int) (h : Consistent s) (hs : StampsFresh s)
    (hv1 : 1 ≤ v) (hv2 : v ≤ 127) :
    ∃ s' : State,
      AssignRegister s v = .ok (ScratchRegNames (s'.reg_assign_infos v).real_reg, s') ∧
      Consistent s' ∧ StampsFresh s' ∧ Resident s' v ∧
      s'.order_count = s.order_count + 1 ∧
      s'.order_count - 1 ≤ s'.RealRegRefOrder (s'.reg_assign_infos v).real_reg ∧
      (∀ w k : Int, 1 ≤ w → w ≤ 127 → (s.reg_assign_infos w).real_reg ≠ 0 → 0 ≤ k → k ≤ 8 →
        s.order_count - k ≤ s.RealRegRefOrder (s.reg_assign_infos w).real_reg →
        (s'.reg_assign_infos w).real_reg = (s.reg_assign_infos w).real_reg ∧
        s'.order_count - (k + 1) ≤ s'.RealRegRefOrder (s'.reg_assign_infos w).real_reg) := by
  obtain ⟨n1, s1, e1⟩ := AssignRegister_isOk s v h hs hv1 hv2
  obtain ⟨ra, hna⟩ := AssignRegister_resident s v n1 s1 h e1
  refine ⟨s1, by rw [e1, hna], AssignRegister_consistent s v n1 s1 h e1,
    AssignRegister_stamps s v n1 s1 h hs e1, ra, (AssignRegister_tick s v n1 s1 e1).1,
    AssignRegister_fresh s v n1 s1 e1, ?_⟩
  intro w k hw1 hw2 hres hk0 hk hrec
  exact AssignRegister_keeps s v n1 s1 h e1 w hw1 hw2 hres k hk0 hk hrec

/-- One pin in a reachable state: the vreg is resident in the target, which carries the
newest stamp. -/
theorem pin_step (s : State) (v p : Int) (h : Consistent s) (hs : StampsFresh s)
    (hv1 : 1 ≤ v) (hv2 : v ≤ 127) (hp1 : 1 ≤ p) (hp2 : p ≤ 9) :
    Consistent (AssignVirtualRegToRealReg s v p) ∧ StampsFresh (AssignVirtualRegToRealReg s v p) ∧
    ((AssignVirtualRegToRealReg s v p).reg_assign_infos v).real_reg = p ∧
    (AssignVirtualRegToRealReg s v p).RealRegAssignTable p = v ∧
    (AssignVirtualRegToRealReg s v p).order_count - 1 ≤
      (AssignVirtualRegToRealReg s v p).RealRegRefOrder p := by
  obtain ⟨a, b, c, _⟩ := pin_tick s v p
  refine ⟨pin_consistent s v p h hv1 hv2 hp1 hp2, pin_stamps s v p hs, b,
    pin_target s v p h hv1 hv2 hp1 hp2, ?_⟩
  rw [a, c]; omega

/-- The three requests of a pure binary op or the pin and two requests of a comparison
leave every operand in the register whose name was returned for it. -/
theorem binop_requests (s : State) (dst left right : Int) (h : Consistent s)
    (hs : StampsFresh s) (hd1 : 1 ≤ dst) (hd2 : dst ≤ 127) (hl1 : 1 ≤ left) (hl2 : left ≤ 127)
    (hr1 : 1 ≤ right) (hr2 : right ≤ 127) :
    ∃ s1 s2 s3 : State,
      AssignRegister s dst = .ok (ScratchRegNames (s3.reg_assign_infos dst).real_reg, s1) ∧
      AssignRegister s1 left = .ok (ScratchRegNames (s3.reg_assign_infos left).real_reg, s2) ∧
      AssignRegister s2 right = .ok (ScratchRegNames (s3.reg_assign_infos right).real_reg, s3) ∧
      Consistent s3 ∧ StampsFresh s3 ∧
      Resident s3 dst ∧ Resident s3 left ∧ Resident s3 right := by
  obtain ⟨s1, e1, h1, hs1, r1, _, f1, _⟩ := request_step s dst h hs hd1 hd2
  obtain ⟨s2, e2, h2, hs2, r2, _, f2, k2⟩ := request_step s1 left h1 hs1 hl1 hl2
  obtain ⟨s3, e3, h3, hs3, r3, _, _, k3⟩ := request_step s2 right h2 hs2 hr1 hr2
  have d2 := k2 dst 1 hd1 hd2 (by have := r1.1; omega) (by decide) (by decide) f1
  have d3 := k3 dst 2 hd1 hd2 (by rw [d2.1]; have := r1.1; omega) (by decide) (by decide)
    (by have := d2.2; norm_num at this ⊢; exact this)
  have l3 := k3 left 1 hl1 hl2 (by have := r2.1; omega) (by decide) (by decide) f2
  refine ⟨s1, s2, s3, ?_, ?_, e3, h3, hs3, ?_, ?_, r3⟩
  · rw [e1, d3.1, d2.1]
  · rw [e2, l3.1]
  · exact Resident_of_real_reg s3 dst h3 hd1 hd2 (by rw [d3.1, d2.1]; have := r1.1; omega)
  · exact Resident_of_real_reg s3 left h3 hl1 hl2 (by rw [l3.1]; have := r2.1; omega)

/-- After a pin of `a` to `p`, two requests leave `a` in `p` and both requested vregs in
the registers whose names were returned. -/
theorem pin_then_requests (s : State) (a p b c : Int) (h : Consistent s)
    (hs : StampsFresh s) (ha1 : 1 ≤ a) (ha2 : a ≤ 127) (hp1 : 1 ≤ p) (hp2 : p ≤ 9)
    (hb1 : 1 ≤ b) (hb2 : b ≤ 127) (hc1 : 1 ≤ c) (hc2 : c ≤ 127) :
    ∃ s2 s3 : State,
      AssignRegister (AssignVirtualRegToRealReg s a p) b =
        .ok (ScratchRegNames (s3.reg_assign_infos b).real_reg, s2) ∧
      AssignRegister s2 c = .ok (ScratchRegNames (s3.reg_assign_infos c).real_reg, s3) ∧
      Consistent s3 ∧ StampsFresh s3 ∧
      (s3.reg_assign_infos a).real_reg = p ∧ s3.RealRegAssignTable p = a ∧
      Resident s3 b ∧ Resident s3 c := by
  obtain ⟨h1, hs1, ra, _, fa⟩ := pin_step s a p h hs ha1 ha2 hp1 hp2
  obtain ⟨s2, e2, h2, hs2, r2, _, f2, k2⟩ := request_step _ b h1 hs1 hb1 hb2
  obtain ⟨s3, e3, h3, hs3, r3, _, _, k3⟩ := request_step s2 c h2 hs2 hc1 hc2
  have a2 := k2 a 1 ha1 ha2 (by rw [ra]; omega) (by decide) (by decide) (by rw [ra]; exact fa)
  have a3 := k3 a 2 ha1 ha2 (by rw [a2.1, ra]; omega) (by decide) (by decide)
    (by have := a2.2; norm_num at this ⊢; exact this)
  have b3 := k3 b 1 hb1 hb2 (by have := r2.1; omega) (by decide) (by decide) f2
  have hra : (s3.reg_assign_infos a).real_reg = p := by rw [a3.1, a2.1, ra]
  refine ⟨s2, s3, ?_, e3, h3, hs3, hra, ?_, ?_, r3⟩
  · rw [e2, b3.1]
  · exact (h3.table_iff a p ha1 ha2 hp1 hp2).mp hra
  · exact Resident_of_real_reg s3 b h3 hb1 hb2 (by rw [b3.1]; have := r2.1; omega)

theorem pins9_inRange : ∀ op ∈ pins9, op.InRange := by
  intro op h
  simp only [pins9, List.mem_cons, List.mem_singleton, List.not_mem_nil, or_false] at h
  rcases h with h | h | h | h | h | h | h | h | h <;> subst h <;> simp [AllocOp.InRange]

theorem nineResident_consistent : Consistent nineResident :=
  runAllocOps_consistent pins9 State.init nineResident init_consistent pins9_inRange rfl

theorem nineResident_stamps : StampsFresh nineResident :=
  runAllocOps_stamps pins9 State.init nineResident init_consistent init_stamps pins9_inRange rfl

theorem rdxHeld_consistent : Consistent rdxHeld :=
  pin_consistent _ 5 4 init_consistent (by decide) (by decide) (by decide) (by decide)

theorem rdxHeld_stamps : StampsFresh rdxHeld := pin_stamps _ 5 4 init_stamps

/-! ## Operand registers within one op -/

/-- C20 (operand names stay valid within one op): in a consistent state with fresh
stamps (every reachable state is one), for in-range vregs `dst`, `left`, `right`:
a pure binary op succeeds and writes `<op> L, R` and then `mov D, L`, where at that point
`D`, `L`, `R` are the names of the registers in which `dst`, `left`, `right` are resident;
a comparison succeeds and writes `xor rax, rax`, `cmp L, R` and its `set..` line, where at
that point `dst` is resident in `rax`, `L` and `R` are the names of the registers in which
`left` and `right` are resident, and an operand other than `dst` is not named `rax`. -/
theorem C20_operand_names_valid (k : KernelType) (s : State) (dst left right : Int)
    (node : ASTNode) (h : Consistent s) (hs : StampsFresh s)
    (hd1 : 1 ≤ dst) (hd2 : dst ≤ 127) (hl1 : 1 ≤ left) (hl2 : left ≤ 127)
    (hr1 : 1 ≤ right) (hr2 : right ≤ 127) :
    (∀ (ty : ILOpType) (m : String), binopMnemonic ty = some m →
      ∃ s3 : State,
        GenerateOp k s ⟨ty, dst, left, right, node⟩ =
          .ok ((s3.emit (.instr2 m (ScratchRegNames (s3.reg_assign_infos left).real_reg)
              (ScratchRegNames (s3.reg_assign_infos right).real_reg))).emit
            (.instr2 "mov" (ScratchRegNames (s3.reg_assign_infos dst).real_reg)
              (ScratchRegNames (s3.reg_assign_infos left).real_reg))) ∧
        Resident s3 dst ∧ Resident s3 left ∧ Resident s3 right) ∧
    (∀ (ty : ILOpType) (c : String), cmpSetcc ty = some c →
      ∃ s3 : State,
        GenerateOp k s ⟨ty, dst, left, right, node⟩ =
          .ok (((s3.emit (.fixed "xor rax, rax")).emit
            (.instr2 "cmp" (ScratchRegNames (s3.reg_assign_infos left).real_reg)
              (ScratchRegNames (s3.reg_assign_infos right).real_reg))).emit (.fixed c)) ∧
        (s3.reg_assign_infos dst).real_reg = REAL_REG_RAX ∧
        s3.RealRegAssignTable REAL_REG_RAX = dst ∧
        Resident s3 left ∧ Resident s3 right ∧
        (dst ≠ left → ScratchRegNames (s3.reg_assign_infos left).real_reg ≠ "rax") ∧
        (dst ≠ right → ScratchRegNames (s3.reg_assign_infos right).real_reg ≠ "rax")) := by
  constructor
  · intro ty m hm
    obtain ⟨s1, s2, s3, e1, e2, e3, _, _, rd, rl, rr⟩ :=
      binop_requests s dst left right h hs hd1 hd2 hl1 hl2 hr1 hr2
    refine ⟨s3, ?_, rd, rl, rr⟩
    rw [GenerateOp_binop k s ty m dst left right node hm]
    simp only [GenerateBinOp, e1, e2, e3]
  · intro ty c hc
    obtain ⟨s2, s3, e2, e3, h3, _, rd, td, rl, rr⟩ :=
      pin_then_requests s dst REAL_REG_RAX left right h hs hd1 hd2 (by decide) (by decide)
        hl1 hl2 hr1 hr2
    have hname : ∀ w : Int, 1 ≤ w → w ≤ 127 → Resident s3 w → dst ≠ w →
        ScratchRegNames (s3.reg_assign_infos w).real_reg ≠ "rax" := by
      intro w hw1 hw2 rw hdw hn
      have e1 : (s3.reg_assign_infos w).real_reg = 1 :=
        ScratchRegNames_inj _ 1 rw.1.1 rw.1.2 (by decide) (by decide) (by rw [hn]; rfl)
      have := rw.2
      rw [e1] at this
      rw [REAL_REG_RAX] at td
      exact hdw (td.symm.trans this)
    refine ⟨s3, ?_, rd, td, rl, rr, hname left hl1 hl2 rl, hname right hr1 hr2 rr⟩
    rw [GenerateOp_cmp k s ty c dst left right node hc]
    simp only [GenerateCmp, e2, e3]

/-- An addition and a comparison with all nine registers occupied: each request spills
a stale register, never one taken earlier in the op. -/
theorem C20_operand_names_valid_witness :
    Consistent nineResident ∧ StampsFresh nineResident ∧
    (∃ s3 : State,
      GenerateOp .kKernelLinux nineResident ⟨.kILOpAdd, 11, 1, 2, .none⟩ =
        .ok ((s3.emit (.instr2 "add" (ScratchRegNames (s3.reg_assign_infos 1).real_reg)
            (ScratchRegNames (s3.reg_assign_infos 2).real_reg))).emit
          (.instr2 "mov" (ScratchRegNames (s3.reg_assign_infos 11).real_reg)
            (ScratchRegNames (s3.reg_assign_infos 1).real_reg))) ∧
      Resident s3 11 ∧ Resident s3 1 ∧ Resident s3 2) ∧
    (∃ s' : State,
      GenerateOp .kKernelLinux nineResident ⟨.kILOpAdd, 11, 1, 2, .none⟩ = .ok s' ∧
      s'.out.map Line.render =
        ["mov [rip + L1], rax\n", "mov [rip + L2], rdi\n", "mov rdi, [rip + L1]\n",
         "mov [rip + L3], rsi\n", "mov rsi, [rip + L2]\n", "add rdi, rsi\n",
         "mov rax, rdi\n"]) ∧
    (∃ s' : State,
      GenerateOp .kKernelLinux nineResident ⟨.kILOpCmpL, 11, 1, 2, .none⟩ = .ok s' ∧
      s'.out.map Line.render =
        ["mov [rip + L1], rax\n", "mov [rip + L2], rdi\n", "mov rdi, [rip + L1]\n",
         "mov [rip + L3], rsi\n", "mov rsi, [rip + L2]\n", "xor rax, rax\n",
         "cmp rdi, rsi\n", "setl al\n"]) :=
  ⟨nineResident_consistent, nineResident_stamps,
    (C20_operand_names_valid .kKernelLinux nineResident 11 1 2 .none nineResident_consistent
      nineResident_stamps (by decide) (by decide) (by decide) (by decide) (by decide)
      (by decide)).1 .kILOpAdd "add" rfl,
    ⟨_, rfl, by decide⟩, ⟨_, rfl, by decide⟩⟩

/-! ## Multiplication and division -/

/-- C14 as stated fails: with vreg 5 in `rdx`, `Mul dst=3 left=1 right=2` writes only
`push rdx`, `imul rsi`, `pop rdx`, `mov rdi, rax`; afterwards `rdx` still holds vreg 5
(nothing was spilled), `rax` holds `left` (vreg 1) and `dst` (vreg 3) is in `rdi`. -/
theorem C14_mul_counterexample :
    ∃ s' : State,
      GenerateOp .kKernelLinux rdxHeld ⟨.kILOpMul, 3, 1, 2, .none⟩ = .ok s' ∧
      rdxHeld.out = [] ∧ rdxHeld.RealRegAssignTable REAL_REG_RDX = 5 ∧
      s'.out.map Line.render = ["push rdx\n", "imul rsi\n", "pop rdx\n", "mov rdi, rax\n"] ∧
      s'.RealRegAssignTable REAL_REG_RDX = 5 ∧
      s'.RealRegAssignTable REAL_REG_RAX = 1 ∧
      (s'.reg_assign_infos 3).real_reg = REAL_REG_RDI :=
  ⟨_, rfl, by decide, by decide, by decide, by decide, by decide, by decide⟩

/-- The function `FindFreeRealReg` returns the state it was given or spills one
register. -/
theorem FindFreeRealReg_spill (s : State) (i : Int) (s1 : State)
    (e : FindFreeRealReg s = .ok (i, s1)) :
    s1 = s ∨ ∃ p : Int, s1 = SpillRealRegister s p := by
  unfold FindFreeRealReg at e
  split at e
  · injection e with e; injection e with _ e2; exact Or.inl e2.symm
  · split at e
    · cases e
    · rename_i v hv
      dsimp only at e
      split at e
      · injection e with e; injection e with _ e2
        obtain ⟨p, _, hp, hne, _⟩ := Select_ok s v hv
        refine Or.inr ⟨p, ?_⟩
        rw [← e2, hp]
        unfold SpillRealRegister
        rw [if_pos hne]
      · cases e

section AllocClosed

variable {V : Int → Prop} {R : State → State → Prop}

theorem AllocClosed.through_spill_list (hR : AllocClosed V R) (l : List Int) (s : State) :
    R s (l.foldl SpillRealRegister s) := by
  induction l generalizing s with
  | nil => exact hR.refl s
  | cons a l ih => exact hR.trans _ _ _ (hR.spill s a) (ih _)

theorem AllocClosed.through_spill_all (hR : AllocClosed V R) (s : State) :
    R s (SpillAllRealRegisters s) :=
  hR.through_spill_list scratchIndices s

theorem AllocClosed.through_request (hR : AllocClosed V R) (s : State) (v : Int) (name : String)
    (s' : State) (e : AssignRegister s v = .ok (name, s')) : R s s' := by
  obtain ⟨hv, ⟨_, _, rfl⟩ | ⟨_, i, s1, hf, _, rfl⟩⟩ := AssignRegister_ok s v name s' e
  · exact hR.touch s _
  · refine hR.trans _ _ _ ?_ (hR.pin s1 v i (hR.range v hv.1 hv.2))
    rcases FindFreeRealReg_spill s i s1 hf with rfl | ⟨p, rfl⟩
    · exact hR.refl _
    · exact hR.spill s p

theorem AllocClosed.then_request (hR : AllocClosed V R) {s t t' : State} {v : Int}
    {name : String} (e : AssignRegister t v = .ok (name, t')) (h : R s t) : R s t' :=
  hR.trans _ _ _ h (hR.through_request t v name t' e)

theorem AllocClosed.then_pin (hR : AllocClosed V R) {s t : State} (v p : Int) (hv : V v)
    (h : R s t) : R s (AssignVirtualRegToRealReg t v p) :=
  hR.trans _ _ _ h (hR.pin t v p hv)

theorem AllocClosed.then_spill (hR : AllocClosed V R) {s t : State} (p : Int) (h : R s t) :
    R s (SpillRealRegister t p) :=
  hR.trans _ _ _ h (hR.spill t p)

theorem AllocClosed.then_spill_all (hR : AllocClosed V R) {s t : State} (h : R s t) :
    R s (SpillAllRealRegisters t) :=
  hR.trans _ _ _ h (hR.through_spill_all t)

theorem AllocClosed.through_call_params (hR : AllocClosed V R) (nodes : List ASTNode) (s : State)
    (i : Int) (s' : State) (hv : ∀ d ∈ nodes.filterMap ASTNode.argReg?, V d)
    (e : CallPinParams s nodes i = .ok s') : R s s' := by
  induction nodes generalizing s i with
  | nil => simp only [CallPinParams] at e; injection e with e; subst e; exact hR.refl s
  | cons n rest ih =>
    cases n with
    | il_op d =>
      simp only [CallPinParams] at e
      refine hR.trans _ _ _ (hR.pin s d _ (hv d ?_)) (ih _ _ (fun d hd => hv d ?_) e)
      · simp [ASTNode.argReg?]
      · simp only [List.filterMap_cons, ASTNode.argReg?]
        exact List.mem_cons_of_mem _ hd
    | _ => simp only [CallPinParams] at e; cases e

theorem OpClosed.then_emit (hR : OpClosed V R) {s t : State} (l : Line)
    (hl : Line.isPlain l = true) (h : R s t) : R s (t.emit l) :=
  hR.trans _ _ _ h (hR.emit t l hl)

theorem OpClosed.then_label (hR : OpClosed V R) {s t : State} (h : R s t) :
    R s (GetLabelNumber t).2 :=
  hR.trans _ _ _ h (hR.label t)

theorem OpClosed.then_node (hR : OpClosed V R) {s t : State} (n : Nat) (h : R s t) :
    R s (ResolveLabelNumber t n).2 :=
  hR.trans _ _ _ h (hR.node t n)

theorem OpClosed.then_epilogue (hR : OpClosed V R) {s t : State} (h : R s t) :
    R s (GenerateFuncEpilogue t) :=
  hR.then_emit _ rfl (hR.then_emit _ rfl (hR.then_emit _ rfl h))

theorem OpClosed.through_binop (hR : OpClosed V R) (m : String) (s : State) (op : ASTILOp) (s' : State)
    (e : GenerateBinOp m s op = .ok s') : R s s' := by
  unfold GenerateBinOp at e
  repeat' split at e
  all_goals cases e
  all_goals repeat (with_reducible first
    | exact hR.refl _
    | refine hR.then_emit _ (by with_unfolding_all rfl) ?_
    | refine hR.then_request (by assumption) ?_)

theorem OpClosed.through_cmp (hR : OpClosed V R) (m : String) (s : State) (op : ASTILOp) (s' : State)
    (hv : V op.dst_reg) (e : GenerateCmp m s op = .ok s') : R s s' := by
  unfold GenerateCmp at e
  dsimp only at e
  repeat' split at e
  all_goals cases e
  all_goals repeat (with_reducible first
    | exact hR.refl _
    | refine hR.then_emit _ (by with_unfolding_all rfl) ?_
    | apply hR.then_pin _ _ hv
    | refine hR.then_request (by assumption) ?_)

theorem OpClosed.through_shift (hR : OpClosed V R) (m : String) (s : State) (op : ASTILOp)
    (hd : V op.dst_reg) (hl : V op.left_reg) (hr : V op.right_reg) :
    R s (GenerateShift m s op) := by
  unfold GenerateShift
  dsimp only
  repeat (with_reducible first
    | exact hR.refl _
    | refine hR.then_emit _ (by with_unfolding_all rfl) ?_
    | apply hR.then_pin _ _ hd
    | apply hR.then_pin _ _ hl
    | apply hR.then_pin _ _ hr)

theorem callArgs_list {V : Int → Prop} (node : ASTNode) (call_params : List ASTNode)
    (h : node = .list call_params) (hv : ∀ a ∈ node.callArgs, V a) :
    ∀ d ∈ (call_params.drop 1).filterMap ASTNode.argReg?, V d := by
  subst h
  exact hv

theorem OpClosed.through_generate_op (hR : OpClosed V R) (k : KernelType) (s : State) (op : ASTILOp)
    (s' : State) (hv : ∀ v ∈ op.pinned, V v) (e : GenerateOp k s op = .ok s') : R s s' := by
  unfold GenerateOp at e
  split at e
  all_goals (
    rename_i heq
    simp only [ASTILOp.pinned, heq, List.mem_cons, List.mem_singleton, forall_eq_or_imp,
      forall_eq, List.not_mem_nil, false_imp_iff, implies_true, and_true] at hv)
  all_goals first
    | exact hR.through_binop _ s op s' e
    | exact hR.through_cmp _ s op s' hv e
    | (repeat' first | split at e | dsimp only at e
       all_goals cases e
       all_goals repeat (with_reducible first
        | exact hR.refl _
        | exact hR.through_shift _ _ _ hv.2.2 hv.1 hv.2.1
        | exact hR.through_call_params _ _ _ _ (callArgs_list _ _ (by assumption) hv.2) (by assumption)
        | refine hR.then_emit _ (by with_unfolding_all rfl) ?_
        | apply hR.then_pin _ _ hv
        | apply hR.then_pin _ _ hv.1
        | apply hR.then_pin _ _ hv.2.1
        | apply hR.then_pin _ _ hv.2.2
        | apply hR.then_spill
        | apply hR.then_spill_all
        | apply hR.then_epilogue
        | apply hR.then_label
        | apply hR.then_node
        | refine hR.then_request (by assumption) ?_))

theorem OpClosed.through_generate_ops (hR : OpClosed V R) (k : KernelType)
    (il : List (Option ASTILOp)) (s s' : State)
    (hv : ∀ op : ASTILOp, some op ∈ il → ∀ v ∈ op.pinned, V v)
    (e : GenerateOps k s il = .ok s') : R s s' := by
  induction il generalizing s with
  | nil => simp only [GenerateOps] at e; cases e; exact hR.refl _
  | cons o rest ih =>
    cases o with
    | none => simp only [GenerateOps] at e; cases e
    | some op =>
      simp only [GenerateOps] at e
      split at e
      · cases e
      · rename_i s1 h1
        exact hR.trans _ _ _
          (hR.through_generate_op k s op s1 (hv op (List.mem_cons_self _ _)) h1)
          (ih s1 (fun op hop => hv op (List.mem_cons_of_mem _ hop)) e)

theorem OpClosed.through_generate_globals (hR : OpClosed V R) (k : KernelType)
    (il : List (Option ASTILOp)) (s s' : State)
    (e : GenerateGlobals k s il = .ok s') : R s s' := by
  induction il generalizing s with
  | nil => simp only [GenerateGlobals] at e; cases e; exact hR.refl _
  | cons o rest ih =>
    cases o with
    | none => simp only [GenerateGlobals] at e; cases e
    | some op =>
      simp only [GenerateGlobals] at e
      split at e
      · split at e
        · exact hR.trans _ _ _ (hR.emit _ (.global _ _) rfl) (ih _ e)
        · cases e
        · cases e
      · exact ih _ e

theorem GenerateOps_append (k : KernelType) (a b : List (Option ASTILOp)) (s s' : State)
    (e : GenerateOps k s (a ++ b) = .ok s') :
    ∃ t : State, GenerateOps k s a = .ok t ∧ GenerateOps k t b = .ok s' := by
  induction a generalizing s with
  | nil => exact ⟨s, rfl, e⟩
  | cons o rest ih =>
    cases o with
    | none => simp only [List.cons_append, GenerateOps] at e; cases e
    | some op =>
      simp only [List.cons_append, GenerateOps] at e ⊢
      cases h1 : GenerateOp k s op with
      | error err => simp only [h1] at e; cases e
      | ok s1 =>
        simp only [h1] at e ⊢
        exact ih s1 e

theorem GenerateOps_cons (k : KernelType) (op : ASTILOp) (b : List (Option ASTILOp))
    (s s' : State) (e : GenerateOps k s (some op :: b) = .ok s') :
    ∃ t : State, GenerateOp k s op = .ok t ∧ GenerateOps k t b = .ok s' := by
  simp only [GenerateOps] at e
  cases h1 : GenerateOp k s op with
  | error err => simp only [h1] at e; cases e
  | ok s1 =>
    simp only [h1] at e
    exact ⟨s1, rfl, e⟩

end AllocClosed

/-! ## Label numbers -/

theorem NodesKept_of_same (s s' : State) (hl : s'.label_number = s.label_number)
    (hn : s.num ≤ s'.num) : NodesKept s s' := by
  intro ⟨h1, h2, h3⟩
  refine ⟨⟨le_trans h1 hn, ?_, ?_⟩, ?_⟩
  · intro n; rw [hl]; exact lt_of_lt_of_le (h2 n) hn
  · intro n m; rw [hl]; exact h3 n m
  · intro n _; rw [hl]

theorem SpillRealRegister_num_le (s : State) (p : Int) : s.num ≤ (SpillRealRegister s p).num := by
  rw [SpillRealRegister_num]
  split_ifs <;> omega

theorem ResolveLabelNumber_kept (s : State) (n : Nat) : NodesKept s (ResolveLabelNumber s n).2 := by
  intro ⟨h1, h2, h3⟩
  by_cases h0 : s.label_number n = 0
  · have e : (ResolveLabelNumber s n).2 =
        { s with num := s.num + 1, label_number := Function.update s.label_number n s.num } := by
      simp [ResolveLabelNumber, GetLabelNumber, h0]
    rw [e]
    refine ⟨⟨?_, ?_, ?_⟩, ?_⟩
    · show 1 ≤ s.num + 1
      omega
    · intro m
      show Function.update s.label_number n s.num m < s.num + 1
      by_cases hm : m = n
      · subst hm; simp
      · simp only [Function.update_apply, hm, if_false]; have := h2 m; omega
    · intro a b
      show Function.update s.label_number n s.num a ≠ 0 →
        Function.update s.label_number n s.num a = Function.update s.label_number n s.num b → a = b
      by_cases ha : a = n <;> by_cases hb : b = n <;>
        simp only [Function.update_apply, ha, hb, if_true, if_false]
      · intro _ _; trivial
      · intro _ hh; have := h2 b; omega
      · intro _ hh; have := h2 a; omega
      · exact h3 a b
    · intro m hm
      have : m ≠ n := by rintro rfl; exact hm h0
      show Function.update s.label_number n s.num m = s.label_number m
      simp only [Function.update_apply, this, if_false]
  · have e : (ResolveLabelNumber s n).2 = s := by simp [ResolveLabelNumber, h0]
    rw [e]
    exact ⟨⟨h1, h2, h3⟩, fun _ _ => rfl⟩

theorem NodesKept_closed : OpClosed (fun _ => True) NodesKept where
  refl := fun _ h => ⟨h, fun _ _ => rfl⟩
  trans := fun a b c hab hbc h => by
    obtain ⟨hb, kab⟩ := hab h
    obtain ⟨hc, kbc⟩ := hbc hb
    refine ⟨hc, fun n hn => ?_⟩
    rw [kbc n (by rw [kab n hn]; exact hn), kab n hn]
  touch := fun s p => NodesKept_of_same _ _ rfl (le_refl _)
  spill := fun s p =>
    NodesKept_of_same _ _ (SpillRealRegister_order s p).2.2 (SpillRealRegister_num_le s p)
  pin := fun s v p _ => by
    by_cases hs : (s.reg_assign_infos v).real_reg = p
    · rw [pin_same s v p hs]; exact NodesKept_of_same _ _ rfl (le_refl _)
    · obtain ⟨_, _, hn, hl⟩ := pin_order s v p hs
      refine NodesKept_of_same _ _ ?_ ?_
      · rw [hl, (SpillRealRegister_order s p).2.2]
      · rw [hn]; exact SpillRealRegister_num_le s p
  range := fun _ _ _ => trivial
  emit := fun s l _ => NodesKept_of_same _ _ rfl (le_refl _)
  label := fun s => NodesKept_of_same _ _ rfl (by simp [GetLabelNumber])
  node := ResolveLabelNumber_kept

theorem SpillRealRegister_allocOnly (s : State) (p : Int) : AllocOnly s (SpillRealRegister s p) := by
  unfold SpillRealRegister
  split_ifs
  · exact ⟨_, SpillVirtualRegister_out s _, by simp [Line.isAlloc]⟩
  · exact ⟨[], by simp, by simp⟩

theorem AllocOnly_closed : AllocClosed (fun _ => True) AllocOnly where
  refl := fun _ => ⟨[], by simp, by simp⟩
  trans := fun a b c ⟨l1, h1, a1⟩ ⟨l2, h2, a2⟩ =>
    ⟨l1 ++ l2, by rw [h2, h1, List.append_assoc], fun x hx => by
      rcases List.mem_append.mp hx with h | h
      · exact a1 x h
      · exact a2 x h⟩
  touch := fun _ _ => ⟨[], by simp [State.touch], by simp⟩
  spill := SpillRealRegister_allocOnly
  pin := fun s v p _ => by
    by_cases hs : (s.reg_assign_infos v).real_reg = p
    · rw [pin_same s v p hs]; exact ⟨[], by simp [State.touch], by simp⟩
    · obtain ⟨l, hl, al⟩ := SpillRealRegister_allocOnly s p
      refine ⟨l ++ pinMoveLines (SpillRealRegister s p) v p, ?_, ?_⟩
      · rw [pin_out s v p hs, hl, List.append_assoc]
      · intro x hx
        rcases List.mem_append.mp hx with h | h
        · exact al x h
        · unfold pinMoveLines at h
          split_ifs at h <;> simp at h <;> subst h <;> rfl
  range := fun _ _ _ => trivial

theorem filter_jump_allocOnly (l : List Line) (h : ∀ x ∈ l, Line.isAlloc x = true) :
    l.filter (fun x => (Line.jumpLabel? x).isSome) = [] := by
  rw [List.filter_eq_nil_iff]
  intro x hx
  have := h x hx
  cases x <;> simp_all [Line.isAlloc, Line.jumpLabel?]

theorem ResolveLabelNumber_ne_zero (s : State) (n : Nat) (h : 1 ≤ s.num) :
    (ResolveLabelNumber s n).1 ≠ 0 := by
  unfold ResolveLabelNumber GetLabelNumber
  split_ifs with h0
  · simp only; omega
  · exact h0

/-- An op that names the label node `n` writes one line that names a label, of its
kind, and the number in it is the `label_number` of `n` afterwards, which is not 0. -/
theorem names_label_line (k : KernelType) (s s' : State) (op : ASTILOp) (n : Nat)
    (hu : op.namesLabel n) (hf : NodesFresh s) (e : GenerateOp k s op = .ok s') :
    ∃ (new : List Line) (line : Line), s'.out = s.out ++ new ∧
      new.filter (fun x => (Line.jumpLabel? x).isSome) = [line] ∧
      op.op.labelLine (s'.label_number n) = some line ∧ s'.label_number n ≠ 0 := by
  obtain ⟨ty, d, l, r, node⟩ := op
  obtain ⟨hty, hnode⟩ := hu
  simp only at hty hnode
  subst hnode
  rcases hty with rfl | rfl | rfl
  · simp only [GenerateOp] at e
    injection e with e
    obtain ⟨new, hnew, anew⟩ := AllocOnly_closed.through_spill_all
      ((ResolveLabelNumber s n).2.emit (.label_def (ResolveLabelNumber s n).1))
    obtain ⟨_, _, _, _, ho, _, hl⟩ := ResolveLabelNumber_fields s n
    refine ⟨.label_def (ResolveLabelNumber s n).1 :: new, .label_def (ResolveLabelNumber s n).1,
      ?_, ?_, ?_, ?_⟩
    · rw [← e, hnew]; simp [State.emit, ho]
    · rw [List.filter_cons, filter_jump_allocOnly new anew]; simp [Line.jumpLabel?]
    · rw [← e, SpillAllRealRegisters_label_number]
      simp only [State.emit, hl, ILOpType.labelLine]
    · rw [← e, SpillAllRealRegisters_label_number]
      simp only [State.emit, hl]
      exact ResolveLabelNumber_ne_zero s n hf.1
  · simp only [GenerateOp] at e
    split at e
    · cases e
    · rename_i left s1 h1
      injection e with e
      obtain ⟨new, hnew, anew⟩ := AllocOnly_closed.through_request s l left s1 h1
      have hn1 : 1 ≤ s1.num := (NodesKept_closed.through_request s l left s1 h1 hf).1.1
      obtain ⟨_, _, _, _, ho, _, hl⟩ := ResolveLabelNumber_fields s1 n
      refine ⟨new ++ [.cmp_zero left, .je (ResolveLabelNumber s1 n).1],
        .je (ResolveLabelNumber s1 n).1, ?_, ?_, ?_, ?_⟩
      · rw [← e]; simp [State.emit, ho, hnew]
      · rw [List.filter_append, filter_jump_allocOnly new anew]; simp [Line.jumpLabel?]
      · rw [← e]; simp only [State.emit, hl, ILOpType.labelLine]
      · rw [← e]; simp only [State.emit, hl]
        exact ResolveLabelNumber_ne_zero s1 n hn1
  · simp only [GenerateOp] at e
    split at e
    · cases e
    · rename_i left s1 h1
      injection e with e
      obtain ⟨new, hnew, anew⟩ := AllocOnly_closed.through_request s l left s1 h1
      have hn1 : 1 ≤ s1.num := (NodesKept_closed.through_request s l left s1 h1 hf).1.1
      obtain ⟨_, _, _, _, ho, _, hl⟩ := ResolveLabelNumber_fields s1 n
      refine ⟨new ++ [.cmp_zero left, .jne (ResolveLabelNumber s1 n).1],
        .jne (ResolveLabelNumber s1 n).1, ?_, ?_, ?_, ?_⟩
      · rw [← e]; simp [State.emit, ho, hnew]
      · rw [List.filter_append, filter_jump_allocOnly new anew]; simp [Line.jumpLabel?]
      · rw [← e]; simp only [State.emit, hl, ILOpType.labelLine]
      · rw [← e]; simp only [State.emit, hl]
        exact ResolveLabelNumber_ne_zero s1 n hn1

theorem NodesFresh_of_zero (s : State) (hnum : 1 ≤ s.num) (h0 : ∀ n : Nat, s.label_number n = 0) :
    NodesFresh s :=
  ⟨hnum, fun n => by rw [h0 n]; omega, fun n _ hn => absurd (h0 n) hn⟩

/-! ## Label idempotence -/

/-- C18: start with every `label_number` 0 and the label counter at least 1 (as in the
initial state).  Let `op1` and, later in the IL list, `op2` each be a `Label`,
`JmpIfZero` or `JmpIfNotZero` op, on the label nodes `n1` and `n2`, and let the list be
processed without error up to `op2` at least.  Then each of the two ops writes exactly
one line that names a label (`Lk:` for `Label`, `je Lk` for `JmpIfZero`, `jne Lk` for
`JmpIfNotZero`), the numbers `k1` and `k2` in these lines are not 0, and `k1 = k2`
exactly when `n1 = n2`: a reference before the definition prints the number of the
definition, all references to a node print one number, and two nodes never print the
same number. -/
theorem C18_label_idempotence (k : KernelType) (s0 s' : State)
    (pre mid post : List (Option ASTILOp)) (op1 op2 : ASTILOp) (n1 n2 : Nat)
    (hnum : 1 ≤ s0.num) (h0 : ∀ n : Nat, s0.label_number n = 0)
    (u1 : op1.namesLabel n1) (u2 : op2.namesLabel n2)
    (e : GenerateOps k s0 (pre ++ some op1 :: (mid ++ some op2 :: post)) = .ok s') :
    ∃ (s1 s2 s3 s4 : State) (new1 new2 : List Line) (line1 line2 : Line) (k1 k2 : Int),
      GenerateOps k s0 pre = .ok s1 ∧ GenerateOp k s1 op1 = .ok s2 ∧
      GenerateOps k s2 mid = .ok s3 ∧ GenerateOp k s3 op2 = .ok s4 ∧
      s2.out = s1.out ++ new1 ∧ s4.out = s3.out ++ new2 ∧
      new1.filter (fun x => (Line.jumpLabel? x).isSome) = [line1] ∧
      new2.filter (fun x => (Line.jumpLabel? x).isSome) = [line2] ∧
      op1.op.labelLine k1 = some line1 ∧ op2.op.labelLine k2 = some line2 ∧
      k1 ≠ 0 ∧ k2 ≠ 0 ∧ (k1 = k2 ↔ n1 = n2) := by
  have hf0 := NodesFresh_of_zero s0 hnum h0
  obtain ⟨s1, e1, e⟩ := GenerateOps_append k pre _ s0 s' e
  obtain ⟨s2, e2, e⟩ := GenerateOps_cons k op1 _ s1 s' e
  obtain ⟨s3, e3, e⟩ := GenerateOps_append k mid _ s2 s' e
  obtain ⟨s4, e4, _⟩ := GenerateOps_cons k op2 _ s3 s' e
  have hv : ∀ (l : List (Option ASTILOp)) (op : ASTILOp), some op ∈ l →
      ∀ v ∈ op.pinned, (fun _ : Int => True) v := fun _ _ _ _ _ => trivial
  have hf1 := (NodesKept_closed.through_generate_ops k pre s0 s1 (hv pre) e1 hf0).1
  obtain ⟨hf2, _⟩ := NodesKept_closed.through_generate_op k s1 op1 s2 (fun _ _ => trivial) e2 hf1
  obtain ⟨hf3, k23⟩ := NodesKept_closed.through_generate_ops k mid s2 s3 (hv mid) e3 hf2
  obtain ⟨hf4, k34⟩ := NodesKept_closed.through_generate_op k s3 op2 s4 (fun _ _ => trivial) e4 hf3
  obtain ⟨new1, line1, o1, f1, l1, z1⟩ := names_label_line k s1 s2 op1 n1 u1 hf1 e2
  obtain ⟨new2, line2, o2, f2, l2, z2⟩ := names_label_line k s3 s4 op2 n2 u2 hf3 e4
  have keep : s4.label_number n1 = s2.label_number n1 := by
    rw [k34 n1 (by rw [k23 n1 z1]; exact z1), k23 n1 z1]
  refine ⟨s1, s2, s3, s4, new1, new2, line1, line2, _, _, e1, e2, e3, e4, o1, o2, f1, f2,
    l1, l2, z1, z2, ?_, ?_⟩
  · intro h
    exact hf4.2.2 n1 n2 (by rw [keep]; exact z1) (by rw [keep]; exact h)
  · rintro rfl
    exact keep.symm

/-- A conditional jump to node 7, a conditional jump to node 8 and then the label of
node 7, from the initial state: the text is `cmp rax, 0`, `je L1`, `cmp rax, 0`,
`jne L2`, `L1:` and the store that the label forces. -/
theorem C18_label_idempotence_witness :
    ∃ s' : State, GenerateOps .kKernelLinux State.init c18_ops = .ok s' ∧
      s'.out.map Line.render =
        ["cmp rax, 0\n", "je L1\n", "cmp rax, 0\n", "jne L2\n", "L1:\n",
         "mov [rip + L3], rax\n"] ∧
      ∃ (s1 s2 s3 s4 : State) (new1 new2 : List Line) (line1 line2 : Line) (k1 k2 : Int),
        GenerateOps .kKernelLinux State.init [] = .ok s1 ∧
        GenerateOp .kKernelLinux s1 ⟨.kILOpJmpIfZero, 0, 1, 0, .label 7⟩ = .ok s2 ∧
        GenerateOps .kKernelLinux s2 [some ⟨.kILOpJmpIfNotZero, 0, 1, 0, .label 8⟩] = .ok s3 ∧
        GenerateOp .kKernelLinux s3 ⟨.kILOpLabel, 0, 0, 0, .label 7⟩ = .ok s4 ∧
        s2.out = s1.out ++ new1 ∧ s4.out = s3.out ++ new2 ∧
        new1.filter (fun x => (Line.jumpLabel? x).isSome) = [line1] ∧
        new2.filter (fun x => (Line.jumpLabel? x).isSome) = [line2] ∧
        ILOpType.kILOpJmpIfZero.labelLine k1 = some line1 ∧
        ILOpType.kILOpLabel.labelLine k2 = some line2 ∧
        k1 ≠ 0 ∧ k2 ≠ 0 ∧ (k1 = k2 ↔ 7 = 7) :=
  ⟨_, rfl, by decide,
    C18_label_idempotence .kKernelLinux State.init _ []
      [some ⟨.kILOpJmpIfNotZero, 0, 1, 0, .label 8⟩] []
      ⟨.kILOpJmpIfZero, 0, 1, 0, .label 7⟩ ⟨.kILOpLabel, 0, 0, 0, .label 7⟩ 7 7
      (by decide) (fun _ => rfl) ⟨Or.inr (Or.inl rfl), rfl⟩ ⟨Or.inl rfl, rfl⟩ rfl⟩

/-! ## The spill labels -/

/-- A state with the same labels, a counter that is not smaller, a register table in
range and further lines that are in order has `SpillInv`. -/
theorem SpillInv.of_same {s s' : State} (h : SpillInv s) (hn : s.num ≤ s'.num)
    (hl : ∀ v : Int, (s'.reg_assign_infos v).save_label_num = (s.reg_assign_infos v).save_label_num)
    (ht : ∀ p : Int, 0 ≤ s'.RealRegAssignTable p ∧ s'.RealRegAssignTable p ≤ 127)
    (l : List Line) (ho : s'.out = s.out ++ l)
    (hl2 : ∀ x ∈ l, Line.isQuad x = false ∧ ∀ k : Int, Line.spillLabel? x = some k →
      k ≠ 0 ∧ ∃ v : Int, (s.reg_assign_infos v).save_label_num = k) : SpillInv s' where
  num_pos := le_trans h.num_pos hn
  label_lt := fun v => by rw [hl]; exact lt_of_lt_of_le (h.label_lt v) hn
  label_inj := fun v w => by rw [hl, hl]; exact h.label_inj v w
  label_range := fun v => by rw [hl]; exact h.label_range v
  table_range := ht
  lines := fun x hx => by
    rw [ho] at hx
    have key := (List.mem_append.mp hx).elim (h.lines x) (hl2 x)
    refine ⟨key.1, fun k hk => ?_⟩
    obtain ⟨hk0, v, hv⟩ := key.2 k hk
    exact ⟨hk0, v, by rw [hl]; exact hv⟩

theorem SpillVirtualRegister_inv (s : State) (v : Int) (h : SpillInv s)
    (hv1 : 1 ≤ v) (hv2 : v ≤ 127) : SpillInv (SpillVirtualRegister s v) := by
  have hlab := SpillVirtualRegister_label s v
  have hnum := SpillVirtualRegister_num s v
  have hn : s.num ≤ (SpillVirtualRegister s v).num := by rw [hnum]; split_ifs <;> omega
  have hkeep : ∀ w : Int, (s.reg_assign_infos w).save_label_num ≠ 0 →
      ((SpillVirtualRegister s v).reg_assign_infos w).save_label_num =
        (s.reg_assign_infos w).save_label_num := SpillVirtualRegister_label_kept s v
  have hvne : ((SpillVirtualRegister s v).reg_assign_infos v).save_label_num ≠ 0 := by
    rw [hlab]
    split_ifs with hc
    · have := h.num_pos; omega
    · intro h0; exact hc ⟨rfl, h0⟩
  refine ⟨le_trans h.num_pos hn, ?_, ?_, ?_, ?_, ?_⟩
  · intro w
    rw [hlab, hnum]
    have := h.label_lt w
    have := h.label_lt v
    split_ifs <;> omega
  · intro a b
    rw [hlab a, hlab b]
    have ha := h.label_lt a
    have hb := h.label_lt b
    split_ifs with c1 c2 c2
    · intro _ _; rw [c1.1, c2.1]
    · intro _ hh; omega
    · intro _ hh; omega
    · exact h.label_inj a b
  · intro w
    rw [hlab]
    split_ifs with c
    · intro _; rw [c.1]; exact ⟨hv1, hv2⟩
    · exact h.label_range w
  · intro p
    rw [SpillVirtualRegister_table]
    split_ifs
    · decide
    · exact h.table_range p
  · intro x hx
    rw [SpillVirtualRegister_out, List.mem_append, List.mem_singleton] at hx
    rcases hx with hx | rfl
    · obtain ⟨q, hk⟩ := h.lines x hx
      refine ⟨q, fun k hkk => ?_⟩
      obtain ⟨hk0, w, hw⟩ := hk k hkk
      exact ⟨hk0, w, by rw [hkeep w (by rw [hw]; exact hk0)]; exact hw⟩
    · refine ⟨rfl, fun k hk => ?_⟩
      simp only [Line.spillLabel?, Option.some.injEq] at hk
      subst hk
      exact ⟨hvne, v, rfl⟩

theorem SpillRealRegister_inv (s : State) (p : Int) (h : SpillInv s) :
    SpillInv (SpillRealRegister s p) := by
  unfold SpillRealRegister
  split_ifs with h0
  · have := h.table_range p
    exact SpillVirtualRegister_inv s _ h (by omega) this.2
  · exact h

theorem pin_inv (s : State) (v p : Int) (h : SpillInv s) (hv1 : 1 ≤ v) (hv2 : v ≤ 127) :
    SpillInv (AssignVirtualRegToRealReg s v p) := by
  by_cases hs : (s.reg_assign_infos v).real_reg = p
  · rw [pin_same s v p hs]
    exact h.of_same (le_refl _) (fun _ => rfl) h.table_range [] (by simp [State.touch]) (by simp)
  · have h1 := SpillRealRegister_inv s p h
    obtain ⟨_, _, hn, _⟩ := pin_order s v p hs
    refine h1.of_same (le_of_eq hn.symm) (fun w => pin_label s v p w hs) ?_
      (pinMoveLines (SpillRealRegister s p) v p) (pin_out s v p hs) ?_
    · intro r
      rw [pin_table s v p r hs]
      split_ifs
      · omega
      · decide
      · exact h1.table_range r
    · intro x hx
      unfold pinMoveLines at hx
      split_ifs at hx with c1 c2
      · rw [List.mem_singleton] at hx; subst hx
        exact ⟨rfl, fun k hk => by simp [Line.spillLabel?] at hk⟩
      · rw [List.mem_singleton] at hx; subst hx
        refine ⟨rfl, fun k hk => ?_⟩
        simp only [Line.spillLabel?, Option.some.injEq] at hk
        subst hk
        exact ⟨c2, v, rfl⟩
      · simp at hx

theorem SpillKept_closed : OpClosed (fun v => 1 ≤ v ∧ v ≤ 127) SpillKept where
  refl := fun _ h => h
  trans := fun _ _ _ hab hbc h => hbc (hab h)
  touch := fun s p h =>
    h.of_same (le_refl _) (fun _ => rfl) h.table_range [] (by simp [State.touch]) (by simp)
  spill := fun s p h => SpillRealRegister_inv s p h
  pin := fun s v p hv h => pin_inv s v p h hv.1 hv.2
  range := fun _ h1 h2 => ⟨h1, h2⟩
  emit := fun s l hl h => by
    refine h.of_same (le_refl _) (fun _ => rfl) h.table_range [l] rfl ?_
    intro x hx
    rw [List.mem_singleton] at hx; subst hx
    cases x <;> simp_all [Line.isPlain, Line.isAlloc, Line.isQuad, Line.spillLabel?]
  label := fun s h =>
    h.of_same (by simp [GetLabelNumber]) (fun _ => rfl) h.table_range [] (by simp [GetLabelNumber])
      (by simp)
  node := fun s n h => by
    obtain ⟨h1, h2, _, _, h5, h6, _⟩ := ResolveLabelNumber_fields s n
    exact h.of_same h6 (fun _ => by rw [h1]) (by rw [h2]; exact h.table_range) []
      (by rw [h5]; simp) (by simp)

theorem init_spillInv : SpillInv State.init where
  num_pos := by decide
  label_lt := fun _ => by simp [State.init]
  label_inj := fun _ _ h => absurd rfl h
  label_range := fun _ h => absurd rfl h
  table_range := fun _ => by simp [State.init]
  lines := fun _ hx => by simp [State.init] at hx

theorem foldl_quad_out (l : List Int) (t : State) :
    (l.foldl (fun t i =>
        if (t.reg_assign_infos i).save_label_num ≠ 0 then
          t.emit (.quad (t.reg_assign_infos i).save_label_num)
        else t) t).out =
      t.out ++ (l.filter (fun i => decide ((t.reg_assign_infos i).save_label_num ≠ 0))).map
        (fun i => Line.quad (t.reg_assign_infos i).save_label_num) ∧
    (l.foldl (fun t i =>
        if (t.reg_assign_infos i).save_label_num ≠ 0 then
          t.emit (.quad (t.reg_assign_infos i).save_label_num)
        else t) t).reg_assign_infos = t.reg_assign_infos := by
  induction l generalizing t with
  | nil => simp
  | cons a l ih =>
    rw [List.foldl_cons]
    by_cases h0 : (t.reg_assign_infos a).save_label_num = 0
    · simp only [h0, ne_eq, not_true_eq_false, if_false]
      rw [(ih t).1, (ih t).2]
      simp [List.filter_cons, h0]
    · simp only [h0, ne_eq, not_false_eq_true, if_true]
      rw [(ih _).1, (ih _).2]
      simp [List.filter_cons, h0, State.emit]

theorem flatMap_singleton_map (f : Nat → Int) (l : List Nat) :
    (l.flatMap fun a => [f a]) = l.map f := by
  induction l with
  | nil => rfl
  | cons a l ih => rw [List.flatMap_cons, ih]; rfl

/-- The function `GenerateSpillData` appends `.data` and the spill directory, and leaves
the allocator records as they are. -/
theorem GenerateSpillData_out (s : State) :
    (GenerateSpillData s).out = s.out ++ Line.fixed ".data" :: spillDirectory s ∧
      (GenerateSpillData s).reg_assign_infos = s.reg_assign_infos := by
  unfold GenerateSpillData spillDirectory
  simp only [List.bind_eq_flatMap, List.pure_def]
  rw [flatMap_singleton_map]
  obtain ⟨h1, h2⟩ := foldl_quad_out ((List.range 128).map fun a : Nat => (a : Int))
    (s.emit (.fixed ".data"))
  refine ⟨?_, h2⟩
  rw [h1, List.filter_map, List.map_map]
  simp only [State.emit, List.append_assoc, List.singleton_append]
  rfl

theorem spillDirectory_nodup (s : State) (h : SpillInv s) : (spillDirectory s).Nodup := by
  unfold spillDirectory
  refine List.Nodup.map_on ?_ ((List.nodup_range 128).filter _)
  intro i hi j _ hij
  rw [List.mem_filter, decide_eq_true_eq] at hi
  injection hij with hij
  have := h.label_inj i j hi.2 hij
  exact_mod_cast this

theorem spillDirectory_mem (s : State) (h : SpillInv s) (v : Int)
    (hv : (s.reg_assign_infos v).save_label_num ≠ 0) :
    Line.quad (s.reg_assign_infos v).save_label_num ∈ spillDirectory s := by
  obtain ⟨h1, h2⟩ := h.label_range v hv
  unfold spillDirectory
  rw [List.mem_map]
  refine ⟨v.toNat, ?_, ?_⟩
  · rw [List.mem_filter, List.mem_range, decide_eq_true_eq]
    have e : ((v.toNat : Nat) : Int) = v := Int.toNat_of_nonneg (by omega)
    rw [e]
    exact ⟨by omega, hv⟩
  · have e : ((v.toNat : Nat) : Int) = v := Int.toNat_of_nonneg (by omega)
    rw [e]

/-! ## The spill directory -/

/-- C17: let `GenerateCode` process an IL list from the initial state without error,
where every vreg that an op hands to `AssignVirtualRegToRealReg` is in `1..127` (the
other operands are range-checked by the code).  Then the output is a body without any
`Lk: .quad 0` line, followed by `.data` and by the spill directory: one line
`Lk: .quad 0` for each vreg whose spill label `k` is not 0, and nothing else.  No line
of the directory occurs twice, only vregs `1..127` have a spill label, distinct vregs
have distinct spill labels, and the label
of every spill store `mov [rip + Lk], r` and reload `mov r, [rip + Lk]` of the body
occurs exactly once in the directory. -/
theorem C17_spill_directory (kernel_type : KernelType) (il : List (Option ASTILOp))
    (s' : State)
    (hr : ∀ op : ASTILOp, some op ∈ il → ∀ v ∈ op.pinned, 1 ≤ v ∧ v ≤ 127)
    (e : GenerateCode State.init il kernel_type = .ok s') :
    ∃ body : List Line,
      s'.out = body ++ Line.fixed ".data" :: spillDirectory s' ∧
      (∀ x ∈ body, Line.isQuad x = false) ∧
      (spillDirectory s').Nodup ∧
      (∀ v : Int, (s'.reg_assign_infos v).save_label_num ≠ 0 → 1 ≤ v ∧ v ≤ 127) ∧
      (∀ v w : Int, (s'.reg_assign_infos v).save_label_num ≠ 0 →
        (s'.reg_assign_infos v).save_label_num = (s'.reg_assign_infos w).save_label_num →
        v = w) ∧
      (∀ x ∈ body, ∀ k : Int, Line.spillLabel? x = some k →
        (spillDirectory s').count (Line.quad k) = 1) := by
  unfold GenerateCode at e
  split at e
  · cases e
  · rename_i s1 e1
    split at e
    · cases e
    · rename_i s2 e2
      injection e with e
      have i0 : SpillInv (State.init.emit (.fixed ".intel_syntax noprefix")) :=
        SpillKept_closed.emit _ (.fixed ".intel_syntax noprefix") rfl init_spillInv
      have i1 : SpillInv s1 := SpillKept_closed.through_generate_globals kernel_type il _ s1 e1 i0
      have i2 : SpillInv s2 := SpillKept_closed.through_generate_ops kernel_type il s1 s2 hr e2 i1
      obtain ⟨ho, hi⟩ := GenerateSpillData_out s2
      have hd : spillDirectory s' = spillDirectory s2 := by
        rw [← e]; unfold spillDirectory; rw [hi]
      have hlab : ∀ v : Int, (s'.reg_assign_infos v).save_label_num =
          (s2.reg_assign_infos v).save_label_num := fun v => by rw [← e, hi]
      refine ⟨s2.out, ?_, fun x hx => (i2.lines x hx).1, ?_, ?_, ?_, ?_⟩
      · rw [hd, ← e, ho]
      · rw [hd]; exact spillDirectory_nodup s2 i2
      · intro v; rw [hlab]; exact i2.label_range v
      · intro v w; rw [hlab, hlab]; exact i2.label_inj v w
      · intro x hx k hk
        obtain ⟨hk0, v, hv⟩ := (i2.lines x hx).2 k hk
        rw [hd]
        refine List.count_eq_one_of_mem (spillDirectory_nodup s2 i2) ?_
        rw [← hv]
        exact spillDirectory_mem s2 i2 v (by rw [hv]; exact hk0)

theorem c17_il_inRange : ∀ op : ASTILOp, some op ∈ c17_il → ∀ v ∈ op.pinned, 1 ≤ v ∧ v ≤ 127 := by
  intro op hop
  simp only [c17_il, List.mem_cons, Option.some.injEq, List.mem_singleton, List.not_mem_nil,
    or_false] at hop
  rcases hop with rfl | rfl | rfl <;> simp [ASTILOp.pinned]

/-- An argument loaded into vreg 1, spilled by a label and reloaded for the return: the
text ends with `.data` and the single entry `L2: .quad 0`. -/
theorem C17_spill_directory_witness :
    ∃ s' : State, GenerateCode State.init c17_il .kKernelLinux = .ok s' ∧
      s'.out.map Line.render =
        [".intel_syntax noprefix\n", "L1:\n", "mov [rip + L2], rdi\n",
         "mov rax, [rip + L2]\n", "mov     rsp, rbp\n", "pop     rbp\n", "ret\n",
         ".data\n", "L2: .quad 0\n"] ∧
      ∃ body : List Line,
        s'.out = body ++ Line.fixed ".data" :: spillDirectory s' ∧
        (∀ x ∈ body, Line.isQuad x = false) ∧
        (spillDirectory s').Nodup ∧
        (∀ v : Int, (s'.reg_assign_infos v).save_label_num ≠ 0 → 1 ≤ v ∧ v ≤ 127) ∧
        (∀ v w : Int, (s'.reg_assign_infos v).save_label_num ≠ 0 →
          (s'.reg_assign_infos v).save_label_num = (s'.reg_assign_infos w).save_label_num →
          v = w) ∧
        (∀ x ∈ body, ∀ k : Int, Line.spillLabel? x = some k →
          (spillDirectory s').count (Line.quad k) = 1) :=
  ⟨_, rfl, by set_option maxRecDepth 20000 in decide,
    C17_spill_directory .kKernelLinux c17_il _ c17_il_inRange rfl⟩

/-! ## No silent eviction -/

theorem SpillVirtualRegister_stored (s : State) (v : Int) (h : Consistent s) :
    EvictionsStored s (SpillVirtualRegister s v)
      [Line.spill_store ((SpillVirtualRegister s v).reg_assign_infos v).save_label_num
        (ScratchRegNames (s.reg_assign_infos v).real_reg)] := by
  refine ⟨SpillVirtualRegister_out s v, ?_⟩
  intro w _ _ hres hz
  rw [SpillVirtualRegister_real_reg] at hz
  split_ifs at hz with hw
  · subst hw
    refine ⟨?_, List.mem_singleton.mpr rfl⟩
    rw [SpillVirtualRegister_label]
    split_ifs with hc
    · have := h.num_pos; omega
    · intro h0; exact hc ⟨rfl, h0⟩
  · exact absurd hz hres

theorem EvictionsStored_refl (s : State) : EvictionsStored s s [] :=
  ⟨by simp, fun _ _ _ hres hz => absurd hz hres⟩

/-- Two steps in a row, when the first leaves every vreg that stays resident where it
was and the second keeps the spill labels. -/
theorem EvictionsStored_comp {a b c : State} {l1 l2 : List Line}
    (h1 : EvictionsStored a b l1) (h2 : EvictionsStored b c l2)
    (hsame : ∀ w : Int, (b.reg_assign_infos w).real_reg ≠ 0 →
      (b.reg_assign_infos w).real_reg = (a.reg_assign_infos w).real_reg)
    (hk : LabelsKept b c) : EvictionsStored a c (l1 ++ l2) := by
  refine ⟨by rw [h2.1, h1.1, List.append_assoc], ?_⟩
  intro w hw1 hw2 hres hz
  by_cases hb : (b.reg_assign_infos w).real_reg = 0
  · obtain ⟨hl, hm⟩ := h1.2 w hw1 hw2 hres hb
    rw [hk w hl]
    exact ⟨hl, List.mem_append_left _ hm⟩
  · obtain ⟨hl, hm⟩ := h2.2 w hw1 hw2 hb hz
    rw [hsame w hb] at hm
    exact ⟨hl, List.mem_append_right _ hm⟩

theorem SpillRealRegister_stored (s : State) (p : Int) (h : Consistent s) :
    ∃ l : List Line, EvictionsStored s (SpillRealRegister s p) l := by
  unfold SpillRealRegister
  split_ifs
  · exact ⟨_, SpillVirtualRegister_stored s _ h⟩
  · exact ⟨_, EvictionsStored_refl s⟩

theorem pin_stored (s : State) (v p : Int) (h : Consistent s)
    (hp1 : 1 ≤ p) (hp2 : p ≤ 9) :
    ∃ l : List Line, EvictionsStored s (AssignVirtualRegToRealReg s v p) l := by
  obtain ⟨l, hl⟩ := OutExtends_closed.pin s v p
  refine ⟨l, hl, ?_⟩
  intro w hw1 hw2 hres hz
  by_cases hwv : w = v
  · subst hwv
    have := (pin_tick s w p).2.1
    omega
  · rcases pin_other s v p w h hp1 hp2 hw1 hw2 hwv with hsame | ⟨_, hlab, l', hl', hm⟩
    · rw [hsame] at hz; exact absurd hz hres
    · rw [hl] at hl'
      rw [List.append_cancel_left hl']
      exact ⟨hlab, hm⟩

theorem AssignRegister_stored (s : State) (v : Int) (name : String) (s' : State)
    (h : Consistent s) (e : AssignRegister s v = .ok (name, s')) :
    ∃ l : List Line, EvictionsStored s s' l := by
  obtain ⟨hv, ⟨_, _, rfl⟩ | ⟨hnot, i, s1, hf, _, rfl⟩⟩ := AssignRegister_ok s v name s' e
  · exact ⟨[], by simp [State.touch], fun _ _ _ hres hz => absurd hz hres⟩
  · obtain ⟨hi, _, hc1⟩ := FindFreeRealReg_spec s i s1 h hf
    obtain ⟨l2, h2⟩ := pin_stored s1 v i hc1 hi.1 hi.2
    rcases FindFreeRealReg_ok s i s1 h hf with ⟨_, rfl⟩ | ⟨_, rfl, _⟩
    · exact ⟨l2, h2⟩
    · refine ⟨_, EvictionsStored_comp (SpillVirtualRegister_stored s _ h) h2 ?_ (LabelsKept_closed.pin _ v i)⟩
      intro w hw
      rw [SpillVirtualRegister_real_reg] at hw ⊢
      split_ifs at hw ⊢ with c
      · exact absurd rfl hw
      · rfl

theorem SpillAllRealRegisters_stored (s : State) (h : Consistent s) :
    ∃ l : List Line, EvictionsStored s (SpillAllRealRegisters s) l := by
  obtain ⟨_, _, hlab, hout⟩ := SpillAllRealRegisters_spec s h
  refine ⟨_, hout, ?_⟩
  intro w hw1 hw2 hres _
  refine ⟨hlab w hw1 hw2 hres, ?_⟩
  have hr := h.real_reg_range w hw1 hw2
  have ht := (h.table_iff w _ hw1 hw2 (by omega) hr.2).mp rfl
  rw [List.mem_map]
  refine ⟨(s.reg_assign_infos w).real_reg, ?_, by rw [ht]⟩
  rw [List.mem_filter, mem_scratchIndices, decide_eq_true_eq, ht]
  exact ⟨⟨by omega, hr.2⟩, by omega⟩

theorem AllocOp_run_stored (s s' : State) (op : AllocOp) (h : Consistent s)
    (hr : op.InRange) (e : op.run s = .ok s') : ∃ l : List Line, EvictionsStored s s' l := by
  cases op with
  | request_any v =>
    simp only [AllocOp.run] at e
    split at e
    · cases e
    · rename_i r hreq
      cases e
      exact AssignRegister_stored s v r.1 r.2 h hreq
  | pin v p => cases e; exact pin_stored s v p h hr.2.1 hr.2.2
  | spill p => cases e; exact SpillRealRegister_stored s p h
  | spill_all => cases e; exact SpillAllRealRegisters_stored s h

/-- An allocator call leaves a vreg that is resident or has a label resident or with a
label. -/
theorem AllocOp_run_placed (s s' : State) (op : AllocOp) (h : Consistent s)
    (hr : op.InRange) (e : op.run s = .ok s') (w : Int) (hw1 : 1 ≤ w) (hw2 : w ≤ 127)
    (hp : Placed s w) : Placed s' w := by
  by_cases hz : (s'.reg_assign_infos w).real_reg = 0
  · right
    rcases hp with hres | hlab
    · obtain ⟨l, _, hl⟩ := AllocOp_run_stored s s' op h hr e
      exact (hl w hw1 hw2 hres hz).1
    · have := LabelsKept_closed.alloc_op s op s' e w hlab
      rw [this]; exact hlab
  · exact Or.inl hz

theorem runAllocOps_placed (ops : List AllocOp) (s s' : State) (h : Consistent s)
    (hr : ∀ op ∈ ops, op.InRange) (e : runAllocOps s ops = .ok s') (w : Int)
    (hw1 : 1 ≤ w) (hw2 : w ≤ 127) (hp : Placed s w) : Placed s' w := by
  induction ops generalizing s with
  | nil => simp only [runAllocOps] at e; cases e; exact hp
  | cons op rest ih =>
    simp only [runAllocOps] at e
    cases h1 : op.run s with
    | error err => simp only [h1] at e; cases e
    | ok s1 =>
      simp only [h1] at e
      have hin := hr op (List.mem_cons_self _ _)
      exact ih s1 (AllocOp_run_consistent s s1 op h hin h1)
        (fun o ho => hr o (List.mem_cons_of_mem _ ho)) e
        (AllocOp_run_placed s s1 op h hin h1 w hw1 hw2 hp)

theorem runAllocOps_append (a b : List AllocOp) (s s' : State)
    (e : runAllocOps s (a ++ b) = .ok s') :
    ∃ t : State, runAllocOps s a = .ok t ∧ runAllocOps t b = .ok s' := by
  induction a generalizing s with
  | nil => exact ⟨s, rfl, e⟩
  | cons op rest ih =>
    simp only [List.cons_append, runAllocOps] at e ⊢
    cases h1 : op.run s with
    | error err => simp only [h1] at e; cases e
    | ok s1 =>
      simp only [h1] at e ⊢
      exact ih s1 e

theorem AllocOp_run_resolved (s s' : State) (op : AllocOp) (v : Int) (h : Consistent s)
    (hr : op.InRange) (hop : op = .request_any v ∨ ∃ p : Int, op = .pin v p)
    (e : op.run s = .ok s') : (s'.reg_assign_infos v).real_reg ≠ 0 := by
  rcases hop with rfl | ⟨p, rfl⟩
  · simp only [AllocOp.run] at e
    split at e
    · cases e
    · rename_i r hreq
      cases e
      have := (AssignRegister_resident s v r.1 r.2 h hreq).1.1
      omega
  · cases e
    have := (pin_tick s v p).2.1
    have := hr.2.1
    omega

/-- C23 (no silent eviction): in a consistent allocator state, an allocator call
(`request_any`, `pin`, `SpillRealRegister`, `spill_all`) with in-range arguments that
returns only adds lines to the text, and every vreg `w` in `1..127` that was resident
in a register `r` before the call and is resident in no register after it has a
non-zero spill label after it, and the added lines contain the store
`mov [rip + Lk], <name of r>` with that label.  Hence, in every run of such calls that
contains a `request_any` or `pin` of a vreg `v`, at the end of the run `v` is resident
in a register or has a spill label. -/
theorem C23_no_silent_eviction (s : State) (h : Consistent s) :
    (∀ (op : AllocOp) (s' : State), op.InRange → op.run s = .ok s' →
      ∃ l : List Line, s'.out = s.out ++ l ∧
        ∀ w r : Int, 1 ≤ w → w ≤ 127 → 1 ≤ r → r ≤ 9 →
          (s.reg_assign_infos w).real_reg = r → (s'.reg_assign_infos w).real_reg = 0 →
          (s'.reg_assign_infos w).save_label_num ≠ 0 ∧
          Line.spill_store (s'.reg_assign_infos w).save_label_num (ScratchRegNames r) ∈ l) ∧
    (∀ (pre post : List AllocOp) (opv : AllocOp) (v : Int) (s' : State),
      (opv = .request_any v ∨ ∃ p : Int, opv = .pin v p) →
      (∀ op ∈ pre ++ opv :: post, op.InRange) →
      runAllocOps s (pre ++ opv :: post) = .ok s' →
      (s'.reg_assign_infos v).real_reg ≠ 0 ∨ (s'.reg_assign_infos v).save_label_num ≠ 0) := by
  constructor
  · intro op s' hr e
    obtain ⟨l, hl, hw⟩ := AllocOp_run_stored s s' op h hr e
    refine ⟨l, hl, ?_⟩
    intro w r hw1 hw2 hr1 _ hres hz
    subst hres
    exact hw w hw1 hw2 (by omega) hz
  · intro pre post opv v s' hop hr e
    obtain ⟨t, e1, e2⟩ := runAllocOps_append pre (opv :: post) s s' e
    simp only [runAllocOps] at e2
    cases h1 : opv.run t with
    | error err => simp only [h1] at e2; cases e2
    | ok t1 =>
      simp only [h1] at e2
      have hin : opv.InRange := hr opv (by simp)
      have ht := runAllocOps_consistent pre s t h (fun o ho => hr o (by simp [ho])) e1
      have hv : 1 ≤ v ∧ v ≤ 127 := by
        rcases hop with rfl | ⟨p, rfl⟩
        · exact hin
        · exact hin.1
      exact runAllocOps_placed post t1 s' (AllocOp_run_consistent t t1 opv ht hin h1)
        (fun o ho => hr o (by simp [ho])) e2 v hv.1 hv.2
        (Or.inl (AllocOp_run_resolved t t1 opv v ht hin hop h1))

/-- With the nine registers full, the request of vreg 10 evicts vreg 1 from `rax`: the
call writes `mov [rip + L1], rax` and vreg 1 has the label 1; and after a pin of vreg
2 followed by that request, vreg 2 is still placed. -/
theorem C23_no_silent_eviction_witness :
    Consistent nineResident ∧
    (∃ s' : State, (AllocOp.request_any 10).run nineResident = .ok s' ∧
      (nineResident.reg_assign_infos 1).real_reg = 1 ∧
      (s'.reg_assign_infos 1).real_reg = 0 ∧
      (s'.reg_assign_infos 1).save_label_num = 1 ∧
      s'.out.map Line.render = ["mov [rip + L1], rax\n"] ∧
      ∃ l : List Line, s'.out = nineResident.out ++ l ∧
        ((s'.reg_assign_infos 1).save_label_num ≠ 0 ∧
          Line.spill_store (s'.reg_assign_infos 1).save_label_num (ScratchRegNames 1) ∈ l)) ∧
    (∃ s' : State,
      runAllocOps nineResident ([] ++ AllocOp.pin 2 2 :: [AllocOp.request_any 10]) = .ok s' ∧
      ((s'.reg_assign_infos 2).real_reg ≠ 0 ∨ (s'.reg_assign_infos 2).save_label_num ≠ 0)) :=
  have key := C23_no_silent_eviction nineResident nineResident_consistent
  ⟨nineResident_consistent,
    ⟨_, rfl, by decide, by decide, by decide, by decide,
      match key.1 (.request_any 10) _ ⟨by decide, by decide⟩ rfl with
      | ⟨l, hl, hw⟩ => ⟨l, hl, hw 1 1 (by decide) (by decide) (by decide) (by decide)
          (by decide) (by decide)⟩⟩,
    ⟨_, rfl, key.2 [] [.request_any 10] (.pin 2 2) 2 _ (Or.inr ⟨2, rfl⟩)
      (by
        intro op hop
        simp only [List.nil_append, List.mem_cons, List.mem_singleton, List.not_mem_nil,
          or_false] at hop
        rcases hop with rfl | rfl <;> simp [AllocOp.InRange])
      rfl⟩⟩

/-! ## Spill and reload -/

/-- The reload `AssignVirtualRegToRealReg` writes for a vreg that is in no register:
one line when the vreg has a spill label, none otherwise. -/
theorem pin_nonresident_out (t : State) (v p : Int) (h : Consistent t)
    (hv1 : 1 ≤ v) (hv2 : v ≤ 127) (hp1 : 1 ≤ p) (hp2 : p ≤ 9)
    (hnr : (t.reg_assign_infos v).real_reg = 0) :
    ∃ stores : List Line, stores.length ≤ 1 ∧ (∀ x ∈ stores, Line.isSpillStore x = true) ∧
      (AssignVirtualRegToRealReg t v p).out = t.out ++ stores ++
        (if (t.reg_assign_infos v).save_label_num ≠ 0 then
          [Line.reload (ScratchRegNames p) (t.reg_assign_infos v).save_label_num]
         else []) := by
  have ho := pin_out_consistent t v p h hv1 hv2 hp1 hp2
  rw [hnr] at ho
  simp only [ne_eq, not_true_eq_false, false_and, if_false, true_and] at ho
  refine ⟨_, ?_, ?_, ho⟩
  · split_ifs <;> simp
  · intro x hx
    split_ifs at hx
    · rw [List.mem_singleton] at hx; subst hx; rfl
    · simp at hx

/-- The same for `AssignRegister`. -/
theorem request_nonresident_out (t : State) (v : Int) (name : String) (t' : State)
    (h : Consistent t) (hnr : (t.reg_assign_infos v).real_reg = 0)
    (e : AssignRegister t v = .ok (name, t')) :
    ∃ stores : List Line, stores.length ≤ 1 ∧ (∀ x ∈ stores, Line.isSpillStore x = true) ∧
      t'.out = t.out ++ stores ++
        (if (t.reg_assign_infos v).save_label_num ≠ 0 then
          [Line.reload name (t.reg_assign_infos v).save_label_num]
         else []) := by
  obtain ⟨hv, ⟨hres, _, _⟩ | ⟨_, i, s1, hf, hn, rfl⟩⟩ := AssignRegister_ok t v name t' e
  · exact absurd hnr hres
  · obtain ⟨hi, hfree, hc1⟩ := FindFreeRealReg_spec t i s1 h hf
    have hnr1 := FindFreeRealReg_real_reg t i s1 v h hf hnr
    have ho := pin_out_consistent s1 v i hc1 hv.1 hv.2 hi.1 hi.2
    rw [hnr1, hfree] at ho
    simp only [ne_eq, not_true_eq_false, false_and, if_false, true_and, List.append_nil] at ho
    subst hn
    rcases FindFreeRealReg_ok t i s1 h hf with ⟨_, rfl⟩ | ⟨_, rfl, _⟩
    · exact ⟨[], by simp, by simp, by rw [ho]; simp⟩
    · have hlab : ((SpillVirtualRegister t (t.RealRegAssignTable i)).reg_assign_infos v).save_label_num
          = (t.reg_assign_infos v).save_label_num := by
        rw [SpillVirtualRegister_label]
        split_ifs with c
        · exfalso
          have ht := (h.table_iff v i hv.1 hv.2 hi.1 hi.2).mpr c.1.symm
          omega
        · rfl
      refine ⟨_, ?_, ?_, by rw [ho, SpillVirtualRegister_out, hlab]⟩
      · simp
      · intro x hx; rw [List.mem_singleton] at hx; subst hx; rfl

/-- C21 (spill and reload): let `t` be a consistent allocator state and `v` a vreg in
`1..127`.
(1) If `v` was spilled by `SpillVirtualRegister` in a state `s` (label counter at least
1), which wrote `mov [rip + Lk], r` for the register `r` it was in, with `k ≠ 0`, and
`t` is reached from there by any events, and `v` is in no register in `t`, then a pin
of `v` to a register `p` in `1..9` writes at most one store (of the occupant of `p`)
and then exactly the reload `mov p, [rip + Lk]` with the same `k`; a returning
`AssignRegister(v)` writes at most one store (of the victim) and then the reload
`mov <returned name>, [rip + Lk]`.
(2) If `v` is in no register and has no spill label in `t`, the pin and the request
write at most one store and no load.
(3) If `v` is in another register `q`, a pin to `p` writes at most one store and then
`mov p, q # vreg v`. -/
theorem C21_spill_reload_round_trip (t : State) (v : Int) (h : Consistent t)
    (hv1 : 1 ≤ v) (hv2 : v ≤ 127) :
    (∀ (s : State) (steps : List Step), 1 ≤ s.num →
      runSteps (SpillVirtualRegister s v) steps = .ok t →
      (t.reg_assign_infos v).real_reg = 0 →
      ∃ k : Int, k ≠ 0 ∧
        (SpillVirtualRegister s v).out =
          s.out ++ [Line.spill_store k (ScratchRegNames (s.reg_assign_infos v).real_reg)] ∧
        (∀ p : Int, 1 ≤ p → p ≤ 9 →
          ∃ stores : List Line, stores.length ≤ 1 ∧
            (∀ x ∈ stores, Line.isSpillStore x = true) ∧
            (AssignVirtualRegToRealReg t v p).out =
              t.out ++ stores ++ [Line.reload (ScratchRegNames p) k]) ∧
        (∀ (name : String) (t' : State), AssignRegister t v = .ok (name, t') →
          ∃ stores : List Line, stores.length ≤ 1 ∧
            (∀ x ∈ stores, Line.isSpillStore x = true) ∧
            t'.out = t.out ++ stores ++ [Line.reload name k])) ∧
    ((t.reg_assign_infos v).real_reg = 0 → (t.reg_assign_infos v).save_label_num = 0 →
      (∀ p : Int, 1 ≤ p → p ≤ 9 →
        ∃ stores : List Line, stores.length ≤ 1 ∧
          (∀ x ∈ stores, Line.isSpillStore x = true) ∧
          (AssignVirtualRegToRealReg t v p).out = t.out ++ stores) ∧
      (∀ (name : String) (t' : State), AssignRegister t v = .ok (name, t') →
        ∃ stores : List Line, stores.length ≤ 1 ∧
          (∀ x ∈ stores, Line.isSpillStore x = true) ∧
          t'.out = t.out ++ stores)) ∧
    (∀ p q : Int, 1 ≤ p → p ≤ 9 → q ≠ 0 → q ≠ p → (t.reg_assign_infos v).real_reg = q →
      ∃ stores : List Line, stores.length ≤ 1 ∧
        (∀ x ∈ stores, Line.isSpillStore x = true) ∧
        (AssignVirtualRegToRealReg t v p).out =
          t.out ++ stores ++ [Line.move_vreg (ScratchRegNames p) (ScratchRegNames q) v]) := by
  refine ⟨?_, ?_, ?_⟩
  · intro s steps hnum e hnr
    have hk0 : ((SpillVirtualRegister s v).reg_assign_infos v).save_label_num ≠ 0 := by
      rw [SpillVirtualRegister_label]
      split_ifs with hc
      · omega
      · intro h0; exact hc ⟨rfl, h0⟩
    have hkept := LabelsKept_closed.run_steps steps _ t e v hk0
    refine ⟨_, hk0, SpillVirtualRegister_out s v, ?_, ?_⟩
    · intro p hp1 hp2
      obtain ⟨stores, h1, h2, h3⟩ := pin_nonresident_out t v p h hv1 hv2 hp1 hp2 hnr
      rw [hkept, if_pos hk0] at h3
      exact ⟨stores, h1, h2, h3⟩
    · intro name t' e'
      obtain ⟨stores, h1, h2, h3⟩ := request_nonresident_out t v name t' h hnr e'
      rw [hkept, if_pos hk0] at h3
      exact ⟨stores, h1, h2, h3⟩
  · intro hnr hl0
    constructor
    · intro p hp1 hp2
      obtain ⟨stores, h1, h2, h3⟩ := pin_nonresident_out t v p h hv1 hv2 hp1 hp2 hnr
      rw [hl0] at h3
      exact ⟨stores, h1, h2, by simpa using h3⟩
    · intro name t' e'
      obtain ⟨stores, h1, h2, h3⟩ := request_nonresident_out t v name t' h hnr e'
      rw [hl0] at h3
      exact ⟨stores, h1, h2, by simpa using h3⟩
  · intro p q hp1 hp2 hq0 hqp hres
    have ho := pin_out_consistent t v p h hv1 hv2 hp1 hp2
    rw [hres] at ho
    rw [if_pos (show q ≠ 0 ∧ q ≠ p from ⟨hq0, hqp⟩)] at ho
    refine ⟨_, ?_, ?_, ho⟩
    · split_ifs <;> simp
    · intro x hx
      split_ifs at hx
      · rw [List.mem_singleton] at hx; subst hx; rfl
      · simp at hx

/-- Vreg 1 is spilled from `rax` while vreg 2 sits in `rdi`; a pin of vreg 1 to `rdi`
then stores vreg 2 and reloads vreg 1 from the label of its store. -/
theorem C21_spill_reload_round_trip_witness :
    Consistent (SpillVirtualRegister twoResident 1) ∧
    ((SpillVirtualRegister twoResident 1).out.map Line.render = ["mov [rip + L1], rax\n"] ∧
      (AssignVirtualRegToRealReg (SpillVirtualRegister twoResident 1) 1 2).out.map Line.render =
        ["mov [rip + L1], rax\n", "mov [rip + L2], rdi\n", "mov rdi, [rip + L1]\n"]) ∧
    ∃ k : Int, k ≠ 0 ∧
      (SpillVirtualRegister twoResident 1).out =
        twoResident.out ++
          [Line.spill_store k (ScratchRegNames (twoResident.reg_assign_infos 1).real_reg)] ∧
      ∃ stores : List Line, stores.length ≤ 1 ∧
        (∀ x ∈ stores, Line.isSpillStore x = true) ∧
        (AssignVirtualRegToRealReg (SpillVirtualRegister twoResident 1) 1 2).out =
          (SpillVirtualRegister twoResident 1).out ++ stores ++
            [Line.reload (ScratchRegNames 2) k] :=
  have hc : Consistent (SpillVirtualRegister twoResident 1) :=
    SpillVirtualRegister_consistent twoResident 1 twoResident_consistent (by decide) (by decide)
      (by decide)
  ⟨hc, ⟨by decide, by decide⟩,
    match (C21_spill_reload_round_trip (SpillVirtualRegister twoResident 1) 1 hc (by decide)
      (by decide)).1 twoResident [] (by decide) rfl (by decide) with
    | ⟨k, hk, ho, hp, _⟩ => ⟨k, hk, ho, hp 2 (by decide) (by decide)⟩⟩

/-! ## Integer constants -/

theorem digit_toNat (c : Char) (h : '0' ≤ c ∧ c ≤ '9') : 48 ≤ c.toNat ∧ c.toNat ≤ 57 := by
  obtain ⟨h1, h2⟩ := h
  rw [Char.le_def] at h1 h2
  exact ⟨h1, h2⟩

theorem digitIn_decimal (c : Char) (h : '0' ≤ c ∧ c ≤ '9') :
    digitIn 10 c = some (c.toNat - 48) := by
  have := digit_toNat c h
  unfold digitIn digitValue
  rw [if_pos h]
  simp only [Option.filter, decide_eq_true_eq]
  rw [if_pos (by omega)]

theorem readDigits_decimal (cs : List Char) (acc : Nat) (h : ∀ c ∈ cs, '0' ≤ c ∧ c ≤ '9') :
    readDigits 10 cs acc = (cs.foldl (fun acc c => acc * 10 + (c.toNat - 48)) acc, []) := by
  induction cs generalizing acc with
  | nil => rfl
  | cons c cs ih =>
    rw [readDigits, digitIn_decimal c (h c (List.mem_cons_self _ _))]
    exact ih _ (fun d hd => h d (List.mem_cons_of_mem _ hd))

theorem longToInt_eq_iff (v : Int) : longToInt v = v ↔ -2 ^ 31 ≤ v ∧ v < 2 ^ 31 := by
  unfold longToInt
  norm_num
  omega

theorem digit_ne (c d : Char) (hn : 48 ≤ c.toNat) (hd : d.toNat < 48) : c ≠ d := by
  rintro rfl; omega

theorem strtol_decimal (c : Char) (cs : List Char) (h : ∀ d ∈ c :: cs, '0' ≤ d ∧ d ≤ '9')
    (h0 : c ≠ '0') (hmax : (decimalValue (c :: cs) : Int) ≤ LONG_MAX) :
    strtol (c :: cs) = ((decimalValue (c :: cs) : Int), []) := by
  have hc := h c (List.mem_cons_self _ _)
  have hn := digit_toNat c hc
  have hsp : isSpace c = false := by
    have e1 := digit_ne c ' ' hn.1 (by decide)
    have e2 := digit_ne c '\t' hn.1 (by decide)
    have e3 := digit_ne c '\n' hn.1 (by decide)
    have e4 := digit_ne c '\x0b' hn.1 (by decide)
    have e5 := digit_ne c '\x0c' hn.1 (by decide)
    have e6 := digit_ne c '\r' hn.1 (by decide)
    simp [isSpace, e1, e2, e3, e4, e5, e6]
  have em := digit_ne c '-' hn.1 (by decide)
  have ep := digit_ne c '+' hn.1 (by decide)
  have hd : List.dropWhile isSpace (c :: cs) = c :: cs := by
    rw [List.dropWhile_cons_of_neg (by simp [hsp])]
  have hrd : readDigits 10 (c :: cs) 0 = (decimalValue (c :: cs), []) :=
    readDigits_decimal (c :: cs) 0 h
  have hdig := digitIn_decimal c hc
  have hclamp : max LONG_MIN (min LONG_MAX (decimalValue (c :: cs) : Int)) =
      (decimalValue (c :: cs) : Int) := by
    rw [min_eq_right hmax, max_eq_right]
    unfold LONG_MIN
    have : (0 : Int) ≤ (decimalValue (c :: cs) : Int) := Int.ofNat_nonneg _
    omega
  unfold strtol
  simp only [hd]
  repeat' split
  all_goals simp_all

/-- The `kILOpLoadImm` case on an integer token whose text `strtol` converts
completely. -/
theorem GenerateOp_load_imm_integer (k : KernelType) (s : State) (dst left right : Int)
    (str name : String) (s1 : State) (ha : AssignRegister s dst = .ok (name, s1))
    (hne : str.toList ≠ []) (hall : (strtol str.toList).2 = []) :
    GenerateOp k s ⟨.kILOpLoadImm, dst, left, right, .constant ⟨.kInteger, str⟩⟩ =
      .ok (s1.emit (.mov_imm name (longToInt (strtol str.toList).1))) := by
  simp only [GenerateOp, ha]
  rw [if_pos ⟨hne, hall⟩]

/-- C22, as the code has it: let `AssignRegister(dst)` return the register name `name`.
(1) For every integer token whose text `strtol(s, &p, 0)` converts completely, with
the `long` value `n`, `LoadImm` writes `mov name, m` where `m` is `n` converted to
`int`: the low 32 bits of `n` read as a two's complement number.
(2) In particular, for a decimal numeral (digits only, not starting with `0`) whose
value `n` is at most `LONG_MAX`, the number written is `n` converted to `int`.
(3) The number written equals `n` exactly when `-2^31 ≤ n < 2^31`. -/
theorem C22_load_imm_converts_to_int (k : KernelType) (s : State) (dst left right : Int)
    (name : String) (s1 : State) (ha : AssignRegister s dst = .ok (name, s1)) :
    (∀ str : String, str.toList ≠ [] → (strtol str.toList).2 = [] →
      GenerateOp k s ⟨.kILOpLoadImm, dst, left, right, .constant ⟨.kInteger, str⟩⟩ =
        .ok (s1.emit (.mov_imm name (longToInt (strtol str.toList).1)))) ∧
    (∀ (str : String) (c : Char) (cs : List Char), str.toList = c :: cs →
      (∀ d ∈ c :: cs, '0' ≤ d ∧ d ≤ '9') → c ≠ '0' →
      (decimalValue (c :: cs) : Int) ≤ LONG_MAX →
      GenerateOp k s ⟨.kILOpLoadImm, dst, left, right, .constant ⟨.kInteger, str⟩⟩ =
        .ok (s1.emit (.mov_imm name (longToInt (decimalValue (c :: cs)))))) ∧
    (∀ n : Int, longToInt n = n ↔ -2 ^ 31 ≤ n ∧ n < 2 ^ 31) := by
  refine ⟨fun str hne hall => GenerateOp_load_imm_integer k s dst left right str name s1 ha hne hall,
    ?_, longToInt_eq_iff⟩
  intro str c cs hs hd h0 hmax
  have e := strtol_decimal c cs hd h0 hmax
  rw [GenerateOp_load_imm_integer k s dst left right str name s1 ha (by rw [hs]; simp)
    (by rw [hs, e]), hs, e]

/-- The literals `4294967296`, `0x100000000` and `2147483648` loaded into vreg 1 in the
initial state: the lines are `mov rax, 0`, `mov rax, 0` and `mov rax, -2147483648`;
`2147483647` is written as it is. -/
theorem C22_load_imm_converts_to_int_witness :
    AssignRegister State.init 1 = .ok ("rax", AssignVirtualRegToRealReg State.init 1 1) ∧
    GenerateOp .kKernelLinux State.init
        ⟨.kILOpLoadImm, 1, 0, 0, .constant ⟨.kInteger, "4294967296"⟩⟩ =
      .ok ((AssignVirtualRegToRealReg State.init 1 1).emit
        (.mov_imm "rax" (longToInt (decimalValue "4294967296".toList)))) ∧
    decimalValue "4294967296".toList = 4294967296 ∧
    (∃ s' : State,
      GenerateOp .kKernelLinux State.init
        ⟨.kILOpLoadImm, 1, 0, 0, .constant ⟨.kInteger, "4294967296"⟩⟩ = .ok s' ∧
      s'.out.map Line.render = ["mov rax, 0\n"]) ∧
    (∃ s' : State,
      GenerateOp .kKernelLinux State.init
        ⟨.kILOpLoadImm, 1, 0, 0, .constant ⟨.kInteger, "0x100000000"⟩⟩ = .ok s' ∧
      s'.out.map Line.render = ["mov rax, 0\n"]) ∧
    (∃ s' : State,
      GenerateOp .kKernelLinux State.init
        ⟨.kILOpLoadImm, 1, 0, 0, .constant ⟨.kInteger, "2147483648"⟩⟩ = .ok s' ∧
      s'.out.map Line.render = ["mov rax, -2147483648\n"]) ∧
    (∃ s' : State,
      GenerateOp .kKernelLinux State.init
        ⟨.kILOpLoadImm, 1, 0, 0, .constant ⟨.kInteger, "2147483647"⟩⟩ = .ok s' ∧
      s'.out.map Line.render = ["mov rax, 2147483647\n"]) :=
  ⟨rfl,
    (C22_load_imm_converts_to_int .kKernelLinux State.init 1 0 0 "rax" _ rfl).2.1
      "4294967296" '4' "294967296".toList rfl (by decide) (by decide) (by decide),
    by decide, ⟨_, rfl, by decide⟩, ⟨_, rfl, by decide⟩, ⟨_, rfl, by decide⟩,
    ⟨_, rfl, by decide⟩⟩

/-! ## Multiplication and division: the lines and the data register -/

theorem KeptOrStored_trans (a b c : State) (w : Int) (h1 : KeptOrStored a b w)
    (h2 : (b.reg_assign_infos w).real_reg = (a.reg_assign_infos w).real_reg →
      KeptOrStored b c w)
    (oab : OutExtends a b) (obc : OutExtends b c) (hk : LabelsKept b c) :
    KeptOrStored a c w := by
  obtain ⟨l1, hl1⟩ := oab
  obtain ⟨l2, hl2⟩ := obc
  rcases h1 with hs | ⟨hl, l, ho, hm⟩
  · rcases h2 hs with hs2 | ⟨hl', l', ho', hm'⟩
    · exact Or.inl (by rw [hs2, hs])
    · refine Or.inr ⟨hl', l1 ++ l', by rw [ho', hl1, List.append_assoc], ?_⟩
      rw [hs] at hm'
      exact List.mem_append_right _ hm'
  · refine Or.inr ⟨by rw [hk w hl]; exact hl, l ++ l2, by rw [hl2, ho, List.append_assoc], ?_⟩
    rw [hk w hl]
    exact List.mem_append_left _ hm

theorem pin_kept_or_stored (s : State) (v p w : Int) (h : Consistent s)
    (hp1 : 1 ≤ p) (hp2 : p ≤ 9) (hw1 : 1 ≤ w) (hw2 : w ≤ 127) (hwv : w ≠ v) :
    KeptOrStored s (AssignVirtualRegToRealReg s v p) w := by
  rcases pin_other s v p w h hp1 hp2 hw1 hw2 hwv with hs | ⟨_, hl, l, ho, hm⟩
  · exact Or.inl hs
  · exact Or.inr ⟨hl, l, ho, hm⟩

theorem request_kept_or_stored (s : State) (v : Int) (name : String) (s' : State) (w : Int)
    (h : Consistent s) (e : AssignRegister s v = .ok (name, s'))
    (hw1 : 1 ≤ w) (hw2 : w ≤ 127) (hres : (s.reg_assign_infos w).real_reg ≠ 0) :
    KeptOrStored s s' w := by
  obtain ⟨hv, ⟨_, _, rfl⟩ | ⟨hnot, i, s1, hf, _, rfl⟩⟩ := AssignRegister_ok s v name s' e
  · exact Or.inl rfl
  · have hwv : w ≠ v := by rintro rfl; exact hres hnot
    obtain ⟨hi, _, hc1⟩ := FindFreeRealReg_spec s i s1 h hf
    rcases FindFreeRealReg_ok s i s1 h hf with ⟨_, rfl⟩ | ⟨_, rfl, _⟩
    · exact pin_kept_or_stored s1 v i w h hi.1 hi.2 hw1 hw2 hwv
    · refine KeptOrStored_trans s _ _ w ?_
        (fun _ => pin_kept_or_stored _ v i w hc1 hi.1 hi.2 hw1 hw2 hwv)
        (OutExtends_closed.spill_vreg s _) (OutExtends_closed.pin _ v i)
        (LabelsKept_closed.pin _ v i)
      by_cases hwu : w = s.RealRegAssignTable i
      · refine Or.inr ⟨?_, _, SpillVirtualRegister_out s _, ?_⟩
        · rw [SpillVirtualRegister_label]
          split_ifs with hc
          · have := h.num_pos; omega
          · intro h0; exact hc ⟨hwu, by rw [← hwu]; exact h0⟩
        · rw [← hwu]; exact List.mem_singleton.mpr rfl
      · left
        rw [SpillVirtualRegister_real_reg, if_neg hwu]

/-- C14, as the code has it: for a `Mul` with in-range vregs, `dst ≠ left`, in a
consistent state with fresh stamps (every reachable state is one), the op succeeds.
It pins `left` to `rax`, requests `dst` and then `right` with `AssignRegister`, and
writes `push rdx`, `imul R`, `pop rdx`, `mov D, rax`, where `R` and `D` are the names
the two requests returned.  When these lines are written and after the op (the four
lines change no table), `left` is resident in `rax`, `right` is resident in the
register named `R`, and `dst` is resident in the register named `D`, which is not
`rax`.  The op has no spill of `rdx` of its own: a vreg other than `left` that occupied
`rdx` before the op still occupies it after the op, unless the pin or one of the two
requests evicted it, and then it has a non-zero spill label and the lines written
before `push rdx` contain its store `mov [rip + Lk], rdx`. -/
theorem C14_mul_sequence (k : KernelType) (s : State) (dst left right : Int)
    (node : ASTNode) (h : Consistent s) (hs : StampsFresh s)
    (hd1 : 1 ≤ dst) (hd2 : dst ≤ 127) (hl1 : 1 ≤ left) (hl2 : left ≤ 127)
    (hr1 : 1 ≤ right) (hr2 : right ≤ 127) (hdl : dst ≠ left) :
    ∃ s2 s3 s' : State,
      AssignRegister (AssignVirtualRegToRealReg s left REAL_REG_RAX) dst =
        .ok (ScratchRegNames (s3.reg_assign_infos dst).real_reg, s2) ∧
      AssignRegister s2 right =
        .ok (ScratchRegNames (s3.reg_assign_infos right).real_reg, s3) ∧
      GenerateOp k s ⟨.kILOpMul, dst, left, right, node⟩ = .ok s' ∧
      s' = (((s3.emit (.fixed "push rdx")).emit
          (.imul (ScratchRegNames (s3.reg_assign_infos right).real_reg))).emit
          (.fixed "pop rdx")).emit
          (.mov_from_rax (ScratchRegNames (s3.reg_assign_infos dst).real_reg)) ∧
      s'.RealRegAssignTable = s3.RealRegAssignTable ∧
      s'.reg_assign_infos = s3.reg_assign_infos ∧
      (s3.reg_assign_infos left).real_reg = REAL_REG_RAX ∧
      s3.RealRegAssignTable REAL_REG_RAX = left ∧
      Resident s3 dst ∧ Resident s3 right ∧
      (s3.reg_assign_infos dst).real_reg ≠ REAL_REG_RAX ∧
      (∀ u : Int, s.RealRegAssignTable REAL_REG_RDX = u → u ≠ 0 → u ≠ left →
        s3.RealRegAssignTable REAL_REG_RDX = u ∨
        ((s3.reg_assign_infos u).save_label_num ≠ 0 ∧
          ∃ l : List Line, s3.out = s.out ++ l ∧
            Line.spill_store (s3.reg_assign_infos u).save_label_num
              (ScratchRegNames REAL_REG_RDX) ∈ l)) := by
  obtain ⟨s2, s3, e2, e3, h3, _, rl, tl, rd, rr⟩ :=
    pin_then_requests s left REAL_REG_RAX dst right h hs hl1 hl2 (by decide) (by decide)
      hd1 hd2 hr1 hr2
  have hne : (s3.reg_assign_infos dst).real_reg ≠ REAL_REG_RAX := by
    intro e
    have := rd.2
    rw [e, tl] at this
    exact hdl this.symm
  refine ⟨s2, s3, _, e2, e3, ?_, rfl, rfl, rfl, rl, tl, rd, rr, hne, ?_⟩
  · simp only [GenerateOp, e2, e3]
  · intro u hu hu0 hul
    have hur := h.table_range REAL_REG_RDX (by decide) (by decide)
    rw [hu] at hur
    have hu1 : 1 ≤ u := by omega
    have hres : (s.reg_assign_infos u).real_reg = REAL_REG_RDX :=
      (h.table_iff u REAL_REG_RDX hu1 hur.2 (by decide) (by decide)).mpr hu
    have h1 := pin_consistent s left REAL_REG_RAX h hl1 hl2 (by decide) (by decide)
    have h2 := AssignRegister_consistent _ dst _ s2 h1 e2
    have key : KeptOrStored s s3 u := by
      refine KeptOrStored_trans s _ s3 u
        (pin_kept_or_stored s left REAL_REG_RAX u h (by decide) (by decide) hu1 hur.2 hul)
        (fun hk1 => ?_) (OutExtends_closed.pin s left REAL_REG_RAX)
        (OutExtends_closed.trans _ _ _ (OutExtends_closed.request _ dst _ s2 e2)
          (OutExtends_closed.request s2 right _ s3 e3))
        (LabelsKept_closed.trans _ _ _ (LabelsKept_closed.request _ dst _ s2 e2)
          (LabelsKept_closed.request s2 right _ s3 e3))
      refine KeptOrStored_trans _ s2 s3 u
        (request_kept_or_stored _ dst _ s2 u h1 e2 hu1 hur.2
          (by rw [hk1, hres]; decide))
        (fun hk2 => request_kept_or_stored s2 right _ s3 u h2 e3 hu1 hur.2
          (by rw [hk2, hk1, hres]; decide))
        (OutExtends_closed.request _ dst _ s2 e2) (OutExtends_closed.request s2 right _ s3 e3)
        (LabelsKept_closed.request s2 right _ s3 e3)
    rcases key with hk | ⟨hl, l, ho, hm⟩
    · left
      rw [hres] at hk
      exact (h3.table_iff u REAL_REG_RDX hu1 hur.2 (by decide) (by decide)).mp hk
    · right
      rw [hres] at hm
      exact ⟨hl, l, ho, hm⟩

theorem rdxStale_inRange : ∀ op ∈ rdxStale, op.InRange := by
  intro op hop
  simp only [rdxStale, fill9, List.cons_append, List.nil_append, List.mem_cons,
    List.mem_singleton, List.not_mem_nil, or_false] at hop
  rcases hop with rfl | rfl | rfl | rfl | rfl | rfl | rfl | rfl | rfl | rfl | rfl | rfl <;>
    simp [AllocOp.InRange]

/-- After `rdxStale` the register `rdx` holds vreg 4 and is the first stale register:
`Mul dst=11 left=1 right=12` stores vreg 4 from `rdx` for `dst` and vreg 5 from `rcx`
for `right`, and `rdx` holds `dst` afterwards. -/
theorem C14_mul_sequence_witness :
    ∃ s : State, runAllocOps State.init rdxStale = .ok s ∧
      Consistent s ∧ StampsFresh s ∧ s.out = [] ∧ s.RealRegAssignTable REAL_REG_RDX = 4 ∧
      (∃ t : State, GenerateOp .kKernelLinux s ⟨.kILOpMul, 11, 1, 12, .none⟩ = .ok t ∧
        t.out.map Line.render =
          ["mov [rip + L1], rdx\n", "mov [rip + L2], rcx\n", "push rdx\n", "imul rcx\n",
           "pop rdx\n", "mov rdx, rax\n"] ∧
        t.RealRegAssignTable REAL_REG_RDX = 11 ∧ (t.reg_assign_infos 4).real_reg = 0) ∧
      ∃ s2 s3 s' : State,
        AssignRegister (AssignVirtualRegToRealReg s 1 REAL_REG_RAX) 11 =
          .ok (ScratchRegNames (s3.reg_assign_infos 11).real_reg, s2) ∧
        AssignRegister s2 12 =
          .ok (ScratchRegNames (s3.reg_assign_infos 12).real_reg, s3) ∧
        GenerateOp .kKernelLinux s ⟨.kILOpMul, 11, 1, 12, .none⟩ = .ok s' ∧
        s'.RealRegAssignTable REAL_REG_RAX = 1 ∧
        (s3.RealRegAssignTable REAL_REG_RDX = 4 ∨
          ((s3.reg_assign_infos 4).save_label_num ≠ 0 ∧
            ∃ l : List Line, s3.out = s.out ++ l ∧
              Line.spill_store (s3.reg_assign_infos 4).save_label_num
                (ScratchRegNames REAL_REG_RDX) ∈ l)) :=
  have hc := runAllocOps_consistent rdxStale State.init _ init_consistent rdxStale_inRange rfl
  have hf := runAllocOps_stamps rdxStale State.init _ init_consistent init_stamps
    rdxStale_inRange rfl
  ⟨_, rfl, hc, hf, by decide, by decide, ⟨_, rfl, by decide, by decide, by decide⟩,
    match C14_mul_sequence .kKernelLinux _ 11 1 12 .none hc hf
      (by decide) (by decide) (by decide) (by decide) (by decide) (by decide) (by decide) with
    | ⟨s2, s3, s', e2, e3, e, _, ht, _, _, tl, _, _, _, hu⟩ =>
      ⟨s2, s3, s', e2, e3, e, by rw [ht]; exact tl, hu 4 (by decide) (by decide) (by decide)⟩⟩

end Compilium
